import Mathlib

/-!
# Qtilities: the activity policy filter

A shallow embedding of `src/Core/source/ActivityPolicyFilter.cpp` (release build:
`QT_NO_DEBUG` defined, so `Q_ASSERT` and the debug-only logging are compiled out
and the `if (!obj) return` guards are compiled in).

The filter object, the observer it points to, the `OBJECT_ACTIVITY` dynamic
property of every `QObject`, and the signals, events and log messages produced
so far are gathered in one explicit state record that every member function
takes and returns.

`Observer.cpp` and `ObserverProperty.h` are not part of the excerpt. The observer
operations the filter calls, and the attach, detach and write protocol that drives
the filter, follow the specification; each such definition says so.
-/

namespace Qtilities.Core

/-- A `QObject*`. The null pointer is `0`. -/
abbrev QObjectPtr := Nat

/-- The enumeration `ActivityPolicyFilter::ActivityPolicy`. A C++ enumeration variable
can hold any integer after a cast (`importFilterSpecificBinary`), which is what
`outOfRange` stands for. -/
inductive ActivityPolicy where
  | UniqueActivity
  | MultipleActivity
  | outOfRange (raw : Nat)
  deriving DecidableEq, Repr

/-- The enumeration `ActivityPolicyFilter::MinimumActivityPolicy`. -/
inductive MinimumActivityPolicy where
  | AllowNoneActive
  | ProhibitNoneActive
  | outOfRange (raw : Nat)
  deriving DecidableEq, Repr

/-- The enumeration `ActivityPolicyFilter::NewSubjectActivityPolicy`. -/
inductive NewSubjectActivityPolicy where
  | SetNewActive
  | SetNewInactive
  | outOfRange (raw : Nat)
  deriving DecidableEq, Repr

/-- Modelled from the spec: the class `ObserverProperty` (declared in a header that is
not part of the excerpt). A context-scoped property: a map from observer ID to value
(`QMap<int,bool>` for `OBJECT_ACTIVITY`, see `QtilitiesCoreConstants.h`) and the
"exportable" flag. -/
structure ObserverProperty where
  context_map : Nat → Option Bool
  is_exportable : Bool

namespace ObserverProperty

/-- Modelled from the spec: the constructor `ObserverProperty(name)`, a property with
no context entries yet. -/
def fresh : ObserverProperty :=
  { context_map := fun _ => none, is_exportable := true }

/-- Modelled from the spec: `ObserverProperty::setIsExportable`. -/
def setIsExportable (p : ObserverProperty) (b : Bool) : ObserverProperty :=
  { p with is_exportable := b }

/-- Modelled from the spec: `ObserverProperty::addContext`, which extends the
property with the entry of one more context. -/
def addContext (p : ObserverProperty) (value : Bool) (observer_context : Nat) :
    ObserverProperty :=
  { p with context_map := fun c => if c = observer_context then some value else p.context_map c }

/-- Modelled from the spec: `ObserverProperty::setValue`, which records the value of
one context. -/
def setValue (p : ObserverProperty) (value : Bool) (observer_context : Nat) :
    ObserverProperty :=
  { p with context_map := fun c => if c = observer_context then some value else p.context_map c }

end ObserverProperty

/-- Modelled from the spec: the part of the class `Observer` (the observation context)
that the filter reads: its identifier and its ordered subject list. -/
structure Observer where
  observer_id : Nat
  subject_list : List QObjectPtr

/-- What a member function makes visible to the outside, in the order it happens. -/
inductive Effect where
  /-- A write of the `OBJECT_ACTIVITY` dynamic property of a subject. -/
  | propertyWritten (subject : QObjectPtr)
  /-- A `QtilitiesPropertyChangeEvent` posted to a subject. -/
  | postedPropertyChangeEvent (subject : QObjectPtr) (observer_id : Nat)
  /-- The signal `notifyDirtyProperty(OBJECT_ACTIVITY)`. -/
  | notifyDirtyProperty
  /-- The signal `activeSubjectsChanged(active, inactive)`. -/
  | activeSubjectsChanged (active inactive : List QObjectPtr)
  deriving DecidableEq, Repr

/-- The `LOG_TRACE` messages of the filter. -/
inductive TraceMessage where
  | setActiveWithoutObserver
  | nullObjectAt (position : Nat)
  | objectNotObserved (object : QObjectPtr)
  | attachmentWithoutObserver
  deriving DecidableEq, Repr

/-- The filter together with the world it acts on. -/
structure ActivityPolicyFilter where
  d_activity_policy : ActivityPolicy
  d_minimum_activity_policy : MinimumActivityPolicy
  d_new_subject_activity_policy : NewSubjectActivityPolicy
  /-- The pointer `observer` of `AbstractSubjectFilter`; `none` is the null pointer. -/
  observer : Option Observer
  /-- Whether `filter_mutex` is held. -/
  filter_mutex : Bool
  /-- The `OBJECT_ACTIVITY` dynamic property of every object; `none` is an invalid
  (absent) property. -/
  activity : QObjectPtr → Option ObserverProperty
  /-- Signals emitted, events posted and properties written so far. -/
  effects : List Effect
  /-- Messages logged so far. -/
  log : List TraceMessage

/-- The constructor `ActivityPolicyFilter::ActivityPolicyFilter`, in a world whose
objects carry the given properties. -/
def ActivityPolicyFilter.new (activity : QObjectPtr → Option ObserverProperty) :
    ActivityPolicyFilter :=
  { d_activity_policy := .UniqueActivity
    d_minimum_activity_policy := .ProhibitNoneActive
    d_new_subject_activity_policy := .SetNewActive
    observer := none
    filter_mutex := false
    activity := activity
    effects := []
    log := [] }

/-! ## The observer operations the filter calls -/

/-- `QVariant::toBool` on the result of a property read: an invalid variant is `false`. -/
def toBool (v : Option Bool) : Bool := v.getD false

/-- Modelled from the spec: `Observer::getObserverProperty(obj, OBJECT_ACTIVITY)`, the
whole property; `none` is an invalid property. -/
def getObserverProperty (s : ActivityPolicyFilter) (obj : QObjectPtr) :
    Option ObserverProperty :=
  s.activity obj

/-- Modelled from the spec: `Observer::getObserverPropertyValue(obj, OBJECT_ACTIVITY)`,
"get-value(subject, property-name, context) → optional value". -/
def getObserverPropertyValue (s : ActivityPolicyFilter) (obs : Observer) (obj : QObjectPtr) :
    Option Bool :=
  match s.activity obj with
  | none => none
  | some p => p.context_map obs.observer_id

/-- Modelled from the spec: `Observer::setObserverProperty(obj, property)`, which stores
the whole property on the object. -/
def setObserverProperty (s : ActivityPolicyFilter) (obj : QObjectPtr) (p : ObserverProperty) :
    ActivityPolicyFilter :=
  { s with
    activity := fun o => if o = obj then some p else s.activity o
    effects := s.effects ++ [Effect.propertyWritten obj] }

/-- Modelled from the spec: `Observer::setObserverPropertyValue(obj, OBJECT_ACTIVITY, value)`,
"set-value(subject, property-name, context, value) → records value". The change
notification that the write raises is routed back to `monitoredPropertyChanged` of this
filter; every call site below holds `filter_mutex`, so that nested call returns at its
first line and is not spelled out. -/
def setObserverPropertyValue (s : ActivityPolicyFilter) (obs : Observer) (obj : QObjectPtr)
    (value : Bool) : ActivityPolicyFilter :=
  setObserverProperty s obj
    (((s.activity obj).getD ObserverProperty.fresh).setValue value obs.observer_id)

/-- The expression `observer->getObserverPropertyValue(obj, OBJECT_ACTIVITY).toBool()`. -/
def isActive (s : ActivityPolicyFilter) (obs : Observer) (obj : QObjectPtr) : Bool :=
  toBool (getObserverPropertyValue s obs obj)

/-! ## Read-only queries -/

/-- `ActivityPolicyFilter::numActiveSubjects`: the counting loop over the subject list. -/
def numActiveSubjects (s : ActivityPolicyFilter) (obs : Observer) : Nat :=
  obs.subject_list.foldl (fun count subj => if isActive s obs subj then count + 1 else count) 0

/-- `ActivityPolicyFilter::activeSubjects`: the loop pushing active subjects back. -/
def activeSubjects (s : ActivityPolicyFilter) (obs : Observer) : List QObjectPtr :=
  obs.subject_list.foldl (fun list subj => if isActive s obs subj then list ++ [subj] else list) []

/-- `ActivityPolicyFilter::inactiveSubjects`: the loop pushing inactive subjects back. -/
def inactiveSubjects (s : ActivityPolicyFilter) (obs : Observer) : List QObjectPtr :=
  obs.subject_list.foldl (fun list subj => if !isActive s obs subj then list ++ [subj] else list) []

/-! ## Small steps shared by the member functions -/

/-- `filter_mutex.tryLock()` with the result ignored: the mutex is held afterwards. -/
def lockFilter (s : ActivityPolicyFilter) : ActivityPolicyFilter :=
  { s with filter_mutex := true }

/-- `filter_mutex.unlock()`. -/
def unlockFilter (s : ActivityPolicyFilter) : ActivityPolicyFilter :=
  { s with filter_mutex := false }

/-- A `LOG_TRACE` call. -/
def logTrace (s : ActivityPolicyFilter) (m : TraceMessage) : ActivityPolicyFilter :=
  { s with log := s.log ++ [m] }

/-- An `emit` or a `postEvent`. -/
def emit (s : ActivityPolicyFilter) (e : Effect) : ActivityPolicyFilter :=
  { s with effects := s.effects ++ [e] }

/-- The loop `for i: setObserverPropertyValue(subjectAt(i), OBJECT_ACTIVITY, false)`. -/
def setAllInactive (s : ActivityPolicyFilter) (obs : Observer) : ActivityPolicyFilter :=
  obs.subject_list.foldl (fun st subj => setObserverPropertyValue st obs subj false) s

/-- The loop `for i: if (subjectAt(i) != obj) setObserverPropertyValue(subjectAt(i),
OBJECT_ACTIVITY, false)`. -/
def setOthersInactive (s : ActivityPolicyFilter) (obs : Observer) (obj : QObjectPtr) :
    ActivityPolicyFilter :=
  obs.subject_list.foldl
    (fun st subj => if subj ≠ obj then setObserverPropertyValue st obs subj false else st) s

/-- The loop `for i: setObserverPropertyValue(objects.at(i), OBJECT_ACTIVITY, true)`. -/
def setListActive (s : ActivityPolicyFilter) (obs : Observer) (objects : List QObjectPtr) :
    ActivityPolicyFilter :=
  objects.foldl (fun st o => setObserverPropertyValue st obs o true) s

/-- The loop posting a `QtilitiesPropertyChangeEvent` to every subject. -/
def postChangeEvents (s : ActivityPolicyFilter) (obs : Observer) : ActivityPolicyFilter :=
  obs.subject_list.foldl
    (fun st subj => emit st (Effect.postedPropertyChangeEvent subj obs.observer_id)) s

/-- The first loop of `setActiveSubjects`: the message of the first element that is a
null pointer or is not contained in the observer, scanning from position `i`. -/
def findInvalidObject (obs : Observer) : Nat → List QObjectPtr → Option TraceMessage
  | _, [] => none
  | i, o :: rest =>
    if o = 0 then some (TraceMessage.nullObjectAt i)
    else if !obs.subject_list.contains o then some (TraceMessage.objectNotObserved o)
    else findInvalidObject obs (i + 1) rest

/-! ## The member functions -/

/-- `ActivityPolicyFilter::setActiveSubjects`. -/
def setActiveSubjects (s : ActivityPolicyFilter) (objects : List QObjectPtr) :
    ActivityPolicyFilter :=
  match s.observer with
  | none => logTrace s TraceMessage.setActiveWithoutObserver
  | some obs =>
    match findInvalidObject obs 0 objects with
    | some m => logTrace s m
    | none =>
      if objects.length = 0 ∧ s.d_minimum_activity_policy = .ProhibitNoneActive then s
      else if objects.length > 1 ∧ s.d_activity_policy = .UniqueActivity then s
      else
        let s1 := lockFilter s
        let s2 := setAllInactive s1 obs
        let s3 := setListActive s2 obs objects
        let s4 := unlockFilter s3
        let s5 := postChangeEvents s4 obs
        emit s5 (Effect.activeSubjectsChanged objects (inactiveSubjects s5 obs))

/-- The result type `AbstractSubjectFilter::EvaluationResult`. -/
inductive EvaluationResult where
  | Allowed
  | Conditional
  | Rejected
  deriving DecidableEq, Repr

/-- `ActivityPolicyFilter::evaluateAttachment`. -/
def evaluateAttachment (_s : ActivityPolicyFilter) (_obj : QObjectPtr) : EvaluationResult :=
  EvaluationResult.Allowed

/-- `ActivityPolicyFilter::initializeAttachment`. -/
def initializeAttachment (s : ActivityPolicyFilter) (obj : QObjectPtr) :
    Bool × ActivityPolicyFilter :=
  if obj = 0 then (false, s)
  else
    match s.observer with
    | none => (false, logTrace s TraceMessage.attachmentWithoutObserver)
    | some _ => (true, s)

/-- The first part of the body of `finalizeAttachment` ("First determine the activity of
the new subject"): the value of `new_activity`, and the state after the loop that makes
the other subjects inactive when it runs. -/
def determineNewActivity (s : ActivityPolicyFilter) (obs : Observer) (obj : QObjectPtr) :
    Bool × ActivityPolicyFilter :=
  if obs.subject_list.length = 1 then
    if s.d_minimum_activity_policy = .ProhibitNoneActive
        ∨ s.d_new_subject_activity_policy = .SetNewActive then (true, s)
    else (false, s)
  else
    if s.d_new_subject_activity_policy = .SetNewActive then
      (true, if s.d_activity_policy = .UniqueActivity then setOthersInactive s obs obj else s)
    else (false, s)

/-- The second part of the body of `finalizeAttachment`: the activity property of the
subject is extended with the entry of this context, or created with it. -/
def storeNewActivity (s : ActivityPolicyFilter) (obs : Observer) (obj : QObjectPtr)
    (new_activity : Bool) : ActivityPolicyFilter :=
  match getObserverProperty s obj with
  | some subject_activity_property =>
    setObserverProperty s obj (subject_activity_property.addContext new_activity obs.observer_id)
  | none =>
    setObserverProperty s obj
      ((ObserverProperty.fresh.setIsExportable false).addContext new_activity obs.observer_id)

/-- The third part of the body of `finalizeAttachment`: the signal emitted when the new
subject is active. -/
def announceNewActivity (s : ActivityPolicyFilter) (obs : Observer) (obj : QObjectPtr)
    (new_activity : Bool) : ActivityPolicyFilter :=
  if new_activity then
    emit s (Effect.activeSubjectsChanged (activeSubjects s obs ++ [obj]) (inactiveSubjects s obs))
  else s

/-- `ActivityPolicyFilter::finalizeAttachment`. -/
def finalizeAttachment (s : ActivityPolicyFilter) (obj : QObjectPtr)
    (attachment_successful : Bool) : ActivityPolicyFilter :=
  if obj = 0 then s
  else
    match s.observer with
    | none => logTrace s TraceMessage.attachmentWithoutObserver
    | some obs =>
      if !attachment_successful then s
      else
        let d := determineNewActivity (lockFilter s) obs obj
        unlockFilter
          (announceNewActivity (storeNewActivity d.2 obs obj d.1) obs obj d.1)

/-- `ActivityPolicyFilter::evaluateDetachment`. -/
def evaluateDetachment (_s : ActivityPolicyFilter) (_obj : QObjectPtr) : EvaluationResult :=
  EvaluationResult.Allowed

/-- `ActivityPolicyFilter::initializeDetachment`. -/
def initializeDetachment (_s : ActivityPolicyFilter) (obj : QObjectPtr)
    (_subject_deleted : Bool) : Bool :=
  if obj = 0 then false else true

/-- The part of the body of `finalizeDetachment` guarded by `ProhibitNoneActive`: when
the detached subject is stored as active and no attached subject is active, the subject
at position `0` is made active. -/
def restoreMinimumActivity (s : ActivityPolicyFilter) (obs : Observer) (obj : QObjectPtr) :
    ActivityPolicyFilter :=
  if s.d_minimum_activity_policy = .ProhibitNoneActive then
    if isActive s obs obj = true ∧ numActiveSubjects s obs = 0 then
      setObserverPropertyValue s obs (obs.subject_list.headD 0) true
    else s
  else s

/-- The two signals at the end of the body of `finalizeDetachment`. -/
def announceDetachment (s : ActivityPolicyFilter) (obs : Observer) : ActivityPolicyFilter :=
  let s1 := emit s Effect.notifyDirtyProperty
  emit s1 (Effect.activeSubjectsChanged (activeSubjects s1 obs) (inactiveSubjects s1 obs))

/-- `ActivityPolicyFilter::finalizeDetachment`. The function dereferences `observer`
without a check; `none` is the call through a null `observer`. -/
def finalizeDetachment (s : ActivityPolicyFilter) (obj : QObjectPtr)
    (detachment_successful subject_deleted : Bool) : Option ActivityPolicyFilter :=
  if obj = 0 then some s
  else if !detachment_successful && !subject_deleted then some s
  else
    match (lockFilter s).observer with
    | none => none
    | some obs =>
      if obs.subject_list.length ≥ 1 then
        some (unlockFilter (announceDetachment (restoreMinimumActivity (lockFilter s) obs obj) obs))
      else some (unlockFilter (lockFilter s))

/-- The signal `activeSubjectsChanged(activeSubjects(), inactiveSubjects())`. -/
def announceActiveSubjects (s : ActivityPolicyFilter) (obs : Observer) : ActivityPolicyFilter :=
  emit s (Effect.activeSubjectsChanged (activeSubjects s obs) (inactiveSubjects s obs))

/-- `ActivityPolicyFilter::monitoredPropertyChanged`: the returned boolean and the state. -/
def monitoredPropertyChanged (s : ActivityPolicyFilter) (obj : QObjectPtr) :
    Bool × ActivityPolicyFilter :=
  if s.filter_mutex then (true, s)
  else
    match (lockFilter s).observer with
    | none => (false, lockFilter s)
    | some obs =>
      if isActive (lockFilter s) obs obj then
        if (lockFilter s).d_activity_policy = .UniqueActivity then
          (false, unlockFilter (announceActiveSubjects (setOthersInactive (lockFilter s) obs obj) obs))
        else
          (false, unlockFilter (announceActiveSubjects (lockFilter s) obs))
      else
        if (lockFilter s).d_minimum_activity_policy = .ProhibitNoneActive
            ∧ numActiveSubjects (lockFilter s) obs = 0 then
          (false, unlockFilter
            (announceActiveSubjects (setObserverPropertyValue (lockFilter s) obs obj true) obs))
        else
          (false, unlockFilter (announceActiveSubjects (lockFilter s) obs))

/-- `ActivityPolicyFilter::setActivityPolicy`. -/
def setActivityPolicy (s : ActivityPolicyFilter) (activity_policy : ActivityPolicy) :
    ActivityPolicyFilter :=
  match s.observer with
  | none => { s with d_activity_policy := activity_policy }
  | some _ => s

/-- `ActivityPolicyFilter::setMinimumActivityPolicy`. -/
def setMinimumActivityPolicy (s : ActivityPolicyFilter)
    (minimum_activity_policy : MinimumActivityPolicy) : ActivityPolicyFilter :=
  match s.observer with
  | none => { s with d_minimum_activity_policy := minimum_activity_policy }
  | some _ => s

/-- `ActivityPolicyFilter::setNewSubjectActivityPolicy`. -/
def setNewSubjectActivityPolicy (s : ActivityPolicyFilter)
    (new_subject_activity_policy : NewSubjectActivityPolicy) : ActivityPolicyFilter :=
  match s.observer with
  | none => { s with d_new_subject_activity_policy := new_subject_activity_policy }
  | some _ => s

/-! ## Binary export and import of the policies

`QDataStream` and the header that declares the three enumerations are not part of the
excerpt. -/

/-- Modelled from the spec: a `QDataStream` holding "an ordered sequence of fixed-width
fields", here the sequence of its `quint32` fields, next field to read first. -/
abbrev QDataStream := List Nat

/-- Modelled from the spec: `stream << (quint32) value`, which appends one 32-bit
unsigned field. -/
def QDataStream.write (stream : QDataStream) (value : Nat) : QDataStream :=
  stream ++ [value % 2 ^ 32]

/-- Modelled from the spec: `stream >> ui32`, which takes the next field off the stream;
a read past the end yields `0`. -/
def QDataStream.read (stream : QDataStream) : Nat × QDataStream :=
  match stream with
  | [] => (0, [])
  | value :: rest => (value % 2 ^ 32, rest)

/-- Modelled from the spec: the integer value of an `ActivityPolicy`. The enumerators are
numbered from `0` in the order of the constructors above (the declaration is in a header
that is not part of the excerpt); an undefined value keeps its integer. -/
def ActivityPolicy.toInt : ActivityPolicy → Nat
  | .UniqueActivity => 0
  | .MultipleActivity => 1
  | .outOfRange raw => raw

/-- The cast `(ActivityPolicy) ui32`. -/
def ActivityPolicy.ofInt : Nat → ActivityPolicy
  | 0 => .UniqueActivity
  | 1 => .MultipleActivity
  | raw => .outOfRange raw

/-- Modelled from the spec: the integer value of a `MinimumActivityPolicy`, numbered as
for `ActivityPolicy`. -/
def MinimumActivityPolicy.toInt : MinimumActivityPolicy → Nat
  | .AllowNoneActive => 0
  | .ProhibitNoneActive => 1
  | .outOfRange raw => raw

/-- The cast `(MinimumActivityPolicy) ui32`. -/
def MinimumActivityPolicy.ofInt : Nat → MinimumActivityPolicy
  | 0 => .AllowNoneActive
  | 1 => .ProhibitNoneActive
  | raw => .outOfRange raw

/-- Modelled from the spec: the integer value of a `NewSubjectActivityPolicy`, numbered
as for `ActivityPolicy`. -/
def NewSubjectActivityPolicy.toInt : NewSubjectActivityPolicy → Nat
  | .SetNewActive => 0
  | .SetNewInactive => 1
  | .outOfRange raw => raw

/-- The cast `(NewSubjectActivityPolicy) ui32`. -/
def NewSubjectActivityPolicy.ofInt : Nat → NewSubjectActivityPolicy
  | 0 => .SetNewActive
  | 1 => .SetNewInactive
  | raw => .outOfRange raw

/-- A value of the enumeration that its declaration names. -/
def ActivityPolicy.isDefined : ActivityPolicy → Bool
  | .outOfRange _ => false
  | _ => true

/-- A value of the enumeration that its declaration names. -/
def MinimumActivityPolicy.isDefined : MinimumActivityPolicy → Bool
  | .outOfRange _ => false
  | _ => true

/-- A value of the enumeration that its declaration names. -/
def NewSubjectActivityPolicy.isDefined : NewSubjectActivityPolicy → Bool
  | .outOfRange _ => false
  | _ => true

/-- `ActivityPolicyFilter::exportFilterSpecificBinary`: the returned boolean and the
stream after the three writes. -/
def exportFilterSpecificBinary (s : ActivityPolicyFilter) (stream : QDataStream) :
    Bool × QDataStream :=
  let stream1 := stream.write s.d_activity_policy.toInt
  let stream2 := stream1.write s.d_minimum_activity_policy.toInt
  let stream3 := stream2.write s.d_new_subject_activity_policy.toInt
  (true, stream3)

/-- `ActivityPolicyFilter::importFilterSpecificBinary`: the returned boolean, the filter
and the stream after the three reads. -/
def importFilterSpecificBinary (s : ActivityPolicyFilter) (stream : QDataStream) :
    Bool × ActivityPolicyFilter × QDataStream :=
  let r1 := stream.read
  let s1 := { s with d_activity_policy := ActivityPolicy.ofInt r1.1 }
  let r2 := r1.2.read
  let s2 := { s1 with d_minimum_activity_policy := MinimumActivityPolicy.ofInt r2.1 }
  let r3 := r2.2.read
  let s3 := { s2 with d_new_subject_activity_policy := NewSubjectActivityPolicy.ofInt r3.1 }
  (true, s3, r3.2)

/-! ## The observation context driving the filter

`Observer.cpp` is not part of the excerpt. The three-phase protocol of the
specification (evaluate, initialize, structural change, finalize) is written out
here for a context whose only subject filter is the activity policy filter. -/

/-- Modelled from the spec: the structural change of an attachment, the subject is
appended to the subject list of the context. -/
def appendSubject (s : ActivityPolicyFilter) (obs : Observer) (obj : QObjectPtr) :
    ActivityPolicyFilter :=
  { s with observer := some { obs with subject_list := obs.subject_list ++ [obj] } }

/-- Modelled from the spec: the structural change of a detachment, the subject is
removed from the subject list of the context. -/
def removeSubject (s : ActivityPolicyFilter) (obs : Observer) (obj : QObjectPtr) :
    ActivityPolicyFilter :=
  { s with observer := some { obs with subject_list := obs.subject_list.erase obj } }

/-- Modelled from the spec: `Observer::attachSubject`. A subject that is already
attached is not attached again; a veto or a failed initialization aborts with no
structural change; otherwise the subject is appended to the subject list and the
filter finalizes the attachment. -/
def attachSubject (s : ActivityPolicyFilter) (obj : QObjectPtr) : ActivityPolicyFilter :=
  match s.observer with
  | none => s
  | some obs =>
    if obs.subject_list.contains obj then s
    else if evaluateAttachment s obj = EvaluationResult.Rejected then s
    else
      let r := initializeAttachment s obj
      if !r.1 then r.2
      else finalizeAttachment (appendSubject r.2 obs obj) obj true

/-- Modelled from the spec: the removal of the entry of one context from the activity
property of a detached subject. -/
def removeContext (s : ActivityPolicyFilter) (obs : Observer) (obj : QObjectPtr) :
    ActivityPolicyFilter :=
  { s with
    activity := fun o =>
      if o = obj then
        (s.activity o).map fun p =>
          { p with context_map := fun c => if c = obs.observer_id then none else p.context_map c }
      else s.activity o }

/-- Modelled from the spec: `Observer::detachSubject`. A subject that is not attached is
left alone; a veto (possible only when the subject is not being destroyed) or a failed
initialization aborts; otherwise the subject is removed from the subject list, the filter
finalizes the detachment, and the entry of this context is removed from the property of
the subject. -/
def detachSubject (s : ActivityPolicyFilter) (obj : QObjectPtr) (subject_deleted : Bool) :
    Option ActivityPolicyFilter :=
  match s.observer with
  | none => some s
  | some obs =>
    if !obs.subject_list.contains obj then some s
    else if !subject_deleted && evaluateDetachment s obj = EvaluationResult.Rejected then some s
    else if !initializeDetachment s obj subject_deleted then some s
    else
      match finalizeDetachment (removeSubject s obs obj) obj true subject_deleted with
      | none => none
      | some s1 => some (removeContext s1 obs obj)

/-- Modelled from the spec: a write of the activity of an attached subject from outside
the filter, "set-value ... records value and ... triggers the owning context's
filter-notification path". The result is what `monitoredPropertyChanged` returns. -/
def writeActivity (s : ActivityPolicyFilter) (obj : QObjectPtr) (value : Bool) :
    Bool × ActivityPolicyFilter :=
  match s.observer with
  | none => (false, s)
  | some obs =>
    if !obs.subject_list.contains obj then (false, s)
    else monitoredPropertyChanged (setObserverPropertyValue s obs obj value) obj

/-- A filter with the given policies installed on an empty context. -/
def emptyContext (ap : ActivityPolicy) (mp : MinimumActivityPolicy)
    (np : NewSubjectActivityPolicy) (observer_id : Nat)
    (activity : QObjectPtr → Option ObserverProperty) : ActivityPolicyFilter :=
  { d_activity_policy := ap
    d_minimum_activity_policy := mp
    d_new_subject_activity_policy := np
    observer := some { observer_id := observer_id, subject_list := [] }
    filter_mutex := false
    activity := activity
    effects := []
    log := [] }

/-- One completed operation on a context. -/
inductive Operation where
  | attach (obj : QObjectPtr)
  | detach (obj : QObjectPtr) (subject_deleted : Bool)
  | setActive (objects : List QObjectPtr)
  | write (obj : QObjectPtr) (value : Bool)
  deriving DecidableEq, Repr

/-- The state after one operation; `none` when the operation faults. -/
def applyOperation (s : ActivityPolicyFilter) : Operation → Option ActivityPolicyFilter
  | Operation.attach obj => some (attachSubject s obj)
  | Operation.detach obj subject_deleted => detachSubject s obj subject_deleted
  | Operation.setActive objects => some (setActiveSubjects s objects)
  | Operation.write obj value => some (writeActivity s obj value).2

/-- The state after a sequence of operations. -/
def run : ActivityPolicyFilter → List Operation → Option ActivityPolicyFilter
  | s, [] => some s
  | s, op :: rest =>
    match applyOperation s op with
    | none => none
    | some s1 => run s1 rest

/-- The subject list of the context of the filter; empty without a context. -/
def subjects (s : ActivityPolicyFilter) : List QObjectPtr :=
  match s.observer with
  | none => []
  | some obs => obs.subject_list

/-- The number of active subjects of the context of the filter; `0` without a context. -/
def activeCount (s : ActivityPolicyFilter) : Nat :=
  match s.observer with
  | none => 0
  | some obs => numActiveSubjects s obs

/-- The active subjects of the context of the filter; empty without a context. -/
def activeList (s : ActivityPolicyFilter) : List QObjectPtr :=
  match s.observer with
  | none => []
  | some obs => activeSubjects s obs

/-- The stored activity of a subject in the context of the filter. -/
def activeIn (s : ActivityPolicyFilter) (obj : QObjectPtr) : Bool :=
  match s.observer with
  | none => false
  | some obs => isActive s obs obj

/-- The policy fields and the context pointer of the filter. -/
def configuration (s : ActivityPolicyFilter) :
    ActivityPolicy × MinimumActivityPolicy × NewSubjectActivityPolicy × Option Observer :=
  (s.d_activity_policy, s.d_minimum_activity_policy, s.d_new_subject_activity_policy, s.observer)

/-- The state of a filter between two operations of its context: the context is set,
no subject is attached twice, and the guard is free. -/
def Settled (s : ActivityPolicyFilter) (obs : Observer) : Prop :=
  s.observer = some obs ∧ obs.subject_list.Nodup ∧ s.filter_mutex = false

/-- The three policy fields of the filter. -/
def policies (s : ActivityPolicyFilter) :
    ActivityPolicy × MinimumActivityPolicy × NewSubjectActivityPolicy :=
  (s.d_activity_policy, s.d_minimum_activity_policy, s.d_new_subject_activity_policy)

/-- The two activity invariants of the specification, for a filter on the context `obs`:
under `UniqueActivity` at most one subject is active, and under `ProhibitNoneActive` a
context that holds a subject has an active subject. -/
def ActivityInvariant (s : ActivityPolicyFilter) (obs : Observer) : Prop :=
  (s.d_activity_policy = .UniqueActivity → numActiveSubjects s obs ≤ 1)
    ∧ (s.d_minimum_activity_policy = .ProhibitNoneActive → obs.subject_list ≠ [] →
        1 ≤ numActiveSubjects s obs)

/-! ## Reading the effects -/

/-- The effect is a write of an activity property. -/
def Effect.isWrite : Effect → Bool
  | .propertyWritten _ => true
  | _ => false

/-- The effect is the aggregate signal `activeSubjectsChanged`. -/
def Effect.isAggregate : Effect → Bool
  | .activeSubjectsChanged _ _ => true
  | _ => false

/-- The effect is the signal `notifyDirtyProperty`. -/
def Effect.isDirtyNotification : Effect → Bool
  | .notifyDirtyProperty => true
  | _ => false

/-- The step from `s` to `t` leaves the activity value that every object has in every
context other than `observer_id` as it was. -/
def KeepsOtherContexts (observer_id : Nat) (s t : ActivityPolicyFilter) : Prop :=
  ∀ (other : Observer) (x : QObjectPtr), other.observer_id ≠ observer_id →
    getObserverPropertyValue t other x = getObserverPropertyValue s other x

/-! ## Example worlds -/

/-- No object carries an activity property. -/
def noActivity : QObjectPtr → Option ObserverProperty := fun _ => none

/-- Every object of the list `act` is active in context `ctx`, every other object is
inactive there. -/
def activityOf (ctx : Nat) (act : List QObjectPtr) : QObjectPtr → Option ObserverProperty :=
  fun o => some ((ObserverProperty.fresh.setIsExportable false).addContext (act.contains o) ctx)

/-- The condition under which `monitoredPropertyChanged` overrides the incoming value:
the value is false, the policy is `ProhibitNoneActive`, and no subject is active. -/
def overridesWrite (s : ActivityPolicyFilter) (obs : Observer) (obj : QObjectPtr) : Prop :=
  isActive s obs obj = false ∧ s.d_minimum_activity_policy = .ProhibitNoneActive
    ∧ numActiveSubjects s obs = 0

instance (s : ActivityPolicyFilter) (obs : Observer) (obj : QObjectPtr) :
    Decidable (overridesWrite s obs obj) := by
  unfold overridesWrite
  infer_instance

/-- The context `7` holding the given subjects. -/
def exampleObserver (subject_list : List QObjectPtr) : Observer :=
  { observer_id := 7, subject_list := subject_list }

/-- A filter with the given policies on context `7` holding the given subjects, of
which those in `act` are active. -/
def exampleFilter (ap : ActivityPolicy) (mp : MinimumActivityPolicy)
    (np : NewSubjectActivityPolicy) (subject_list act : List QObjectPtr) : ActivityPolicyFilter :=
  { d_activity_policy := ap
    d_minimum_activity_policy := mp
    d_new_subject_activity_policy := np
    observer := some (exampleObserver subject_list)
    filter_mutex := false
    activity := activityOf 7 act
    effects := []
    log := [] }

/-- Every object is active in context `other`; in context `ctx` the objects of the list
`act` are active and every other object is inactive. -/
def activityInTwoContexts (ctx other : Nat) (act : List QObjectPtr) :
    QObjectPtr → Option ObserverProperty :=
  fun o =>
    some (((ObserverProperty.fresh.setIsExportable false).addContext true other).addContext
      (act.contains o) ctx)

/-- The filter `exampleFilter` in a world where every object is also active in the other
context `9`. -/
def exampleSharedFilter (ap : ActivityPolicy) (mp : MinimumActivityPolicy)
    (np : NewSubjectActivityPolicy) (subject_list act : List QObjectPtr) : ActivityPolicyFilter :=
  { d_activity_policy := ap
    d_minimum_activity_policy := mp
    d_new_subject_activity_policy := np
    observer := some (exampleObserver subject_list)
    filter_mutex := false
    activity := activityInTwoContexts 7 9 act
    effects := []
    log := [] }

/-- The other context `9`. -/
def otherObserver (subject_list : List QObjectPtr) : Observer :=
  { observer_id := 9, subject_list := subject_list }

end Qtilities.Core

/-! # The category filter of the observer table model

A shallow embedding of `ObserverTableModelCategoryFilter::filterAcceptsRow` in
`src/CoreGui/source/ObserverTableModelCategoryFilter.cpp`. -/

namespace Qtilities.CoreGui

/-- What `filterAcceptsRow` reads for one source row from the source model, the table
model and the observer, none of which is part of the excerpt: the result of each call the
function makes, in the order it makes them. -/
structure SourceRow where
  /-- The name of the row contains `filterRegExp()`. -/
  name_matches : Bool
  /-- The cast of `sourceModel()` to `ObserverTableModel*` is not null. -/
  table_model : Bool
  /-- The pointer `table_model->observerContext()` is not null. -/
  observer : Bool
  /-- The test `observer->hierarchicalDisplayHint() == Observer::CategorizedHierarchy`. -/
  categorized_hierarchy : Bool
  /-- The pointer `table_model->getObject(index)` is not null. -/
  object_at_index : Bool
  /-- The string `observer->getObserverPropertyValue(object_at_index, OBJECT_CATEGORY).toString()`. -/
  category : String
  /-- The value of `observer->categoryFilterEnabled()`. -/
  category_filter_enabled : Bool
  /-- The value of `observer->hasInversedCategoryDisplay()`. -/
  has_inversed_category_display : Bool
  /-- The list `observer->displayedCategories()`. -/
  displayed_categories : List String

/-- The category string after the statement
`if (!category.isEmpty()) category = tr("Uncategorized");`. -/
def filteredCategory (category : String) : String :=
  if !category.isEmpty then "Uncategorized" else category

/-- `ObserverTableModelCategoryFilter::filterAcceptsRow`. -/
def filterAcceptsRow (r : SourceRow) : Bool :=
  if !r.name_matches then false
  else
    if r.table_model then
      if r.observer then
        if r.categorized_hierarchy then
          if r.object_at_index then
            let category := filteredCategory r.category
            if r.category_filter_enabled then
              if r.has_inversed_category_display then
                if !r.displayed_categories.contains category then true else false
              else
                if r.displayed_categories.contains category then true else false
            else true
          else false
        else true
      else true
    else true

/-- The category under which an object is filtered as the documentation of the filter
has it: its own `OBJECT_CATEGORY` value when that is not empty, `Uncategorized` when it
is empty. -/
def documentedCategory (category : String) : String :=
  if category.isEmpty then "Uncategorized" else category

/-- A row of a categorized observer whose name matches and whose object exists. -/
def exampleRow (category : String) (category_filter_enabled inversed : Bool)
    (displayed_categories : List String) : SourceRow :=
  { name_matches := true
    table_model := true
    observer := true
    categorized_hierarchy := true
    object_at_index := true
    category := category
    category_filter_enabled := category_filter_enabled
    has_inversed_category_display := inversed
    displayed_categories := displayed_categories }

end Qtilities.CoreGui

/-! # The abstract logger engine

A shallow embedding of `AbstractLoggerEngine::newMessages` and
`AbstractLoggerEngine::enableAllMessageTypes` in
`src/Logging/source/AbstractLoggerEngine.cpp`. -/

namespace Qtilities.Logging

/-- Modelled from the spec: the flag `Logger::Info`. `Logger.h` is not part of the
excerpt; each message type is one bit of the enabled message types. -/
def Logger.Info : Nat := 1

/-- Modelled from the spec: the flag `Logger::Warning`. -/
def Logger.Warning : Nat := 2

/-- Modelled from the spec: the flag `Logger::Error`. -/
def Logger.Error : Nat := 4

/-- Modelled from the spec: the flag `Logger::Fatal`. -/
def Logger.Fatal : Nat := 8

/-- Modelled from the spec: the flag `Logger::Debug`. -/
def Logger.Debug : Nat := 16

/-- Modelled from the spec: the flag `Logger::Trace`. -/
def Logger.Trace : Nat := 32

/-- A formatting engine: its `formatMessage(message_type, messages)`. The class is not
part of the excerpt and the function is left arbitrary. -/
structure AbstractFormattingEngine where
  formatMessage : Nat → List String → String

/-- The data of an `AbstractLoggerEngine`, with the messages handed to the pure virtual
`logMessage` so far. -/
structure AbstractLoggerEngine where
  objectName : String
  /-- The pointer `formatting_engine`; `none` is the null pointer. -/
  formatting_engine : Option AbstractFormattingEngine
  is_enabled : Bool
  enabled_message_types : Nat
  logged : List String

/-- A call of the pure virtual `logMessage`. -/
def logMessage (e : AbstractLoggerEngine) (message : String) : AbstractLoggerEngine :=
  { e with logged := e.logged ++ [message] }

/-- `AbstractLoggerEngine::setEnabledMessageTypes`. -/
def setEnabledMessageTypes (e : AbstractLoggerEngine) (message_types : Nat) :
    AbstractLoggerEngine :=
  { e with enabled_message_types := message_types }

/-- `AbstractLoggerEngine::enableAllMessageTypes`. -/
def enableAllMessageTypes (e : AbstractLoggerEngine) : AbstractLoggerEngine :=
  let e0 := { e with enabled_message_types := 0 }
  let e1 := { e0 with enabled_message_types := e0.enabled_message_types ||| Logger.Info }
  let e2 := { e1 with enabled_message_types := e1.enabled_message_types ||| Logger.Warning }
  let e3 := { e2 with enabled_message_types := e2.enabled_message_types ||| Logger.Error }
  let e4 := { e3 with enabled_message_types := e3.enabled_message_types ||| Logger.Fatal }
  let e5 := { e4 with enabled_message_types := e4.enabled_message_types ||| Logger.Debug }
  { e5 with enabled_message_types := e5.enabled_message_types ||| Logger.Trace }

/-- `AbstractLoggerEngine::newMessages`. -/
def newMessages (e : AbstractLoggerEngine) (engine_name : String) (message_type : Nat)
    (messages : List String) : AbstractLoggerEngine :=
  if engine_name ≠ "All" ∧ engine_name ≠ e.objectName then e
  else
    if e.is_enabled then
      match e.formatting_engine with
      | some formatting_engine =>
        if e.enabled_message_types &&& message_type ≠ 0 then
          logMessage e (formatting_engine.formatMessage message_type messages)
        else e
      | none => e
    else e

/-- The condition under which the documentation of the engine has a message logged. -/
def passesGate (e : AbstractLoggerEngine) (engine_name : String) (message_type : Nat) : Prop :=
  (engine_name = "All" ∨ engine_name = e.objectName) ∧ e.is_enabled = true
    ∧ e.formatting_engine.isSome = true ∧ e.enabled_message_types &&& message_type ≠ 0

/-- A formatting engine that joins the messages. -/
def exampleFormattingEngine : AbstractFormattingEngine :=
  { formatMessage := fun _ messages => String.join messages }

/-- An active engine named `File` with a formatting engine and all message types enabled. -/
def exampleEngine : AbstractLoggerEngine :=
  enableAllMessageTypes
    { objectName := "File"
      formatting_engine := some exampleFormattingEngine
      is_enabled := true
      enabled_message_types := 0
      logged := [] }

end Qtilities.Logging

/-! ## Lemmas about the model -/

namespace Qtilities.Core

section Queries

variable {α : Type}

theorem foldl_count_eq (p : α → Bool) (l : List α) (n : Nat) :
    l.foldl (fun count x => if p x then count + 1 else count) n = n + l.countP p := by
  induction l generalizing n with
  | nil => simp
  | cons a l ih =>
    simp only [List.foldl_cons, List.countP_cons]
    rw [ih]
    by_cases h : p a = true <;> simp [h]
    omega

theorem foldl_push_eq (p : α → Bool) (l acc : List α) :
    l.foldl (fun list x => if p x then list ++ [x] else list) acc = acc ++ l.filter p := by
  induction l generalizing acc with
  | nil => simp
  | cons a l ih =>
    simp only [List.foldl_cons, List.filter_cons]
    rw [ih]
    by_cases h : p a = true <;> simp [h]

end Queries

theorem numActiveSubjects_eq_countP (s : ActivityPolicyFilter) (obs : Observer) :
    numActiveSubjects s obs = obs.subject_list.countP (isActive s obs) := by
  unfold numActiveSubjects
  rw [foldl_count_eq (isActive s obs)]
  simp

theorem activeSubjects_eq_filter (s : ActivityPolicyFilter) (obs : Observer) :
    activeSubjects s obs = obs.subject_list.filter (isActive s obs) := by
  unfold activeSubjects
  rw [foldl_push_eq (isActive s obs)]
  simp

theorem inactiveSubjects_eq_filter (s : ActivityPolicyFilter) (obs : Observer) :
    inactiveSubjects s obs = obs.subject_list.filter (fun x => !isActive s obs x) := by
  unfold inactiveSubjects
  rw [foldl_push_eq (fun x => !isActive s obs x)]
  simp

/-- Reading the activity depends on the property store only. -/
theorem isActive_congr {s t : ActivityPolicyFilter} (h : s.activity = t.activity)
    (obs : Observer) (x : QObjectPtr) : isActive s obs x = isActive t obs x := by
  simp [isActive, getObserverPropertyValue, h]

theorem numActiveSubjects_congr {s t : ActivityPolicyFilter} (obs : Observer)
    (h : ∀ x ∈ obs.subject_list, isActive s obs x = isActive t obs x) :
    numActiveSubjects s obs = numActiveSubjects t obs := by
  rw [numActiveSubjects_eq_countP, numActiveSubjects_eq_countP]
  exact List.countP_congr (fun x hx => by rw [h x hx])

theorem activeSubjects_congr {s t : ActivityPolicyFilter} (obs : Observer)
    (h : ∀ x ∈ obs.subject_list, isActive s obs x = isActive t obs x) :
    activeSubjects s obs = activeSubjects t obs := by
  rw [activeSubjects_eq_filter, activeSubjects_eq_filter]
  exact List.filter_congr (fun x hx => h x hx)

/-- A write records the value for the written subject and leaves every other subject. -/
theorem isActive_setObserverPropertyValue (s : ActivityPolicyFilter) (obs : Observer)
    (o : QObjectPtr) (v : Bool) (x : QObjectPtr) :
    isActive (setObserverPropertyValue s obs o v) obs x
      = if x = o then v else isActive s obs x := by
  by_cases h : x = o
  · simp [isActive, getObserverPropertyValue, setObserverPropertyValue, setObserverProperty,
      ObserverProperty.setValue, toBool, h]
  · simp [isActive, getObserverPropertyValue, setObserverPropertyValue, setObserverProperty, h]

theorem isActive_foldl_inactive (obs : Observer) (x : QObjectPtr) (l : List QObjectPtr)
    (s : ActivityPolicyFilter) :
    isActive (l.foldl (fun st subj => setObserverPropertyValue st obs subj false) s) obs x
      = if x ∈ l then false else isActive s obs x := by
  induction l generalizing s with
  | nil => simp
  | cons a l ih =>
    simp only [List.foldl_cons, List.mem_cons]
    rw [ih, isActive_setObserverPropertyValue]
    by_cases h1 : x ∈ l <;> by_cases h2 : x = a <;> simp [h1, h2]

theorem isActive_foldl_others (obs : Observer) (obj x : QObjectPtr) (l : List QObjectPtr)
    (s : ActivityPolicyFilter) :
    isActive (l.foldl
        (fun st subj => if subj ≠ obj then setObserverPropertyValue st obs subj false else st) s)
        obs x
      = if x ∈ l ∧ x ≠ obj then false else isActive s obs x := by
  induction l generalizing s with
  | nil => simp
  | cons a l ih =>
    simp only [List.foldl_cons, List.mem_cons]
    rw [ih]
    by_cases h1 : x ∈ l <;> by_cases h2 : x = a <;> by_cases h3 : a = obj <;>
      by_cases h4 : x = obj <;> simp_all [isActive_setObserverPropertyValue]

theorem isActive_foldl_active (obs : Observer) (x : QObjectPtr) (l : List QObjectPtr)
    (s : ActivityPolicyFilter) :
    isActive (l.foldl (fun st o => setObserverPropertyValue st obs o true) s) obs x
      = if x ∈ l then true else isActive s obs x := by
  induction l generalizing s with
  | nil => simp
  | cons a l ih =>
    simp only [List.foldl_cons, List.mem_cons]
    rw [ih, isActive_setObserverPropertyValue]
    by_cases h1 : x ∈ l <;> by_cases h2 : x = a <;> simp [h1, h2]

theorem isActive_setAllInactive (s : ActivityPolicyFilter) (obs : Observer) (x : QObjectPtr) :
    isActive (setAllInactive s obs) obs x
      = if x ∈ obs.subject_list then false else isActive s obs x :=
  isActive_foldl_inactive obs x obs.subject_list s

theorem isActive_setOthersInactive (s : ActivityPolicyFilter) (obs : Observer)
    (obj x : QObjectPtr) :
    isActive (setOthersInactive s obs obj) obs x
      = if x ∈ obs.subject_list ∧ x ≠ obj then false else isActive s obs x :=
  isActive_foldl_others obs obj x obs.subject_list s

theorem isActive_setListActive (s : ActivityPolicyFilter) (obs : Observer)
    (objects : List QObjectPtr) (x : QObjectPtr) :
    isActive (setListActive s obs objects) obs x
      = if x ∈ objects then true else isActive s obs x :=
  isActive_foldl_active obs x objects s

/-- The validation loop of `setActiveSubjects` finds nothing exactly when every element
is a non-null attached subject. -/
theorem findInvalidObject_eq_none (obs : Observer) (objects : List QObjectPtr) (i : Nat) :
    findInvalidObject obs i objects = none
      ↔ ∀ o ∈ objects, o ≠ 0 ∧ o ∈ obs.subject_list := by
  induction objects generalizing i with
  | nil => simp [findInvalidObject]
  | cons a l ih =>
    unfold findInvalidObject
    by_cases h0 : a = 0
    · simp [h0]
    · by_cases h1 : a ∈ obs.subject_list
      · simp [h0, h1, ih]
      · simp [h0, h1]


/-! ### What the small steps leave alone -/

theorem foldl_config {β : Type} (f : ActivityPolicyFilter → β → ActivityPolicyFilter)
    (P : ActivityPolicyFilter → Prop) (hf : ∀ st b, P st → P (f st b)) (l : List β)
    (s : ActivityPolicyFilter) (hs : P s) : P (l.foldl f s) := by
  induction l generalizing s with
  | nil => simpa using hs
  | cons a l ih => exact ih (f s a) (hf s a hs)

theorem configuration_observer {s t : ActivityPolicyFilter}
    (h : configuration t = configuration s) : t.observer = s.observer := by
  simp only [configuration, Prod.mk.injEq] at h
  exact h.2.2.2

theorem configuration_activity_policy {s t : ActivityPolicyFilter}
    (h : configuration t = configuration s) : t.d_activity_policy = s.d_activity_policy := by
  simp only [configuration, Prod.mk.injEq] at h
  exact h.1

theorem configuration_minimum_activity_policy {s t : ActivityPolicyFilter}
    (h : configuration t = configuration s) :
    t.d_minimum_activity_policy = s.d_minimum_activity_policy := by
  simp only [configuration, Prod.mk.injEq] at h
  exact h.2.1

theorem configuration_new_subject_activity_policy {s t : ActivityPolicyFilter}
    (h : configuration t = configuration s) :
    t.d_new_subject_activity_policy = s.d_new_subject_activity_policy := by
  simp only [configuration, Prod.mk.injEq] at h
  exact h.2.2.1

@[simp]
theorem configuration_emit (s : ActivityPolicyFilter) (e : Effect) :
    configuration (emit s e) = configuration s := rfl

@[simp]
theorem configuration_lockFilter (s : ActivityPolicyFilter) :
    configuration (lockFilter s) = configuration s := rfl

@[simp]
theorem configuration_unlockFilter (s : ActivityPolicyFilter) :
    configuration (unlockFilter s) = configuration s := rfl

@[simp]
theorem configuration_logTrace (s : ActivityPolicyFilter) (m : TraceMessage) :
    configuration (logTrace s m) = configuration s := rfl

@[simp]
theorem configuration_setObserverProperty (s : ActivityPolicyFilter) (o : QObjectPtr)
    (p : ObserverProperty) : configuration (setObserverProperty s o p) = configuration s := rfl

@[simp]
theorem configuration_setObserverPropertyValue (s : ActivityPolicyFilter)
    (obs : Observer) (o : QObjectPtr) (v : Bool) :
    configuration (setObserverPropertyValue s obs o v) = configuration s := rfl

@[simp]
theorem configuration_setAllInactive (s : ActivityPolicyFilter) (obs : Observer) :
    configuration (setAllInactive s obs) = configuration s := by
  unfold setAllInactive
  exact foldl_config _ (fun st => configuration st = configuration s)
    (fun st b h => by simpa using h) _ s rfl

@[simp]
theorem configuration_setOthersInactive (s : ActivityPolicyFilter) (obs : Observer)
    (obj : QObjectPtr) : configuration (setOthersInactive s obs obj) = configuration s := by
  unfold setOthersInactive
  refine foldl_config _ (fun st => configuration st = configuration s) ?_ _ s rfl
  intro st b h
  by_cases hb : b = obj <;> simpa [hb] using h

@[simp]
theorem configuration_setListActive (s : ActivityPolicyFilter) (obs : Observer)
    (objects : List QObjectPtr) : configuration (setListActive s obs objects) = configuration s := by
  unfold setListActive
  exact foldl_config _ (fun st => configuration st = configuration s)
    (fun st b h => by simpa using h) _ s rfl

@[simp]
theorem configuration_postChangeEvents (s : ActivityPolicyFilter) (obs : Observer) :
    configuration (postChangeEvents s obs) = configuration s := by
  unfold postChangeEvents
  exact foldl_config _ (fun st => configuration st = configuration s)
    (fun st b h => by simpa using h) _ s rfl

@[simp]
theorem activity_postChangeEvents (s : ActivityPolicyFilter) (obs : Observer) :
    (postChangeEvents s obs).activity = s.activity := by
  unfold postChangeEvents
  exact foldl_config _ (fun st => st.activity = s.activity)
    (fun st b h => by simpa [emit] using h) _ s rfl

@[simp]
theorem filter_mutex_postChangeEvents (s : ActivityPolicyFilter) (obs : Observer) :
    (postChangeEvents s obs).filter_mutex = s.filter_mutex := by
  unfold postChangeEvents
  exact foldl_config _ (fun st => st.filter_mutex = s.filter_mutex)
    (fun st b h => by simpa [emit] using h) _ s rfl

@[simp]
theorem isActive_emit (s : ActivityPolicyFilter) (e : Effect) (obs : Observer)
    (x : QObjectPtr) : isActive (emit s e) obs x = isActive s obs x := rfl

@[simp]
theorem isActive_lockFilter (s : ActivityPolicyFilter) (obs : Observer)
    (x : QObjectPtr) : isActive (lockFilter s) obs x = isActive s obs x := rfl

@[simp]
theorem isActive_unlockFilter (s : ActivityPolicyFilter) (obs : Observer)
    (x : QObjectPtr) : isActive (unlockFilter s) obs x = isActive s obs x := rfl

@[simp]
theorem isActive_logTrace (s : ActivityPolicyFilter) (m : TraceMessage) (obs : Observer)
    (x : QObjectPtr) : isActive (logTrace s m) obs x = isActive s obs x := rfl

@[simp]
theorem isActive_postChangeEvents (s : ActivityPolicyFilter) (obs obs2 : Observer)
    (x : QObjectPtr) : isActive (postChangeEvents s obs2) obs x = isActive s obs x :=
  isActive_congr (activity_postChangeEvents s obs2) obs x

/-! ### `setActiveSubjects` -/

/-- The list is accepted by `setActiveSubjects`. -/
theorem setActiveSubjects_of_valid (s : ActivityPolicyFilter) (obs : Observer)
    (objects : List QObjectPtr) (hobs : s.observer = some obs)
    (hv : ∀ o ∈ objects, o ≠ 0 ∧ o ∈ obs.subject_list)
    (h1 : objects = [] → s.d_minimum_activity_policy ≠ .ProhibitNoneActive)
    (h2 : 1 < objects.length → s.d_activity_policy ≠ .UniqueActivity) :
    setActiveSubjects s objects
      = emit (postChangeEvents (unlockFilter
            (setListActive (setAllInactive (lockFilter s) obs) obs objects)) obs)
          (Effect.activeSubjectsChanged objects
            (inactiveSubjects (postChangeEvents (unlockFilter
              (setListActive (setAllInactive (lockFilter s) obs) obs objects)) obs) obs)) := by
  have hv2 := (findInvalidObject_eq_none obs objects 0).2 hv
  have h1a : ¬ (objects.length = 0 ∧ s.d_minimum_activity_policy = .ProhibitNoneActive) := by
    rintro ⟨ha, hb⟩
    exact h1 (List.length_eq_zero.1 ha) hb
  have h2a : ¬ (objects.length > 1 ∧ s.d_activity_policy = .UniqueActivity) := by
    rintro ⟨ha, hb⟩
    exact h2 ha hb
  simp only [setActiveSubjects, hobs, hv2, h1a, h2a, if_false]

/-- The list is refused by `setActiveSubjects`: only the log can change. -/
theorem setActiveSubjects_of_invalid (s : ActivityPolicyFilter) (objects : List QObjectPtr)
    (h : (∃ o ∈ objects, o = 0 ∨ o ∉ subjects s)
      ∨ (objects = [] ∧ s.d_minimum_activity_policy = .ProhibitNoneActive)
      ∨ (1 < objects.length ∧ s.d_activity_policy = .UniqueActivity)) :
    (setActiveSubjects s objects).activity = s.activity
      ∧ (setActiveSubjects s objects).effects = s.effects
      ∧ (setActiveSubjects s objects).filter_mutex = s.filter_mutex := by
  unfold setActiveSubjects
  split
  · exact ⟨rfl, rfl, rfl⟩
  · rename_i obs hobs
    split
    · exact ⟨rfl, rfl, rfl⟩
    · rename_i hf
      have hv := (findInvalidObject_eq_none obs objects 0).1 hf
      rcases h with ⟨o, ho, h0⟩ | ⟨he, hp⟩ | ⟨hl, hu⟩
      · exfalso
        have := hv o ho
        simp only [subjects, hobs] at h0
        rcases h0 with h0 | h0
        · exact this.1 h0
        · exact h0 this.2
      · simp [he, hp]
      · by_cases hc : objects.length = 0 ∧ s.d_minimum_activity_policy = .ProhibitNoneActive
        · simp [hc]
        · simp [hc, hl, hu]

theorem isActive_setActiveSubjects (s : ActivityPolicyFilter) (obs : Observer)
    (objects : List QObjectPtr) (hobs : s.observer = some obs)
    (hv : ∀ o ∈ objects, o ≠ 0 ∧ o ∈ obs.subject_list)
    (h1 : objects = [] → s.d_minimum_activity_policy ≠ .ProhibitNoneActive)
    (h2 : 1 < objects.length → s.d_activity_policy ≠ .UniqueActivity) (x : QObjectPtr) :
    isActive (setActiveSubjects s objects) obs x
      = if x ∈ objects then true
        else if x ∈ obs.subject_list then false else isActive s obs x := by
  rw [setActiveSubjects_of_valid s obs objects hobs hv h1 h2]
  simp [isActive_setListActive, isActive_setAllInactive]

theorem configuration_setActiveSubjects (s : ActivityPolicyFilter) (objects : List QObjectPtr) :
    configuration (setActiveSubjects s objects) = configuration s := by
  unfold setActiveSubjects
  cases hobs : s.observer with
  | none => simp
  | some obs =>
    simp only
    cases hf : findInvalidObject obs 0 objects with
    | some m => simp
    | none =>
      simp only
      split_ifs <;> simp


/-! ### `finalizeAttachment` -/

theorem isActive_setObserverProperty_addContext (s : ActivityPolicyFilter) (obs : Observer)
    (o : QObjectPtr) (p : ObserverProperty) (v : Bool) (x : QObjectPtr) :
    isActive (setObserverProperty s o (p.addContext v obs.observer_id)) obs x
      = if x = o then v else isActive s obs x := by
  by_cases h : x = o
  · simp [isActive, getObserverPropertyValue, setObserverProperty,
      ObserverProperty.addContext, toBool, h]
  · simp [isActive, getObserverPropertyValue, setObserverProperty, h]

theorem isActive_storeNewActivity (s : ActivityPolicyFilter) (obs : Observer)
    (obj : QObjectPtr) (v : Bool) (x : QObjectPtr) :
    isActive (storeNewActivity s obs obj v) obs x = if x = obj then v else isActive s obs x := by
  unfold storeNewActivity
  split <;> exact isActive_setObserverProperty_addContext _ _ _ _ _ _

@[simp]
theorem configuration_storeNewActivity (s : ActivityPolicyFilter) (obs : Observer)
    (obj : QObjectPtr) (v : Bool) :
    configuration (storeNewActivity s obs obj v) = configuration s := by
  unfold storeNewActivity
  split <;> rfl

@[simp]
theorem isActive_announceNewActivity (s : ActivityPolicyFilter) (obs obs2 : Observer)
    (obj : QObjectPtr) (v : Bool) (x : QObjectPtr) :
    isActive (announceNewActivity s obs2 obj v) obs x = isActive s obs x := by
  unfold announceNewActivity
  split <;> rfl

@[simp]
theorem configuration_announceNewActivity (s : ActivityPolicyFilter) (obs : Observer)
    (obj : QObjectPtr) (v : Bool) :
    configuration (announceNewActivity s obs obj v) = configuration s := by
  unfold announceNewActivity
  split <;> rfl

/-- The value of `new_activity` decided by `finalizeAttachment`. -/
theorem determineNewActivity_fst (s : ActivityPolicyFilter) (obs : Observer) (obj : QObjectPtr) :
    (determineNewActivity s obs obj).1
      = if obs.subject_list.length = 1 then
          decide (s.d_minimum_activity_policy = .ProhibitNoneActive
            ∨ s.d_new_subject_activity_policy = .SetNewActive)
        else decide (s.d_new_subject_activity_policy = .SetNewActive) := by
  unfold determineNewActivity
  split_ifs <;> simp_all

theorem isActive_determineNewActivity (s : ActivityPolicyFilter) (obs : Observer)
    (obj x : QObjectPtr) :
    isActive (determineNewActivity s obs obj).2 obs x
      = if obs.subject_list.length ≠ 1 ∧ s.d_new_subject_activity_policy = .SetNewActive
            ∧ s.d_activity_policy = .UniqueActivity ∧ x ∈ obs.subject_list ∧ x ≠ obj then false
        else isActive s obs x := by
  unfold determineNewActivity
  by_cases h1 : obs.subject_list.length = 1
  · have hn : ¬ (obs.subject_list.length ≠ 1 ∧ s.d_new_subject_activity_policy = .SetNewActive
        ∧ s.d_activity_policy = .UniqueActivity ∧ x ∈ obs.subject_list ∧ x ≠ obj) :=
      fun h => h.1 h1
    rw [if_pos h1, if_neg hn]
    split_ifs <;> rfl
  · rw [if_neg h1]
    by_cases h2 : s.d_new_subject_activity_policy = .SetNewActive
    · by_cases h3 : s.d_activity_policy = .UniqueActivity
      · simp [h1, h2, h3, isActive_setOthersInactive]
      · simp [h1, h2, h3]
    · simp [h1, h2]

@[simp]
theorem configuration_determineNewActivity (s : ActivityPolicyFilter) (obs : Observer)
    (obj : QObjectPtr) :
    configuration (determineNewActivity s obs obj).2 = configuration s := by
  unfold determineNewActivity
  split_ifs <;> simp

theorem finalizeAttachment_of_success (s : ActivityPolicyFilter) (obs : Observer)
    (obj : QObjectPtr) (hobs : s.observer = some obs) (hobj : obj ≠ 0) :
    finalizeAttachment s obj true
      = unlockFilter (announceNewActivity
          (storeNewActivity (determineNewActivity (lockFilter s) obs obj).2 obs obj
            (determineNewActivity (lockFilter s) obs obj).1) obs obj
          (determineNewActivity (lockFilter s) obs obj).1) := by
  simp [finalizeAttachment, hobs, hobj]

theorem isActive_finalizeAttachment (s : ActivityPolicyFilter) (obs : Observer)
    (obj : QObjectPtr) (hobs : s.observer = some obs) (hobj : obj ≠ 0) (x : QObjectPtr) :
    isActive (finalizeAttachment s obj true) obs x
      = if x = obj then (determineNewActivity s obs obj).1
        else if obs.subject_list.length ≠ 1
            ∧ s.d_new_subject_activity_policy = .SetNewActive
            ∧ s.d_activity_policy = .UniqueActivity ∧ x ∈ obs.subject_list then false
        else isActive s obs x := by
  rw [finalizeAttachment_of_success s obs obj hobs hobj]
  simp only [isActive_unlockFilter, isActive_announceNewActivity, isActive_storeNewActivity,
    isActive_determineNewActivity]
  by_cases hx : x = obj
  · simp [hx, determineNewActivity_fst]
    rfl
  · simp [hx]
    rfl

theorem configuration_finalizeAttachment (s : ActivityPolicyFilter) (obj : QObjectPtr)
    (b : Bool) : configuration (finalizeAttachment s obj b) = configuration s := by
  unfold finalizeAttachment
  by_cases h0 : obj = 0
  · rw [if_pos h0]
  · rw [if_neg h0]
    split
    · rfl
    · cases b <;> simp


/-! ### `finalizeDetachment` -/

theorem isActive_restoreMinimumActivity (s : ActivityPolicyFilter) (obs : Observer)
    (obj x : QObjectPtr) :
    isActive (restoreMinimumActivity s obs obj) obs x
      = if s.d_minimum_activity_policy = .ProhibitNoneActive ∧ isActive s obs obj = true
            ∧ numActiveSubjects s obs = 0 ∧ x = obs.subject_list.headD 0 then true
        else isActive s obs x := by
  unfold restoreMinimumActivity
  by_cases h1 : s.d_minimum_activity_policy = .ProhibitNoneActive
  · by_cases h2 : isActive s obs obj = true ∧ numActiveSubjects s obs = 0
    · rw [if_pos h1, if_pos h2, isActive_setObserverPropertyValue]
      simp [h1, h2.1, h2.2]
    · rw [if_pos h1, if_neg h2]
      have : ¬ (s.d_minimum_activity_policy = .ProhibitNoneActive ∧ isActive s obs obj = true
          ∧ numActiveSubjects s obs = 0 ∧ x = obs.subject_list.headD 0) :=
        fun h => h2 ⟨h.2.1, h.2.2.1⟩
      rw [if_neg this]
  · rw [if_neg h1, if_neg (fun h => h1 h.1)]

@[simp]
theorem configuration_restoreMinimumActivity (s : ActivityPolicyFilter) (obs : Observer)
    (obj : QObjectPtr) : configuration (restoreMinimumActivity s obs obj) = configuration s := by
  unfold restoreMinimumActivity
  split_ifs <;> rfl

@[simp]
theorem isActive_announceDetachment (s : ActivityPolicyFilter) (obs obs2 : Observer)
    (x : QObjectPtr) : isActive (announceDetachment s obs2) obs x = isActive s obs x := rfl

@[simp]
theorem configuration_announceDetachment (s : ActivityPolicyFilter) (obs : Observer) :
    configuration (announceDetachment s obs) = configuration s := rfl

/-- With a context set, `finalizeDetachment` returns, and the stored activity it leaves
is that of `restoreMinimumActivity` when it goes ahead on a non-empty context. -/
theorem finalizeDetachment_some (s : ActivityPolicyFilter) (obs : Observer) (obj : QObjectPtr)
    (ds sd : Bool) (hobs : s.observer = some obs) :
    ∃ t, finalizeDetachment s obj ds sd = some t
      ∧ configuration t = configuration s
      ∧ (t.filter_mutex = s.filter_mutex ∨ t.filter_mutex = false)
      ∧ ∀ x, isActive t obs x
          = if obj ≠ 0 ∧ (ds = true ∨ sd = true) ∧ obs.subject_list ≠ [] then
              isActive (restoreMinimumActivity s obs obj) obs x
            else isActive s obs x := by
  unfold finalizeDetachment
  by_cases h0 : obj = 0
  · exact ⟨s, by simp [h0], rfl, Or.inl rfl, fun x => by simp [h0]⟩
  · by_cases hf : (!ds && !sd) = true
    · refine ⟨s, by simp [h0, hf], rfl, Or.inl rfl, fun x => ?_⟩
      have : ¬ (ds = true ∨ sd = true) := by
        cases ds <;> cases sd <;> simp_all
      simp [this]
    · have hf2 : ds = true ∨ sd = true := by
        cases ds <;> cases sd <;> simp_all
      have hl : (lockFilter s).observer = some obs := hobs
      by_cases hne : obs.subject_list.length ≥ 1
      · have hne2 : obs.subject_list ≠ [] := by
          intro h; rw [h] at hne; simp at hne
        refine ⟨unlockFilter (announceDetachment (restoreMinimumActivity (lockFilter s) obs obj) obs),
          ?_, by simp, Or.inr rfl, fun x => ?_⟩
        · rw [if_neg h0, if_neg hf]
          simp only [hl, hne, if_true]
        · simp only [isActive_unlockFilter, isActive_announceDetachment]
          rw [if_pos ⟨h0, hf2, hne2⟩, isActive_restoreMinimumActivity,
            isActive_restoreMinimumActivity]
          rfl
      · have hne2 : obs.subject_list = [] := by
          cases hs : obs.subject_list with
          | nil => rfl
          | cons a l => rw [hs] at hne; simp at hne
        refine ⟨unlockFilter (lockFilter s), ?_, by simp, Or.inr rfl, fun x => ?_⟩
        · rw [if_neg h0, if_neg hf]
          simp only [hl, hne, if_false]
        · simp [hne2]

/-! ### `monitoredPropertyChanged` -/

@[simp]
theorem isActive_announceActiveSubjects (s : ActivityPolicyFilter) (obs obs2 : Observer)
    (x : QObjectPtr) : isActive (announceActiveSubjects s obs2) obs x = isActive s obs x := rfl

@[simp]
theorem configuration_announceActiveSubjects (s : ActivityPolicyFilter) (obs : Observer) :
    configuration (announceActiveSubjects s obs) = configuration s := rfl

/-- The busy filter: the call returns `true` and changes nothing. -/
theorem monitoredPropertyChanged_of_locked (s : ActivityPolicyFilter) (obj : QObjectPtr)
    (h : s.filter_mutex = true) : monitoredPropertyChanged s obj = (true, s) := by
  simp [monitoredPropertyChanged, h]

/-- The free filter on a context: the returned value, the guard, and the stored
activity after `monitoredPropertyChanged`. -/
theorem monitoredPropertyChanged_of_free (s : ActivityPolicyFilter) (obs : Observer)
    (obj : QObjectPtr) (hm : s.filter_mutex = false) (hobs : s.observer = some obs) :
    (monitoredPropertyChanged s obj).1 = false
      ∧ (monitoredPropertyChanged s obj).2.filter_mutex = false
      ∧ configuration (monitoredPropertyChanged s obj).2 = configuration s
      ∧ ∀ x, isActive (monitoredPropertyChanged s obj).2 obs x
          = if isActive s obs obj = true then
              (if s.d_activity_policy = .UniqueActivity ∧ x ∈ obs.subject_list ∧ x ≠ obj
                then false else isActive s obs x)
            else if s.d_minimum_activity_policy = .ProhibitNoneActive
                ∧ numActiveSubjects s obs = 0 ∧ x = obj then true
            else isActive s obs x := by
  have hl : (lockFilter s).observer = some obs := hobs
  have hn : numActiveSubjects (lockFilter s) obs = numActiveSubjects s obs := rfl
  have hp1 : (lockFilter s).d_activity_policy = s.d_activity_policy := rfl
  have hp2 : (lockFilter s).d_minimum_activity_policy = s.d_minimum_activity_policy := rfl
  by_cases ha : isActive s obs obj = true
  · by_cases hu : s.d_activity_policy = .UniqueActivity
    · have e : monitoredPropertyChanged s obj
          = (false, unlockFilter (announceActiveSubjects
              (setOthersInactive (lockFilter s) obs obj) obs)) := by
        simp [monitoredPropertyChanged, hm, hl, hp1, ha, hu]
      rw [e]
      refine ⟨rfl, rfl, by simp, fun x => ?_⟩
      simp [isActive_setOthersInactive, ha, hu]
    · have e : monitoredPropertyChanged s obj
          = (false, unlockFilter (announceActiveSubjects (lockFilter s) obs)) := by
        simp [monitoredPropertyChanged, hm, hl, hp1, ha, hu]
      rw [e]
      refine ⟨rfl, rfl, by simp, fun x => ?_⟩
      simp [ha, hu]
  · by_cases hp : s.d_minimum_activity_policy = .ProhibitNoneActive ∧ numActiveSubjects s obs = 0
    · have e : monitoredPropertyChanged s obj
          = (false, unlockFilter (announceActiveSubjects
              (setObserverPropertyValue (lockFilter s) obs obj true) obs)) := by
        simp [monitoredPropertyChanged, hm, hl, hp2, hn, ha, hp.1, hp.2]
      rw [e]
      refine ⟨rfl, rfl, by simp, fun x => ?_⟩
      simp [isActive_setObserverPropertyValue, ha, hp.1, hp.2]
    · have e : monitoredPropertyChanged s obj
          = (false, unlockFilter (announceActiveSubjects (lockFilter s) obs)) := by
        unfold monitoredPropertyChanged
        simp only [hm, hl, hp2, hn, isActive_lockFilter, ha, Bool.false_eq_true, if_false, hp]
      rw [e]
      refine ⟨rfl, rfl, by simp, fun x => ?_⟩
      have : ¬ (s.d_minimum_activity_policy = .ProhibitNoneActive
          ∧ numActiveSubjects s obs = 0 ∧ x = obj) := fun h => hp ⟨h.1, h.2.1⟩
      simp [ha, this]


/-- C3. `setActiveSubjects` on a list that passes validation (every element a non-null
attached subject, non-empty unless the minimum policy allows none, at most one element
unless the activity policy allows several): afterwards an attached subject is active in
this context if and only if it is an element of the list. -/
theorem setActiveSubjects_active_iff_mem (s : ActivityPolicyFilter) (obs : Observer)
    (objects : List QObjectPtr) (hobs : s.observer = some obs)
    (hv : ∀ o ∈ objects, o ≠ 0 ∧ o ∈ obs.subject_list)
    (h1 : objects = [] → s.d_minimum_activity_policy ≠ .ProhibitNoneActive)
    (h2 : 1 < objects.length → s.d_activity_policy ≠ .UniqueActivity) :
    ∀ x ∈ obs.subject_list, (isActive (setActiveSubjects s objects) obs x = true ↔ x ∈ objects) := by
  intro x hx
  rw [isActive_setActiveSubjects s obs objects hobs hv h1 h2 x]
  by_cases hm : x ∈ objects <;> simp [hm, hx]

/-- Scenario 3: `MultipleActivity`, `AllowNoneActive`, `SetNewInactive`, subjects `1` and
`2` attached and inactive; `setActiveSubjects([1, 2])` leaves both active. -/
theorem setActiveSubjects_active_iff_mem_witness :
    (isActive (exampleFilter .MultipleActivity .AllowNoneActive .SetNewInactive [1, 2] [])
        (exampleObserver [1, 2]) 1 = false
      ∧ isActive (exampleFilter .MultipleActivity .AllowNoneActive .SetNewInactive [1, 2] [])
        (exampleObserver [1, 2]) 2 = false)
    ∧ isActive (setActiveSubjects
        (exampleFilter .MultipleActivity .AllowNoneActive .SetNewInactive [1, 2] []) [1, 2])
        (exampleObserver [1, 2]) 1 = true
    ∧ isActive (setActiveSubjects
        (exampleFilter .MultipleActivity .AllowNoneActive .SetNewInactive [1, 2] []) [1, 2])
        (exampleObserver [1, 2]) 2 = true :=
  ⟨by decide,
    (setActiveSubjects_active_iff_mem
      (exampleFilter .MultipleActivity .AllowNoneActive .SetNewInactive [1, 2] [])
      (exampleObserver [1, 2]) [1, 2] rfl (by decide) (by decide) (by decide) 1 (by decide)).2
      (by decide),
    (setActiveSubjects_active_iff_mem
      (exampleFilter .MultipleActivity .AllowNoneActive .SetNewInactive [1, 2] [])
      (exampleObserver [1, 2]) [1, 2] rfl (by decide) (by decide) (by decide) 2 (by decide)).2
      (by decide)⟩

/-- C4. Validation of `setActiveSubjects` is all-or-nothing: when the list contains a
null element or a subject that is not attached, or is empty under `ProhibitNoneActive`,
or has more than one element under `UniqueActivity`, the call leaves the activity
property of every object as it was, emits nothing, and so leaves the list of active
subjects unchanged. -/
theorem setActiveSubjects_rejected_unchanged (s : ActivityPolicyFilter)
    (objects : List QObjectPtr)
    (h : (∃ o ∈ objects, o = 0 ∨ o ∉ subjects s)
      ∨ (objects = [] ∧ s.d_minimum_activity_policy = .ProhibitNoneActive)
      ∨ (1 < objects.length ∧ s.d_activity_policy = .UniqueActivity)) :
    (setActiveSubjects s objects).activity = s.activity
      ∧ (setActiveSubjects s objects).effects = s.effects
      ∧ ∀ obs, activeSubjects (setActiveSubjects s objects) obs = activeSubjects s obs := by
  have h3 := setActiveSubjects_of_invalid s objects h
  exact ⟨h3.1, h3.2.1, fun obs => activeSubjects_congr obs (fun x _ => isActive_congr h3.1 obs x)⟩

/-- Scenario 2: `UniqueActivity`, `ProhibitNoneActive`, subjects `1, 2, 3` with `3`
active; `setActiveSubjects([])` is refused and the active list stays `[3]`. -/
theorem setActiveSubjects_rejected_unchanged_witness :
    (([] : List QObjectPtr) = []
      ∧ (exampleFilter .UniqueActivity .ProhibitNoneActive .SetNewActive [1, 2, 3]
          [3]).d_minimum_activity_policy = .ProhibitNoneActive)
    ∧ activeSubjects (setActiveSubjects
        (exampleFilter .UniqueActivity .ProhibitNoneActive .SetNewActive [1, 2, 3] [3]) [])
        (exampleObserver [1, 2, 3]) = [3] :=
  ⟨⟨rfl, rfl⟩,
    ((setActiveSubjects_rejected_unchanged
      (exampleFilter .UniqueActivity .ProhibitNoneActive .SetNewActive [1, 2, 3] [3]) []
      (Or.inr (Or.inl ⟨rfl, rfl⟩))).2.2 (exampleObserver [1, 2, 3])).trans (by decide)⟩


theorem mem_activeSubjects (s : ActivityPolicyFilter) (obs : Observer) (x : QObjectPtr) :
    x ∈ activeSubjects s obs ↔ x ∈ obs.subject_list ∧ isActive s obs x = true := by
  rw [activeSubjects_eq_filter]
  simp [List.mem_filter]

theorem isActive_eq_false_of_numActiveSubjects_eq_zero (s : ActivityPolicyFilter)
    (obs : Observer) (h : numActiveSubjects s obs = 0) :
    ∀ x ∈ obs.subject_list, isActive s obs x = false := by
  intro x hx
  rw [numActiveSubjects_eq_countP, List.countP_eq_zero] at h
  simpa using h x hx

/-- C5. `monitoredPropertyChanged` under `ProhibitNoneActive`, guard free, called for an
attached subject whose activity was just set to false so that no attached subject is
active: the call sets the activity of that subject back to true, and on return it is
the only active subject of the context. -/
theorem monitoredPropertyChanged_restores_sole_active (s : ActivityPolicyFilter)
    (obs : Observer) (obj : QObjectPtr) (hm : s.filter_mutex = false)
    (hobs : s.observer = some obs)
    (hp : s.d_minimum_activity_policy = .ProhibitNoneActive)
    (hobj : obj ∈ obs.subject_list) (hfalse : isActive s obs obj = false)
    (hnone : numActiveSubjects s obs = 0) :
    isActive (monitoredPropertyChanged s obj).2 obs obj = true
      ∧ ∀ x, x ∈ activeSubjects (monitoredPropertyChanged s obj).2 obs ↔ x = obj := by
  have h := (monitoredPropertyChanged_of_free s obs obj hm hobs).2.2.2
  have hall := isActive_eq_false_of_numActiveSubjects_eq_zero s obs hnone
  refine ⟨by rw [h obj]; simp [hfalse, hp, hnone], fun x => ?_⟩
  rw [mem_activeSubjects, h x]
  by_cases hx : x = obj
  · simp [hx, hfalse, hp, hnone, hobj]
  · by_cases hl : x ∈ obs.subject_list
    · simp [hx, hfalse, hall x hl]
    · simp [hx, hl]

/-- Scenario 5: `ProhibitNoneActive`, subjects `1, 2, 3`; subject `2` was the sole active
subject and has just been written inactive. The call makes `2` active again. -/
theorem monitoredPropertyChanged_restores_sole_active_witness :
    (numActiveSubjects (exampleFilter .UniqueActivity .ProhibitNoneActive .SetNewActive
        [1, 2, 3] []) (exampleObserver [1, 2, 3]) = 0)
    ∧ activeSubjects (monitoredPropertyChanged
        (exampleFilter .UniqueActivity .ProhibitNoneActive .SetNewActive [1, 2, 3] []) 2).2
        (exampleObserver [1, 2, 3]) = [2]
    ∧ isActive (monitoredPropertyChanged
        (exampleFilter .UniqueActivity .ProhibitNoneActive .SetNewActive [1, 2, 3] []) 2).2
        (exampleObserver [1, 2, 3]) 2 = true :=
  ⟨by decide, by decide,
    (monitoredPropertyChanged_restores_sole_active
      (exampleFilter .UniqueActivity .ProhibitNoneActive .SetNewActive [1, 2, 3] [])
      (exampleObserver [1, 2, 3]) 2 rfl rfl rfl (by decide) (by decide) (by decide)).1⟩

/-- C6, as the code has it. With the guard free, `monitoredPropertyChanged` returns
`false` whether it overrides the incoming value or honors the write, with or without a
context; only a call that finds the guard held returns `true`. -/
theorem monitoredPropertyChanged_returns_false_when_free (s : ActivityPolicyFilter)
    (obj : QObjectPtr) (hm : s.filter_mutex = false) :
    (monitoredPropertyChanged s obj).1 = false := by
  cases hobs : s.observer with
  | none =>
    have hl : (lockFilter s).observer = none := hobs
    simp [monitoredPropertyChanged, hm, hl]
  | some obs => exact (monitoredPropertyChanged_of_free s obs obj hm hobs).1

/-- An honored write and an overridden write both make the call return `false`. -/
theorem monitoredPropertyChanged_returns_false_when_free_witness :
    (exampleFilter .MultipleActivity .AllowNoneActive .SetNewActive [1, 2] [1]).filter_mutex
        = false
    ∧ (monitoredPropertyChanged
        (exampleFilter .MultipleActivity .AllowNoneActive .SetNewActive [1, 2] [1]) 1).1 = false :=
  ⟨rfl, monitoredPropertyChanged_returns_false_when_free
    (exampleFilter .MultipleActivity .AllowNoneActive .SetNewActive [1, 2] [1]) 1 rfl⟩

/-- C6 as stated fails: with `MultipleActivity` and `AllowNoneActive`, subjects `1, 2`
and `1` just written active, the write is honored (nothing is overridden), the guard is
free and the context is set, and yet the call returns `false`: the returned value is not
`false` exactly when the filter overrides. -/
theorem monitoredPropertyChanged_result_counterexample :
    (exampleFilter .MultipleActivity .AllowNoneActive .SetNewActive [1, 2] [1]).filter_mutex
        = false
    ∧ (exampleFilter .MultipleActivity .AllowNoneActive .SetNewActive [1, 2] [1]).observer
        = some (exampleObserver [1, 2])
    ∧ ¬ ((monitoredPropertyChanged
          (exampleFilter .MultipleActivity .AllowNoneActive .SetNewActive [1, 2] [1]) 1).1 = false
        ↔ overridesWrite
          (exampleFilter .MultipleActivity .AllowNoneActive .SetNewActive [1, 2] [1])
          (exampleObserver [1, 2]) 1) := by
  refine ⟨rfl, rfl, ?_⟩
  decide


/-- The re-activation of `finalizeDetachment`: under `ProhibitNoneActive`, when the
removed subject is stored as active, at least one subject remains and no remaining
subject is active, the call returns and `subjectAt(0)` is active afterwards. -/
theorem finalizeDetachment_activates_head (s : ActivityPolicyFilter)
    (obs : Observer) (obj : QObjectPtr) (subject_deleted : Bool)
    (hobs : s.observer = some obs) (hobj : obj ≠ 0)
    (hp : s.d_minimum_activity_policy = .ProhibitNoneActive)
    (hne : obs.subject_list ≠ []) (hnone : numActiveSubjects s obs = 0)
    (hwas : isActive s obs obj = true) :
    ∃ t, finalizeDetachment s obj true subject_deleted = some t
      ∧ isActive t obs (obs.subject_list.headD 0) = true := by
  obtain ⟨t, ht, _, _, hact⟩ := finalizeDetachment_some s obs obj true subject_deleted hobs
  refine ⟨t, ht, ?_⟩
  rw [hact, if_pos ⟨hobj, Or.inl rfl, hne⟩, isActive_restoreMinimumActivity]
  simp [hp, hnone, hwas]

/-- C8. `finalizeAttachment` of the first subject of the context (the subject list holds
exactly the subject being attached), attachment successful: for every policy
combination the subject is active in this context afterwards if and only if the minimum
policy is `ProhibitNoneActive` or the new-subject policy is `SetNewActive`. -/
theorem finalizeAttachment_first_subject (s : ActivityPolicyFilter) (obs : Observer)
    (obj : QObjectPtr) (hobs : s.observer = some obs) (hobj : obj ≠ 0)
    (hfirst : obs.subject_list = [obj]) :
    isActive (finalizeAttachment s obj true) obs obj = true
      ↔ (s.d_minimum_activity_policy = .ProhibitNoneActive
          ∨ s.d_new_subject_activity_policy = .SetNewActive) := by
  rw [isActive_finalizeAttachment s obs obj hobs hobj obj, if_pos rfl, determineNewActivity_fst]
  simp [hfirst]

/-- A first subject under `MultipleActivity`, `ProhibitNoneActive`, `SetNewInactive`
becomes active. -/
theorem finalizeAttachment_first_subject_witness :
    ((1 : QObjectPtr) ≠ 0 ∧ (exampleObserver [1]).subject_list = [1])
    ∧ isActive (finalizeAttachment
        (exampleFilter .MultipleActivity .ProhibitNoneActive .SetNewInactive [1] []) 1 true)
        (exampleObserver [1]) 1 = true :=
  ⟨by decide,
    (finalizeAttachment_first_subject
      (exampleFilter .MultipleActivity .ProhibitNoneActive .SetNewInactive [1] [])
      (exampleObserver [1]) 1 rfl (by decide) rfl).2 (Or.inl rfl)⟩

theorem length_ne_one_of_two_mem {l : List QObjectPtr} {a b : QObjectPtr} (ha : a ∈ l)
    (hb : b ∈ l) (hab : b ≠ a) : l.length ≠ 1 := by
  intro h
  obtain ⟨c, hc⟩ := List.length_eq_one.1 h
  rw [hc] at ha hb
  simp only [List.mem_singleton] at ha hb
  exact hab (hb.trans ha.symm)

/-- C9. `finalizeAttachment` of a subject joining a context that already holds another
subject, attachment successful: the new subject is active afterwards if and only if the
new-subject policy is `SetNewActive`; under `SetNewActive` with `UniqueActivity` every
other attached subject is inactive afterwards; under `SetNewInactive`, or under
`MultipleActivity`, the activity of every other subject is what it was. -/
theorem finalizeAttachment_later_subject (s : ActivityPolicyFilter) (obs : Observer)
    (obj other : QObjectPtr) (hobs : s.observer = some obs) (hobj : obj ≠ 0)
    (hmem : obj ∈ obs.subject_list) (hother : other ∈ obs.subject_list)
    (hne : other ≠ obj) :
    (isActive (finalizeAttachment s obj true) obs obj = true
        ↔ s.d_new_subject_activity_policy = .SetNewActive)
      ∧ (s.d_new_subject_activity_policy = .SetNewActive →
          s.d_activity_policy = .UniqueActivity →
          ∀ x ∈ obs.subject_list, x ≠ obj →
            isActive (finalizeAttachment s obj true) obs x = false)
      ∧ (s.d_new_subject_activity_policy = .SetNewInactive
            ∨ s.d_activity_policy = .MultipleActivity →
          ∀ x, x ≠ obj →
            isActive (finalizeAttachment s obj true) obs x = isActive s obs x) := by
  have hlen : obs.subject_list.length ≠ 1 := length_ne_one_of_two_mem hmem hother hne
  have h := isActive_finalizeAttachment s obs obj hobs hobj
  refine ⟨?_, ?_, ?_⟩
  · rw [h obj, if_pos rfl, determineNewActivity_fst]
    simp [hlen]
  · intro hn hu x hx hxo
    rw [h x, if_neg hxo, if_pos ⟨hlen, hn, hu, hx⟩]
  · intro hpol x hxo
    rw [h x, if_neg hxo]
    rcases hpol with hpol | hpol
    · rw [if_neg]
      intro hc
      rw [hpol] at hc
      exact absurd hc.2.1 (by decide)
    · rw [if_neg]
      intro hc
      rw [hpol] at hc
      exact absurd hc.2.2.1 (by decide)

/-- Subject `3` joins a context holding `1` (inactive) and `2` (active) under
`UniqueActivity` and `SetNewActive`: `3` becomes active and `2` inactive. -/
theorem finalizeAttachment_later_subject_witness :
    ((3 : QObjectPtr) ∈ (exampleObserver [1, 2, 3]).subject_list
      ∧ (2 : QObjectPtr) ∈ (exampleObserver [1, 2, 3]).subject_list)
    ∧ isActive (finalizeAttachment
        (exampleFilter .UniqueActivity .ProhibitNoneActive .SetNewActive [1, 2, 3] [2]) 3 true)
        (exampleObserver [1, 2, 3]) 3 = true
    ∧ isActive (finalizeAttachment
        (exampleFilter .UniqueActivity .ProhibitNoneActive .SetNewActive [1, 2, 3] [2]) 3 true)
        (exampleObserver [1, 2, 3]) 2 = false :=
  ⟨by decide,
    (finalizeAttachment_later_subject
      (exampleFilter .UniqueActivity .ProhibitNoneActive .SetNewActive [1, 2, 3] [2])
      (exampleObserver [1, 2, 3]) 3 2 rfl (by decide) (by decide) (by decide) (by decide)).1.2 rfl,
    (finalizeAttachment_later_subject
      (exampleFilter .UniqueActivity .ProhibitNoneActive .SetNewActive [1, 2, 3] [2])
      (exampleObserver [1, 2, 3]) 3 2 rfl (by decide) (by decide) (by decide) (by decide)).2.1
      rfl rfl 2 (by decide) (by decide)⟩


/-! ### The attach protocol -/

/-- Attaching a non-null subject that is not yet attached appends it and finalizes. -/
theorem attachSubject_of_new (s : ActivityPolicyFilter) (obs : Observer) (obj : QObjectPtr)
    (hobs : s.observer = some obs) (hobj : obj ≠ 0) (hnew : obj ∉ obs.subject_list) :
    attachSubject s obj = finalizeAttachment (appendSubject s obs obj) obj true := by
  simp [attachSubject, hobs, hnew, evaluateAttachment, initializeAttachment, hobj]

/-- Attaching a null pointer or an attached subject changes nothing but the log. -/
theorem attachSubject_of_old (s : ActivityPolicyFilter) (obs : Observer) (obj : QObjectPtr)
    (hobs : s.observer = some obs) (h : obj = 0 ∨ obj ∈ obs.subject_list) :
    configuration (attachSubject s obj) = configuration s
      ∧ (attachSubject s obj).activity = s.activity
      ∧ (attachSubject s obj).filter_mutex = s.filter_mutex := by
  by_cases hmem : obj ∈ obs.subject_list
  · simp [attachSubject, hobs, hmem]
  · have h0 : obj = 0 := h.resolve_right hmem
    simp [attachSubject, hobs, hmem, evaluateAttachment, initializeAttachment, h0]

theorem appendSubject_observer (s : ActivityPolicyFilter) (obs : Observer) (obj : QObjectPtr) :
    (appendSubject s obs obj).observer
      = some { obs with subject_list := obs.subject_list ++ [obj] } := rfl

theorem observer_finalizeAttachment (s : ActivityPolicyFilter) (obj : QObjectPtr) (b : Bool) :
    (finalizeAttachment s obj b).observer = s.observer :=
  configuration_observer (configuration_finalizeAttachment s obj b)

/-- Under `UniqueActivity` and `SetNewActive`, after a new subject has been appended and
the attachment finalized, the new subject is the one active subject. -/
theorem activeSubjects_attach_unique (s : ActivityPolicyFilter) (obs : Observer)
    (obj : QObjectPtr) (hobs : s.observer = some obs) (hobj : obj ≠ 0)
    (hnew : obj ∉ obs.subject_list)
    (hu : s.d_activity_policy = .UniqueActivity)
    (hn : s.d_new_subject_activity_policy = .SetNewActive) :
    activeSubjects (attachSubject s obj) { obs with subject_list := obs.subject_list ++ [obj] }
      = [obj] := by
  rw [attachSubject_of_new s obs obj hobs hobj hnew, activeSubjects_eq_filter]
  have h := isActive_finalizeAttachment (appendSubject s obs obj)
    { obs with subject_list := obs.subject_list ++ [obj] } obj rfl hobj
  have hu2 : (appendSubject s obs obj).d_activity_policy = .UniqueActivity := hu
  have hn2 : (appendSubject s obs obj).d_new_subject_activity_policy = .SetNewActive := hn
  have hself : isActive (finalizeAttachment (appendSubject s obs obj) obj true)
      { obs with subject_list := obs.subject_list ++ [obj] } obj = true := by
    rw [h obj, if_pos rfl, determineNewActivity_fst]
    simp [hn2]
  have hrest : ∀ x ∈ obs.subject_list,
      isActive (finalizeAttachment (appendSubject s obs obj) obj true)
        { obs with subject_list := obs.subject_list ++ [obj] } x = false := by
    intro x hx
    have hxo : x ≠ obj := fun e => hnew (e ▸ hx)
    rw [h x, if_neg hxo, if_pos]
    refine ⟨?_, hn2, hu2, by simp [hx]⟩
    simp only [List.length_append, List.length_singleton]
    have : 0 < obs.subject_list.length := List.length_pos_of_mem hx
    omega
  simp only [List.filter_append, List.filter_cons, List.filter_nil, hself, if_true]
  rw [List.filter_eq_nil_iff.2 (fun x hx => by simp [hrest x hx])]
  rfl

/-- Attaching distinct non-null subjects to an empty context one at a time leaves the
context holding exactly these subjects, in order, with its policies untouched. -/
theorem foldl_attachSubject_observer (observer_id : Nat) (l : List QObjectPtr)
    (s : ActivityPolicyFilter)
    (hobs : s.observer = some { observer_id := observer_id, subject_list := [] })
    (hnd : l.Nodup) (h0 : ∀ o ∈ l, o ≠ 0) :
    configuration (l.foldl attachSubject s)
      = (s.d_activity_policy, s.d_minimum_activity_policy, s.d_new_subject_activity_policy,
          some { observer_id := observer_id, subject_list := l }) := by
  induction l using List.reverseRecOn with
  | nil => simp [configuration, hobs]
  | append_singleton l a ih =>
    have hnd2 : l.Nodup ∧ a ∉ l := by
      rw [List.nodup_append] at hnd
      exact ⟨hnd.1, fun h => hnd.2.2 h (List.mem_singleton_self a)⟩
    have ih2 := ih hnd2.1 (fun o ho => h0 o (List.mem_append_left _ ho))
    have ha : a ≠ 0 := h0 a (by simp)
    have hobs2 : (l.foldl attachSubject s).observer
        = some { observer_id := observer_id, subject_list := l } := by
      simp only [configuration, Prod.mk.injEq] at ih2
      exact ih2.2.2.2
    rw [List.foldl_append, List.foldl_cons, List.foldl_nil,
      attachSubject_of_new _ _ a hobs2 ha hnd2.2, configuration_finalizeAttachment]
    simp only [configuration, Prod.mk.injEq] at ih2 ⊢
    exact ⟨ih2.1, ih2.2.1, ih2.2.2.1, rfl⟩

/-- C10. Scenario 1 in general: a context with `UniqueActivity`, `ProhibitNoneActive` and
`SetNewActive` starts empty; after attaching any non-empty sequence of distinct non-null
subjects one at a time, `activeSubjects()` is the one-element list holding the subject
attached last. -/
theorem attach_sequence_active_is_last (observer_id : Nat)
    (activity : QObjectPtr → Option ObserverProperty) (l : List QObjectPtr) (hne : l ≠ [])
    (hnd : l.Nodup) (h0 : ∀ o ∈ l, o ≠ 0) :
    activeList (l.foldl attachSubject
        (emptyContext .UniqueActivity .ProhibitNoneActive .SetNewActive observer_id activity))
      = [l.getLast hne] := by
  induction l using List.reverseRecOn with
  | nil => exact absurd rfl hne
  | append_singleton l a _ =>
    have hnd2 : l.Nodup ∧ a ∉ l := by
      rw [List.nodup_append] at hnd
      exact ⟨hnd.1, fun h => hnd.2.2 h (List.mem_singleton_self a)⟩
    have ha : a ≠ 0 := h0 a (by simp)
    have hc := foldl_attachSubject_observer observer_id l
      (emptyContext .UniqueActivity .ProhibitNoneActive .SetNewActive observer_id activity) rfl
      hnd2.1 (fun o ho => h0 o (List.mem_append_left _ ho))
    simp only [configuration, Prod.mk.injEq] at hc
    have hc2 := foldl_attachSubject_observer observer_id (l ++ [a])
      (emptyContext .UniqueActivity .ProhibitNoneActive .SetNewActive observer_id activity) rfl
      hnd h0
    simp only [configuration, Prod.mk.injEq] at hc2
    have hact := activeSubjects_attach_unique _ _ a hc.2.2.2 ha hnd2.2 (hc.1.trans rfl)
      (hc.2.2.1.trans rfl)
    simp only [activeList, hc2.2.2.2]
    rw [List.foldl_append, List.foldl_cons, List.foldl_nil, List.getLast_append_singleton]
    exact hact

/-- Scenario 1: attaching `1`, `2`, `3` gives the active lists `[1]`, `[2]`, `[3]`. -/
theorem attach_sequence_active_is_last_witness :
    (([1, 2, 3] : List QObjectPtr).Nodup ∧ ∀ o ∈ ([1, 2, 3] : List QObjectPtr), o ≠ 0)
    ∧ activeList ([1].foldl attachSubject
        (emptyContext .UniqueActivity .ProhibitNoneActive .SetNewActive 7 noActivity)) = [1]
    ∧ activeList ([1, 2].foldl attachSubject
        (emptyContext .UniqueActivity .ProhibitNoneActive .SetNewActive 7 noActivity)) = [2]
    ∧ activeList ([1, 2, 3].foldl attachSubject
        (emptyContext .UniqueActivity .ProhibitNoneActive .SetNewActive 7 noActivity)) = [3] :=
  ⟨by decide, by decide, by decide,
    attach_sequence_active_is_last 7 noActivity [1, 2, 3] (by decide) (by decide) (by decide)⟩


/-! ### Counting active subjects -/

theorem countP_le_one_of_unique {l : List QObjectPtr} (hnd : l.Nodup) (p : QObjectPtr → Bool)
    (a : QObjectPtr) (h : ∀ x ∈ l, p x = true → x = a) : l.countP p ≤ 1 := by
  induction l with
  | nil => simp
  | cons b l ih =>
    rw [List.nodup_cons] at hnd
    rw [List.countP_cons]
    by_cases hb : p b = true
    · have hba : b = a := h b (List.mem_cons_self b l) hb
      have hz : l.countP p = 0 := by
        rw [List.countP_eq_zero]
        intro x hx hpx
        have hxa : x = a := h x (List.mem_cons_of_mem b hx) hpx
        exact hnd.1 (by rw [hba, ← hxa]; exact hx)
      simp [hb, hz]
    · have := ih hnd.2 (fun x hx => h x (List.mem_cons_of_mem b hx))
      simp [hb, this]

theorem numActiveSubjects_le_one_of_unique (s : ActivityPolicyFilter) (obs : Observer)
    (hnd : obs.subject_list.Nodup) (a : QObjectPtr)
    (h : ∀ x ∈ obs.subject_list, isActive s obs x = true → x = a) :
    numActiveSubjects s obs ≤ 1 := by
  rw [numActiveSubjects_eq_countP]
  exact countP_le_one_of_unique hnd _ a h

theorem numActiveSubjects_mono (s t : ActivityPolicyFilter) (obs : Observer)
    (h : ∀ x ∈ obs.subject_list, isActive t obs x = true → isActive s obs x = true) :
    numActiveSubjects t obs ≤ numActiveSubjects s obs := by
  rw [numActiveSubjects_eq_countP, numActiveSubjects_eq_countP]
  exact List.countP_mono_left h

theorem numActiveSubjects_pos (s : ActivityPolicyFilter) (obs : Observer) (x : QObjectPtr)
    (hx : x ∈ obs.subject_list) (ha : isActive s obs x = true) :
    1 ≤ numActiveSubjects s obs := by
  rw [numActiveSubjects_eq_countP]
  exact List.countP_pos_iff.2 ⟨x, hx, ha⟩

theorem exists_active_of_numActiveSubjects_pos (s : ActivityPolicyFilter) (obs : Observer)
    (h : 1 ≤ numActiveSubjects s obs) : ∃ x ∈ obs.subject_list, isActive s obs x = true := by
  rw [numActiveSubjects_eq_countP] at h
  exact List.countP_pos_iff.1 h

theorem numActiveSubjects_le_length (s : ActivityPolicyFilter) (obs : Observer) :
    numActiveSubjects s obs ≤ obs.subject_list.length := by
  rw [numActiveSubjects_eq_countP]
  exact List.countP_le_length _

/-! ### Uniqueness, one call at a time -/

theorem setActiveSubjects_unique (s : ActivityPolicyFilter) (obs : Observer)
    (hobs : s.observer = some obs) (hu : s.d_activity_policy = .UniqueActivity)
    (hnd : obs.subject_list.Nodup) (hpre : numActiveSubjects s obs ≤ 1)
    (objects : List QObjectPtr) :
    numActiveSubjects (setActiveSubjects s objects) obs ≤ 1 := by
  by_cases hbad : (∃ o ∈ objects, o = 0 ∨ o ∉ subjects s)
      ∨ (objects = [] ∧ s.d_minimum_activity_policy = .ProhibitNoneActive)
      ∨ (1 < objects.length ∧ s.d_activity_policy = .UniqueActivity)
  · have h := (setActiveSubjects_of_invalid s objects hbad).1
    rw [numActiveSubjects_congr obs (fun x _ => isActive_congr h obs x)]
    exact hpre
  · have hv : ∀ o ∈ objects, o ≠ 0 ∧ o ∈ obs.subject_list := by
      intro o ho
      by_contra hc
      apply hbad
      left
      refine ⟨o, ho, ?_⟩
      simp only [subjects, hobs]
      by_cases h0 : o = 0
      · exact Or.inl h0
      · exact Or.inr (fun hm => hc ⟨h0, hm⟩)
    have h1 : objects = [] → s.d_minimum_activity_policy ≠ .ProhibitNoneActive :=
      fun he hp => hbad (Or.inr (Or.inl ⟨he, hp⟩))
    have h2 : 1 < objects.length → s.d_activity_policy ≠ .UniqueActivity :=
      fun hl hp => hbad (Or.inr (Or.inr ⟨hl, hp⟩))
    have hlen : objects.length ≤ 1 := by
      by_contra hc
      exact h2 (by omega) hu
    have h := isActive_setActiveSubjects s obs objects hobs hv h1 h2
    apply numActiveSubjects_le_one_of_unique _ obs hnd (objects.headD 0)
    intro x hx hax
    rw [h x] at hax
    by_cases hm : x ∈ objects
    · match objects, hlen, hm with
      | [a], _, hm => simpa using hm
    · simp [hm, hx] at hax

theorem finalizeAttachment_unique (s : ActivityPolicyFilter) (obs : Observer)
    (hobs : s.observer = some obs) (hu : s.d_activity_policy = .UniqueActivity)
    (hnd : obs.subject_list.Nodup) (hpre : numActiveSubjects s obs ≤ 1)
    (obj : QObjectPtr) (b : Bool) :
    numActiveSubjects (finalizeAttachment s obj b) obs ≤ 1 := by
  by_cases hskip : obj = 0 ∨ b = false
  · have : finalizeAttachment s obj b = s := by
      rcases hskip with h | h
      · simp [finalizeAttachment, h]
      · simp [finalizeAttachment, h, hobs]
    rw [this]
    exact hpre
  · have hobj : obj ≠ 0 := fun h => hskip (Or.inl h)
    have hb : b = true := by
      cases b
      · exact absurd (Or.inr rfl) hskip
      · rfl
    subst hb
    have h := isActive_finalizeAttachment s obs obj hobs hobj
    by_cases hlen : obs.subject_list.length = 1
    · exact (numActiveSubjects_le_length _ obs).trans (le_of_eq hlen)
    · by_cases hn : s.d_new_subject_activity_policy = .SetNewActive
      · apply numActiveSubjects_le_one_of_unique _ obs hnd obj
        intro x hx hax
        by_contra hxo
        rw [h x, if_neg hxo, if_pos ⟨hlen, hn, hu, hx⟩] at hax
        exact absurd hax (by decide)
      · refine (numActiveSubjects_mono s _ obs ?_).trans hpre
        intro x _ hax
        rw [h x] at hax
        by_cases hxo : x = obj
        · rw [if_pos hxo, determineNewActivity_fst] at hax
          simp [hlen, hn] at hax
        · rw [if_neg hxo, if_neg (fun hc => hn hc.2.1)] at hax
          exact hax

theorem finalizeDetachment_unique (s : ActivityPolicyFilter) (obs : Observer)
    (hobs : s.observer = some obs)
    (hnd : obs.subject_list.Nodup) (hpre : numActiveSubjects s obs ≤ 1)
    (obj : QObjectPtr) (ds sd : Bool) :
    ∃ t, finalizeDetachment s obj ds sd = some t ∧ numActiveSubjects t obs ≤ 1 := by
  obtain ⟨t, ht, _, _, hact⟩ := finalizeDetachment_some s obs obj ds sd hobs
  refine ⟨t, ht, ?_⟩
  by_cases hgo : obj ≠ 0 ∧ (ds = true ∨ sd = true) ∧ obs.subject_list ≠ []
  · by_cases hfire : s.d_minimum_activity_policy = .ProhibitNoneActive
        ∧ isActive s obs obj = true ∧ numActiveSubjects s obs = 0
    · apply numActiveSubjects_le_one_of_unique _ obs hnd (obs.subject_list.headD 0)
      intro x hx hax
      by_contra hxh
      rw [hact x, if_pos hgo, isActive_restoreMinimumActivity,
        if_neg (fun hc => hxh hc.2.2.2),
        isActive_eq_false_of_numActiveSubjects_eq_zero s obs hfire.2.2 x hx] at hax
      exact absurd hax (by decide)
    · refine (numActiveSubjects_mono s _ obs ?_).trans hpre
      intro x _ hax
      rw [hact x, if_pos hgo, isActive_restoreMinimumActivity,
        if_neg (fun hc => hfire ⟨hc.1, hc.2.1, hc.2.2.1⟩)] at hax
      exact hax
  · refine (numActiveSubjects_mono s _ obs ?_).trans hpre
    intro x _ hax
    rw [hact x, if_neg hgo] at hax
    exact hax

/-- After `monitoredPropertyChanged` under `UniqueActivity` at most one subject is
active, provided the subject concerned is stored as active or at most one subject was
active before. -/
theorem monitoredPropertyChanged_unique (s : ActivityPolicyFilter) (obs : Observer)
    (hobs : s.observer = some obs) (hu : s.d_activity_policy = .UniqueActivity)
    (hnd : obs.subject_list.Nodup) (obj : QObjectPtr)
    (hpre : numActiveSubjects s obs ≤ 1 ∨ (s.filter_mutex = false ∧ isActive s obs obj = true)) :
    numActiveSubjects (monitoredPropertyChanged s obj).2 obs ≤ 1 := by
  by_cases hm : s.filter_mutex = true
  · rw [monitoredPropertyChanged_of_locked s obj hm]
    rcases hpre with h | h
    · exact h
    · rw [hm] at h
      exact absurd h.1 (by decide)
  · have hm2 : s.filter_mutex = false := by simpa using hm
    have hact := (monitoredPropertyChanged_of_free s obs obj hm2 hobs).2.2.2
    by_cases ha : isActive s obs obj = true
    · apply numActiveSubjects_le_one_of_unique _ obs hnd obj
      intro x hx hax
      by_contra hxo
      rw [hact x, if_pos ha, if_pos ⟨hu, hx, hxo⟩] at hax
      exact absurd hax (by decide)
    · have hpre2 : numActiveSubjects s obs ≤ 1 := by
        rcases hpre with h | h
        · exact h
        · exact absurd h.2 ha
      by_cases hfire : s.d_minimum_activity_policy = .ProhibitNoneActive
          ∧ numActiveSubjects s obs = 0
      · apply numActiveSubjects_le_one_of_unique _ obs hnd obj
        intro x hx hax
        by_contra hxo
        rw [hact x, if_neg ha, if_neg (fun hc => hxo hc.2.2),
          isActive_eq_false_of_numActiveSubjects_eq_zero s obs hfire.2 x hx] at hax
        exact absurd hax (by decide)
      · refine (numActiveSubjects_mono s _ obs ?_).trans hpre2
        intro x _ hax
        rw [hact x, if_neg ha, if_neg (fun hc => hfire ⟨hc.1, hc.2.1⟩)] at hax
        exact hax


/-! ### The guard after each call -/

theorem filter_mutex_setActiveSubjects (s : ActivityPolicyFilter) (objects : List QObjectPtr)
    (hm : s.filter_mutex = false) : (setActiveSubjects s objects).filter_mutex = false := by
  unfold setActiveSubjects
  split
  · exact hm
  · split
    · exact hm
    · split_ifs
      · exact hm
      · exact hm
      · simp [emit, unlockFilter]

theorem filter_mutex_finalizeAttachment (s : ActivityPolicyFilter) (obj : QObjectPtr) (b : Bool)
    (hm : s.filter_mutex = false) : (finalizeAttachment s obj b).filter_mutex = false := by
  unfold finalizeAttachment
  by_cases h0 : obj = 0
  · rw [if_pos h0]; exact hm
  · rw [if_neg h0]
    split
    · exact hm
    · cases b
      · exact hm
      · rfl

/-! ### The attach protocol, continued -/

theorem isActive_appendSubject (s : ActivityPolicyFilter) (obs obs2 : Observer)
    (obj x : QObjectPtr) : isActive (appendSubject s obs2 obj) obs x = isActive s obs x := rfl

/-- The stored activity after a new subject has been attached. -/
theorem isActive_attachSubject (s : ActivityPolicyFilter) (obs : Observer) (obj : QObjectPtr)
    (hobs : s.observer = some obs) (hobj : obj ≠ 0) (hnew : obj ∉ obs.subject_list)
    (x : QObjectPtr) :
    isActive (attachSubject s obj) obs x
      = if x = obj then
          (if obs.subject_list = [] then
            decide (s.d_minimum_activity_policy = .ProhibitNoneActive
              ∨ s.d_new_subject_activity_policy = .SetNewActive)
          else decide (s.d_new_subject_activity_policy = .SetNewActive))
        else if s.d_new_subject_activity_policy = .SetNewActive
            ∧ s.d_activity_policy = .UniqueActivity ∧ x ∈ obs.subject_list then false
        else isActive s obs x := by
  rw [attachSubject_of_new s obs obj hobs hobj hnew]
  have h := isActive_finalizeAttachment (appendSubject s obs obj)
    { obs with subject_list := obs.subject_list ++ [obj] } obj rfl hobj x
  have hlen : (obs.subject_list ++ [obj]).length = 1 ↔ obs.subject_list = [] := by
    rw [List.length_append, List.length_singleton]
    constructor
    · intro hl
      exact List.length_eq_zero.1 (by omega)
    · intro hl
      rw [hl]
      rfl
  have e : isActive (finalizeAttachment (appendSubject s obs obj) obj true) obs x
      = isActive (finalizeAttachment (appendSubject s obs obj) obj true)
          { obs with subject_list := obs.subject_list ++ [obj] } x := rfl
  rw [e, h, determineNewActivity_fst]
  have hp1 : (appendSubject s obs obj).d_new_subject_activity_policy
      = s.d_new_subject_activity_policy := rfl
  have hp2 : (appendSubject s obs obj).d_activity_policy = s.d_activity_policy := rfl
  have hp3 : (appendSubject s obs obj).d_minimum_activity_policy
      = s.d_minimum_activity_policy := rfl
  have hi : isActive (appendSubject s obs obj)
      { obs with subject_list := obs.subject_list ++ [obj] } x = isActive s obs x := rfl
  rw [hp1, hp2, hp3, hi]
  by_cases hx : x = obj
  · rw [if_pos hx, if_pos hx]
    by_cases hl : obs.subject_list = []
    · rw [if_pos (hlen.2 hl), if_pos hl]
    · rw [if_neg (fun hc => hl (hlen.1 hc)), if_neg hl]
  · rw [if_neg hx, if_neg hx]
    by_cases hc : s.d_new_subject_activity_policy = .SetNewActive
        ∧ s.d_activity_policy = .UniqueActivity ∧ x ∈ obs.subject_list
    · rw [if_pos hc, if_pos]
      refine ⟨fun hc2 => ?_, hc.1, hc.2.1, List.mem_append_left _ hc.2.2⟩
      have := hlen.1 hc2
      rw [this] at hc
      simp at hc
    · rw [if_neg hc, if_neg]
      intro hd
      apply hc
      refine ⟨hd.2.1, hd.2.2.1, ?_⟩
      have := hd.2.2.2
      simp only [List.mem_append, List.mem_singleton] at this
      exact this.resolve_right hx

theorem numActiveSubjects_append (s : ActivityPolicyFilter) (obs : Observer) (obj : QObjectPtr) :
    numActiveSubjects s { obs with subject_list := obs.subject_list ++ [obj] }
      = numActiveSubjects s obs + (if isActive s obs obj = true then 1 else 0) := by
  rw [numActiveSubjects_eq_countP, numActiveSubjects_eq_countP]
  simp only [List.countP_append, List.countP_cons, List.countP_nil]
  have e : isActive s { obs with subject_list := obs.subject_list ++ [obj] } = isActive s obs :=
    rfl
  rw [e]
  simp


/-! ### One operation of the context at a time -/

theorem policies_of_configuration {s t : ActivityPolicyFilter}
    (h : configuration t = configuration s) : policies t = policies s := by
  simp only [configuration, Prod.mk.injEq] at h
  simp only [policies, Prod.mk.injEq]
  exact ⟨h.1, h.2.1, h.2.2.1⟩

theorem policies_activity_policy {s t : ActivityPolicyFilter} (h : policies t = policies s) :
    t.d_activity_policy = s.d_activity_policy := by
  simp only [policies, Prod.mk.injEq] at h
  exact h.1

theorem policies_minimum_activity_policy {s t : ActivityPolicyFilter}
    (h : policies t = policies s) :
    t.d_minimum_activity_policy = s.d_minimum_activity_policy := by
  simp only [policies, Prod.mk.injEq] at h
  exact h.2.1

/-- Attaching a subject keeps the filter settled and keeps both activity invariants. -/
theorem attachSubject_invariant (s : ActivityPolicyFilter) (obs : Observer) (obj : QObjectPtr)
    (hs : Settled s obs) (hi : ActivityInvariant s obs) :
    ∃ obs2, Settled (attachSubject s obj) obs2 ∧ ActivityInvariant (attachSubject s obj) obs2
      ∧ policies (attachSubject s obj) = policies s
      ∧ obs2.observer_id = obs.observer_id := by
  obtain ⟨hobs, hnd, hm⟩ := hs
  by_cases hold : obj = 0 ∨ obj ∈ obs.subject_list
  · obtain ⟨hc, ha, hmx⟩ := attachSubject_of_old s obs obj hobs hold
    refine ⟨obs, ⟨(configuration_observer hc).trans hobs, hnd, hmx.trans hm⟩, ?_,
      policies_of_configuration hc, rfl⟩
    have hn : numActiveSubjects (attachSubject s obj) obs = numActiveSubjects s obs :=
      numActiveSubjects_congr obs (fun x _ => isActive_congr ha obs x)
    rw [ActivityInvariant, hn, configuration_activity_policy hc,
      configuration_minimum_activity_policy hc]
    exact hi
  · have hobj : obj ≠ 0 := fun h => hold (Or.inl h)
    have hnew : obj ∉ obs.subject_list := fun h => hold (Or.inr h)
    have heq := attachSubject_of_new s obs obj hobs hobj hnew
    have hc : configuration (attachSubject s obj) = configuration (appendSubject s obs obj) := by
      rw [heq]
      exact configuration_finalizeAttachment _ _ _
    have hpol : policies (attachSubject s obj) = policies s :=
      (policies_of_configuration hc).trans rfl
    have hact := isActive_attachSubject s obs obj hobs hobj hnew
    refine ⟨{ obs with subject_list := obs.subject_list ++ [obj] }, ⟨?_, ?_, ?_⟩, ⟨?_, ?_⟩,
      hpol, rfl⟩
    · exact (configuration_observer hc).trans rfl
    · rw [List.nodup_append]
      refine ⟨hnd, List.nodup_singleton obj, ?_⟩
      intro a ha hb
      rw [List.mem_singleton] at hb
      exact hnew (hb ▸ ha)
    · rw [heq]
      exact filter_mutex_finalizeAttachment _ _ _ hm
    · intro hu
      rw [policies_activity_policy hpol] at hu
      rw [numActiveSubjects_append]
      by_cases hl : obs.subject_list = []
      · have : numActiveSubjects (attachSubject s obj) obs = 0 := by
          rw [numActiveSubjects_eq_countP, hl]
          rfl
        rw [this]
        split_ifs <;> omega
      · by_cases hn : s.d_new_subject_activity_policy = .SetNewActive
        · have : numActiveSubjects (attachSubject s obj) obs = 0 := by
            rw [numActiveSubjects_eq_countP, List.countP_eq_zero]
            intro x hx
            have hxo : x ≠ obj := fun e => hnew (e ▸ hx)
            rw [hact x, if_neg hxo, if_pos ⟨hn, hu, hx⟩]
            simp
          rw [this]
          split_ifs <;> omega
        · have h1 : isActive (attachSubject s obj) obs obj = false := by
            rw [hact obj, if_pos rfl, if_neg hl]
            simp [hn]
          have h2 : numActiveSubjects (attachSubject s obj) obs = numActiveSubjects s obs := by
            apply numActiveSubjects_congr
            intro x hx
            have hxo : x ≠ obj := fun e => hnew (e ▸ hx)
            rw [hact x, if_neg hxo, if_neg (fun hc2 => hn hc2.1)]
          rw [h1, h2]
          have := hi.1 hu
          simp only [Bool.false_eq_true, if_false]
          omega
    · intro hp _
      rw [policies_minimum_activity_policy hpol] at hp
      rw [numActiveSubjects_append]
      by_cases hl : obs.subject_list = []
      · have h1 : isActive (attachSubject s obj) obs obj = true := by
          rw [hact obj, if_pos rfl, if_pos hl]
          simp [hp]
        rw [h1]
        simp
      · by_cases hn : s.d_new_subject_activity_policy = .SetNewActive
        · have h1 : isActive (attachSubject s obj) obs obj = true := by
            rw [hact obj, if_pos rfl, if_neg hl]
            simp [hn]
          rw [h1]
          simp
        · have h2 : numActiveSubjects (attachSubject s obj) obs = numActiveSubjects s obs := by
            apply numActiveSubjects_congr
            intro x hx
            have hxo : x ≠ obj := fun e => hnew (e ▸ hx)
            rw [hact x, if_neg hxo, if_neg (fun hc2 => hn hc2.1)]
          rw [h2]
          have := hi.2 hp hl
          omega

/-- `setActiveSubjects` keeps `ProhibitNoneActive` satisfied. -/
theorem setActiveSubjects_minimum (s : ActivityPolicyFilter) (obs : Observer)
    (hobs : s.observer = some obs) (hp : s.d_minimum_activity_policy = .ProhibitNoneActive)
    (hpre : obs.subject_list ≠ [] → 1 ≤ numActiveSubjects s obs)
    (objects : List QObjectPtr) (hne : obs.subject_list ≠ []) :
    1 ≤ numActiveSubjects (setActiveSubjects s objects) obs := by
  by_cases hbad : (∃ o ∈ objects, o = 0 ∨ o ∉ subjects s)
      ∨ (objects = [] ∧ s.d_minimum_activity_policy = .ProhibitNoneActive)
      ∨ (1 < objects.length ∧ s.d_activity_policy = .UniqueActivity)
  · have h := (setActiveSubjects_of_invalid s objects hbad).1
    rw [numActiveSubjects_congr obs (fun x _ => isActive_congr h obs x)]
    exact hpre hne
  · have hv : ∀ o ∈ objects, o ≠ 0 ∧ o ∈ obs.subject_list := by
      intro o ho
      by_contra hc
      apply hbad
      left
      refine ⟨o, ho, ?_⟩
      simp only [subjects, hobs]
      by_cases h0 : o = 0
      · exact Or.inl h0
      · exact Or.inr (fun hm => hc ⟨h0, hm⟩)
    have h1 : objects = [] → s.d_minimum_activity_policy ≠ .ProhibitNoneActive :=
      fun he hp2 => hbad (Or.inr (Or.inl ⟨he, hp2⟩))
    have h2 : 1 < objects.length → s.d_activity_policy ≠ .UniqueActivity :=
      fun hl hp2 => hbad (Or.inr (Or.inr ⟨hl, hp2⟩))
    have h := isActive_setActiveSubjects s obs objects hobs hv h1 h2
    cases objects with
    | nil => exact absurd hp (h1 rfl)
    | cons a rest =>
      have ha := hv a (List.mem_cons_self a rest)
      apply numActiveSubjects_pos _ obs a ha.2
      rw [h a]
      simp

/-- `setActiveSubjects` keeps the filter settled and keeps both activity invariants. -/
theorem setActiveSubjects_invariant (s : ActivityPolicyFilter) (obs : Observer)
    (objects : List QObjectPtr) (hs : Settled s obs) (hi : ActivityInvariant s obs) :
    Settled (setActiveSubjects s objects) obs ∧ ActivityInvariant (setActiveSubjects s objects) obs
      ∧ policies (setActiveSubjects s objects) = policies s := by
  obtain ⟨hobs, hnd, hm⟩ := hs
  have hc := configuration_setActiveSubjects s objects
  refine ⟨⟨(configuration_observer hc).trans hobs, hnd, filter_mutex_setActiveSubjects s objects hm⟩,
    ⟨?_, ?_⟩, policies_of_configuration hc⟩
  · intro hu
    rw [configuration_activity_policy hc] at hu
    exact setActiveSubjects_unique s obs hobs hu hnd (hi.1 hu) objects
  · intro hp hne
    rw [configuration_minimum_activity_policy hc] at hp
    exact setActiveSubjects_minimum s obs hobs hp (hi.2 hp) objects hne

/-- A write from outside keeps the filter settled and keeps both activity invariants. -/
theorem writeActivity_invariant (s : ActivityPolicyFilter) (obs : Observer) (obj : QObjectPtr)
    (v : Bool) (hs : Settled s obs) (hi : ActivityInvariant s obs) :
    Settled (writeActivity s obj v).2 obs ∧ ActivityInvariant (writeActivity s obj v).2 obs
      ∧ policies (writeActivity s obj v).2 = policies s := by
  obtain ⟨hobs, hnd, hm⟩ := hs
  by_cases hmem : obj ∈ obs.subject_list
  · have heq : writeActivity s obj v
        = monitoredPropertyChanged (setObserverPropertyValue s obs obj v) obj := by
      simp [writeActivity, hobs, hmem]
    rw [heq]
    have hobs1 : (setObserverPropertyValue s obs obj v).observer = some obs := hobs
    have hm1 : (setObserverPropertyValue s obs obj v).filter_mutex = false := hm
    obtain ⟨_, hmx, hc, hact⟩ :=
      monitoredPropertyChanged_of_free (setObserverPropertyValue s obs obj v) obs obj hm1 hobs1
    have hself : isActive (setObserverPropertyValue s obs obj v) obs obj = v := by
      rw [isActive_setObserverPropertyValue, if_pos rfl]
    refine ⟨⟨(configuration_observer hc).trans hobs1, hnd, hmx⟩, ⟨?_, ?_⟩,
      policies_of_configuration hc⟩
    · intro hu
      rw [configuration_activity_policy hc] at hu
      apply monitoredPropertyChanged_unique _ obs hobs1 hu hnd obj
      cases v
      · left
        refine (numActiveSubjects_mono s _ obs ?_).trans (hi.1 hu)
        intro x _ hx
        rw [isActive_setObserverPropertyValue] at hx
        by_cases hxo : x = obj
        · rw [if_pos hxo] at hx
          exact absurd hx (by decide)
        · rw [if_neg hxo] at hx
          exact hx
      · right
        exact ⟨hm1, hself⟩
    · intro hp _
      rw [configuration_minimum_activity_policy hc] at hp
      have hp1 : (setObserverPropertyValue s obs obj v).d_minimum_activity_policy
          = .ProhibitNoneActive := hp
      by_cases ha : isActive (setObserverPropertyValue s obs obj v) obs obj = true
      · apply numActiveSubjects_pos _ obs obj hmem
        rw [hact obj, if_pos ha, if_neg (fun hc2 => hc2.2.2 rfl)]
        exact ha
      · by_cases hz : numActiveSubjects (setObserverPropertyValue s obs obj v) obs = 0
        · apply numActiveSubjects_pos _ obs obj hmem
          rw [hact obj, if_neg ha, if_pos ⟨hp1, hz, rfl⟩]
        · obtain ⟨y, hy, hya⟩ := exists_active_of_numActiveSubjects_pos _ obs
            (Nat.one_le_iff_ne_zero.2 hz)
          apply numActiveSubjects_pos _ obs y hy
          rw [hact y, if_neg ha, if_neg (fun hc2 => hz hc2.2.1)]
          exact hya
  · have heq : writeActivity s obj v = (false, s) := by
      simp [writeActivity, hobs, hmem]
    rw [heq]
    exact ⟨⟨hobs, hnd, hm⟩, hi, rfl⟩


/-! ### The detach protocol -/

theorem isActive_removeContext (s : ActivityPolicyFilter) (obs : Observer) (obj x : QObjectPtr) :
    isActive (removeContext s obs obj) obs x = if x = obj then false else isActive s obs x := by
  by_cases h : x = obj
  · rw [if_pos h, h]
    simp only [isActive, getObserverPropertyValue, removeContext, if_true, toBool]
    cases s.activity obj <;> simp
  · rw [if_neg h]
    simp [isActive, getObserverPropertyValue, removeContext, h]

theorem headD_mem_of_ne_nil (l : List QObjectPtr) (h : l ≠ []) : l.headD 0 ∈ l := by
  cases l with
  | nil => exact absurd rfl h
  | cons a rest => simp

/-- What `finalizeDetachment` leaves stored, once the subject has been removed from the
list: nothing that was active becomes inactive, and when the removed subject was active
and no remaining subject is, the first remaining subject becomes active. -/
theorem finalizeDetachment_after_removal (s : ActivityPolicyFilter) (obs : Observer)
    (obj : QObjectPtr) (sd : Bool) (hobs : s.observer = some obs) (hobj : obj ≠ 0)
    (hne : obs.subject_list ≠ []) :
    ∃ t, finalizeDetachment s obj true sd = some t
      ∧ configuration t = configuration s
      ∧ (t.filter_mutex = s.filter_mutex ∨ t.filter_mutex = false)
      ∧ (∀ x, isActive s obs x = true → isActive t obs x = true)
      ∧ (s.d_minimum_activity_policy = .ProhibitNoneActive → isActive s obs obj = true →
          numActiveSubjects s obs = 0 → isActive t obs (obs.subject_list.headD 0) = true) := by
  obtain ⟨t, ht, hc, hmx, hact⟩ := finalizeDetachment_some s obs obj true sd hobs
  refine ⟨t, ht, hc, hmx, ?_, ?_⟩
  · intro x hx
    rw [hact x, if_pos ⟨hobj, Or.inl rfl, hne⟩, isActive_restoreMinimumActivity]
    split_ifs
    · rfl
    · exact hx
  · intro hp ha hz
    rw [hact _, if_pos ⟨hobj, Or.inl rfl, hne⟩, isActive_restoreMinimumActivity,
      if_pos ⟨hp, ha, hz, rfl⟩]

theorem numActiveSubjects_erase_le (s : ActivityPolicyFilter) (obs : Observer)
    (obj : QObjectPtr) :
    numActiveSubjects s { obs with subject_list := obs.subject_list.erase obj }
      ≤ numActiveSubjects s obs := by
  rw [numActiveSubjects_eq_countP, numActiveSubjects_eq_countP]
  exact (List.erase_sublist obj obs.subject_list).countP_le _

/-- Detaching a subject returns, keeps the filter settled and keeps both activity
invariants. -/
theorem detachSubject_invariant (s : ActivityPolicyFilter) (obs : Observer) (obj : QObjectPtr)
    (sd : Bool) (hs : Settled s obs) (hi : ActivityInvariant s obs) :
    ∃ t obs2, detachSubject s obj sd = some t ∧ Settled t obs2 ∧ ActivityInvariant t obs2
      ∧ policies t = policies s ∧ obs2.observer_id = obs.observer_id := by
  obtain ⟨hobs, hnd, hm⟩ := hs
  by_cases hgo : obj ∈ obs.subject_list ∧ obj ≠ 0
  · obtain ⟨hmem, hobj⟩ := hgo
    have hobs1 : (removeSubject s obs obj).observer
        = some { obs with subject_list := obs.subject_list.erase obj } := rfl
    have hnd1 : (obs.subject_list.erase obj).Nodup := hnd.erase obj
    have hnotin : obj ∉ obs.subject_list.erase obj := hnd.not_mem_erase
    by_cases hne : obs.subject_list.erase obj = []
    · -- no subject remains
      obtain ⟨t1, ht1, hc1, hmx1, _⟩ := finalizeDetachment_some (removeSubject s obs obj)
        { obs with subject_list := obs.subject_list.erase obj } obj true sd hobs1
      have heq : detachSubject s obj sd = some (removeContext t1 obs obj) := by
        simp [detachSubject, hobs, hmem, evaluateDetachment, initializeDetachment, hobj, ht1]
      have hmt : t1.filter_mutex = false := by
        rcases hmx1 with h | h
        · exact h.trans hm
        · exact h
      refine ⟨removeContext t1 obs obj, { obs with subject_list := obs.subject_list.erase obj },
        heq, ⟨(configuration_observer hc1).trans hobs1, hnd1, hmt⟩, ⟨?_, ?_⟩,
        (policies_of_configuration hc1).trans rfl, rfl⟩
      · intro _
        rw [numActiveSubjects_eq_countP]
        simp [hne]
      · intro _ hne2
        exact absurd hne hne2
    · obtain ⟨t1, ht1, hc1, hmx1, hmono, hfire⟩ :=
        finalizeDetachment_after_removal (removeSubject s obs obj)
          { obs with subject_list := obs.subject_list.erase obj } obj sd hobs1 hobj hne
      have heq : detachSubject s obj sd = some (removeContext t1 obs obj) := by
        simp [detachSubject, hobs, hmem, evaluateDetachment, initializeDetachment, hobj, ht1]
      have hmt : t1.filter_mutex = false := by
        rcases hmx1 with h | h
        · exact h.trans hm
        · exact h
      have hpol : policies (removeContext t1 obs obj) = policies s :=
        (policies_of_configuration hc1).trans rfl
      have hrc : ∀ x, isActive (removeContext t1 obs obj)
          { obs with subject_list := obs.subject_list.erase obj } x
          = if x = obj then false
            else isActive t1 { obs with subject_list := obs.subject_list.erase obj } x :=
        fun x => isActive_removeContext t1 obs obj x
      refine ⟨removeContext t1 obs obj, { obs with subject_list := obs.subject_list.erase obj },
        heq, ⟨(configuration_observer hc1).trans hobs1, hnd1, hmt⟩, ⟨?_, ?_⟩, hpol, rfl⟩
      · intro hu
        rw [policies_activity_policy hpol] at hu
        obtain ⟨t2, ht2, hle⟩ := finalizeDetachment_unique (removeSubject s obs obj)
          { obs with subject_list := obs.subject_list.erase obj } hobs1 hnd1
          ((numActiveSubjects_erase_le s obs obj).trans (hi.1 hu)) obj true sd
        have e : t2 = t1 := Option.some.inj (ht2.symm.trans ht1)
        rw [e] at hle
        refine (numActiveSubjects_mono t1 _ _ ?_).trans hle
        intro x _ hx
        rw [hrc x] at hx
        by_cases hxo : x = obj
        · rw [if_pos hxo] at hx
          exact absurd hx (by decide)
        · rw [if_neg hxo] at hx
          exact hx
      · intro hp _
        rw [policies_minimum_activity_policy hpol] at hp
        have hpre := hi.2 hp (List.ne_nil_of_mem hmem)
        obtain ⟨y, hy, hya⟩ := exists_active_of_numActiveSubjects_pos s obs hpre
        have key : ∃ z ∈ obs.subject_list.erase obj,
            isActive t1 { obs with subject_list := obs.subject_list.erase obj } z = true := by
          by_cases hyo : y = obj
          · by_cases hz : numActiveSubjects (removeSubject s obs obj)
                { obs with subject_list := obs.subject_list.erase obj } = 0
            · exact ⟨_, headD_mem_of_ne_nil _ hne, hfire hp (hyo ▸ hya) hz⟩
            · obtain ⟨z, hz1, hz2⟩ := exists_active_of_numActiveSubjects_pos _ _
                (Nat.one_le_iff_ne_zero.2 hz)
              exact ⟨z, hz1, hmono z hz2⟩
          · exact ⟨y, (List.mem_erase_of_ne hyo).2 hy, hmono y hya⟩
        obtain ⟨z, hz1, hz2⟩ := key
        have hzo : z ≠ obj := fun e => hnotin (e ▸ hz1)
        apply numActiveSubjects_pos _ _ z hz1
        rw [hrc z, if_neg hzo]
        exact hz2
  · have heq : detachSubject s obj sd = some s := by
      by_cases hmem : obj ∈ obs.subject_list
      · have h0 : obj = 0 := by
          by_contra hc
          exact hgo ⟨hmem, hc⟩
        simp [detachSubject, hobs, hmem, evaluateDetachment, initializeDetachment, h0]
      · simp [detachSubject, hobs, hmem]
    exact ⟨s, obs, heq, ⟨hobs, hnd, hm⟩, hi, rfl, rfl⟩

/-- Every operation of the context returns, keeps the filter settled and keeps both
activity invariants. -/
theorem applyOperation_invariant (s : ActivityPolicyFilter) (obs : Observer) (op : Operation)
    (hs : Settled s obs) (hi : ActivityInvariant s obs) :
    ∃ t obs2, applyOperation s op = some t ∧ Settled t obs2 ∧ ActivityInvariant t obs2
      ∧ policies t = policies s := by
  cases op with
  | attach obj =>
    obtain ⟨obs2, h1, h2, h3, _⟩ := attachSubject_invariant s obs obj hs hi
    exact ⟨_, obs2, rfl, h1, h2, h3⟩
  | detach obj sd =>
    obtain ⟨t, obs2, h0, h1, h2, h3, _⟩ := detachSubject_invariant s obs obj sd hs hi
    exact ⟨t, obs2, h0, h1, h2, h3⟩
  | setActive objects =>
    obtain ⟨h1, h2, h3⟩ := setActiveSubjects_invariant s obs objects hs hi
    exact ⟨_, obs, rfl, h1, h2, h3⟩
  | write obj v =>
    obtain ⟨h1, h2, h3⟩ := writeActivity_invariant s obs obj v hs hi
    exact ⟨_, obs, rfl, h1, h2, h3⟩

/-- Every sequence of operations returns, in a settled state that satisfies both
activity invariants. -/
theorem run_invariant (ops : List Operation) (s : ActivityPolicyFilter) (obs : Observer)
    (hs : Settled s obs) (hi : ActivityInvariant s obs) :
    ∃ t obs2, run s ops = some t ∧ Settled t obs2 ∧ ActivityInvariant t obs2
      ∧ policies t = policies s := by
  induction ops generalizing s obs with
  | nil => exact ⟨s, obs, rfl, hs, hi, rfl⟩
  | cons op rest ih =>
    obtain ⟨t1, obs1, h0, h1, h2, h3⟩ := applyOperation_invariant s obs op hs hi
    obtain ⟨t, obs2, k0, k1, k2, k3⟩ := ih t1 obs1 h1 h2
    refine ⟨t, obs2, ?_, k1, k2, k3.trans h3⟩
    simp only [run, h0]
    exact k0

/-- The empty context is settled and satisfies both activity invariants. -/
theorem emptyContext_invariant (ap : ActivityPolicy) (mp : MinimumActivityPolicy)
    (np : NewSubjectActivityPolicy) (observer_id : Nat)
    (activity : QObjectPtr → Option ObserverProperty) :
    Settled (emptyContext ap mp np observer_id activity)
        { observer_id := observer_id, subject_list := [] }
      ∧ ActivityInvariant (emptyContext ap mp np observer_id activity)
        { observer_id := observer_id, subject_list := [] } := by
  refine ⟨⟨rfl, List.nodup_nil, rfl⟩, fun _ => ?_, fun _ h => absurd rfl h⟩
  rw [numActiveSubjects_eq_countP]
  simp


/-- C1. The uniqueness invariant. For a filter with `UniqueActivity` on a context (whose
subject list holds no subject twice), if `numActiveSubjects() <= 1` holds before a call
to `setActiveSubjects`, `finalizeAttachment`, `finalizeDetachment` or
`monitoredPropertyChanged`, with any arguments, then the call returns and
`numActiveSubjects() <= 1` holds afterwards. Hence it holds in every state reached from
an empty context by attaching and detaching subjects, setting the active subjects and
writing the activity of attached subjects. -/
theorem uniqueness_invariant (s : ActivityPolicyFilter) (obs : Observer)
    (hobs : s.observer = some obs) (hu : s.d_activity_policy = .UniqueActivity)
    (hnd : obs.subject_list.Nodup) (hpre : numActiveSubjects s obs ≤ 1) :
    (∀ objects, numActiveSubjects (setActiveSubjects s objects) obs ≤ 1)
      ∧ (∀ obj attachment_successful,
          numActiveSubjects (finalizeAttachment s obj attachment_successful) obs ≤ 1)
      ∧ (∀ obj detachment_successful subject_deleted,
          ∃ t, finalizeDetachment s obj detachment_successful subject_deleted = some t
            ∧ numActiveSubjects t obs ≤ 1)
      ∧ (∀ obj, numActiveSubjects (monitoredPropertyChanged s obj).2 obs ≤ 1)
      ∧ (∀ mp np observer_id activity ops,
          ∃ t, run (emptyContext .UniqueActivity mp np observer_id activity) ops = some t
            ∧ activeCount t ≤ 1) := by
  refine ⟨setActiveSubjects_unique s obs hobs hu hnd hpre,
    finalizeAttachment_unique s obs hobs hu hnd hpre,
    finalizeDetachment_unique s obs hobs hnd hpre,
    fun obj => monitoredPropertyChanged_unique s obs hobs hu hnd obj (Or.inl hpre), ?_⟩
  intro mp np observer_id activity ops
  obtain ⟨h1, h2⟩ := emptyContext_invariant .UniqueActivity mp np observer_id activity
  obtain ⟨t, obs2, ht, hst, hit, hpol⟩ := run_invariant ops _ _ h1 h2
  refine ⟨t, ht, ?_⟩
  have hut : t.d_activity_policy = .UniqueActivity := (policies_activity_policy hpol).trans rfl
  simp only [activeCount, hst.1]
  exact hit.1 hut

/-- Subjects `1, 2, 3` with `2` active under `UniqueActivity`: after
`setActiveSubjects([3])`, after finalizing the attachment of `3`, and after a change
notification for `3`, at most one subject is active. -/
theorem uniqueness_invariant_witness :
    ((exampleObserver [1, 2, 3]).subject_list.Nodup
      ∧ numActiveSubjects
          (exampleFilter .UniqueActivity .ProhibitNoneActive .SetNewActive [1, 2, 3] [2])
          (exampleObserver [1, 2, 3]) ≤ 1)
    ∧ numActiveSubjects (setActiveSubjects
        (exampleFilter .UniqueActivity .ProhibitNoneActive .SetNewActive [1, 2, 3] [2]) [3])
        (exampleObserver [1, 2, 3]) ≤ 1
    ∧ numActiveSubjects (finalizeAttachment
        (exampleFilter .UniqueActivity .ProhibitNoneActive .SetNewActive [1, 2, 3] [2]) 3 true)
        (exampleObserver [1, 2, 3]) ≤ 1
    ∧ numActiveSubjects (monitoredPropertyChanged
        (exampleFilter .UniqueActivity .ProhibitNoneActive .SetNewActive [1, 2, 3] [2]) 3).2
        (exampleObserver [1, 2, 3]) ≤ 1 :=
  ⟨by decide,
    (uniqueness_invariant
      (exampleFilter .UniqueActivity .ProhibitNoneActive .SetNewActive [1, 2, 3] [2])
      (exampleObserver [1, 2, 3]) rfl rfl (by decide) (by decide)).1 [3],
    (uniqueness_invariant
      (exampleFilter .UniqueActivity .ProhibitNoneActive .SetNewActive [1, 2, 3] [2])
      (exampleObserver [1, 2, 3]) rfl rfl (by decide) (by decide)).2.1 3 true,
    (uniqueness_invariant
      (exampleFilter .UniqueActivity .ProhibitNoneActive .SetNewActive [1, 2, 3] [2])
      (exampleObserver [1, 2, 3]) rfl rfl (by decide) (by decide)).2.2.2.1 3⟩

/-- C2. The non-emptiness invariant. A filter with `ProhibitNoneActive` starts on an
empty context. After every sequence of completed operations of the context (a subject is
attached and `finalizeAttachment` runs, a subject is detached and `finalizeDetachment`
runs, `setActiveSubjects` is called with any list, the activity of an attached subject
is written and `monitoredPropertyChanged` runs), every call has returned, and if the
context holds at least one subject then `numActiveSubjects() >= 1`. -/
theorem minimum_activity_invariant (ap : ActivityPolicy) (np : NewSubjectActivityPolicy)
    (observer_id : Nat) (activity : QObjectPtr → Option ObserverProperty)
    (ops : List Operation) :
    ∃ t, run (emptyContext ap .ProhibitNoneActive np observer_id activity) ops = some t
      ∧ (subjects t ≠ [] → 1 ≤ activeCount t) := by
  obtain ⟨h1, h2⟩ := emptyContext_invariant ap .ProhibitNoneActive np observer_id activity
  obtain ⟨t, obs2, ht, hst, hit, hpol⟩ := run_invariant ops _ _ h1 h2
  refine ⟨t, ht, ?_⟩
  have hpt : t.d_minimum_activity_policy = .ProhibitNoneActive :=
    (policies_minimum_activity_policy hpol).trans rfl
  simp only [activeCount, subjects, hst.1]
  exact hit.2 hpt


/-! ### Claims C11 to C20 -/

/-- C11. `monitoredPropertyChanged` under `UniqueActivity`, guard free, called for an
attached subject whose activity was just set to true: on return that subject is still
active and every other attached subject is inactive. -/
theorem monitoredPropertyChanged_promotes_uniqueness (s : ActivityPolicyFilter)
    (obs : Observer) (obj : QObjectPtr) (hm : s.filter_mutex = false)
    (hobs : s.observer = some obs) (hu : s.d_activity_policy = .UniqueActivity)
    (hobj : obj ∈ obs.subject_list) (ha : isActive s obs obj = true) :
    isActive (monitoredPropertyChanged s obj).2 obs obj = true
      ∧ (∀ x ∈ obs.subject_list, x ≠ obj →
          isActive (monitoredPropertyChanged s obj).2 obs x = false)
      ∧ 1 ≤ numActiveSubjects (monitoredPropertyChanged s obj).2 obs := by
  have h := (monitoredPropertyChanged_of_free s obs obj hm hobs).2.2.2
  have hself : isActive (monitoredPropertyChanged s obj).2 obs obj = true := by
    rw [h obj, if_pos ha, if_neg (fun hc => hc.2.2 rfl)]
    exact ha
  refine ⟨hself, ?_, numActiveSubjects_pos _ obs obj hobj hself⟩
  intro x hx hxo
  rw [h x, if_pos ha, if_pos ⟨hu, hx, hxo⟩]

/-- Subjects `1, 2, 3` under `UniqueActivity`, `1` active and `2` just written active:
the call leaves `2` active and makes `1` inactive. -/
theorem monitoredPropertyChanged_promotes_uniqueness_witness :
    (isActive (exampleFilter .UniqueActivity .ProhibitNoneActive .SetNewActive [1, 2, 3] [1, 2])
        (exampleObserver [1, 2, 3]) 1 = true
      ∧ isActive (exampleFilter .UniqueActivity .ProhibitNoneActive .SetNewActive [1, 2, 3] [1, 2])
        (exampleObserver [1, 2, 3]) 2 = true)
    ∧ isActive (monitoredPropertyChanged
        (exampleFilter .UniqueActivity .ProhibitNoneActive .SetNewActive [1, 2, 3] [1, 2]) 2).2
        (exampleObserver [1, 2, 3]) 2 = true
    ∧ isActive (monitoredPropertyChanged
        (exampleFilter .UniqueActivity .ProhibitNoneActive .SetNewActive [1, 2, 3] [1, 2]) 2).2
        (exampleObserver [1, 2, 3]) 1 = false :=
  ⟨by decide,
    (monitoredPropertyChanged_promotes_uniqueness
      (exampleFilter .UniqueActivity .ProhibitNoneActive .SetNewActive [1, 2, 3] [1, 2])
      (exampleObserver [1, 2, 3]) 2 rfl rfl rfl (by decide) (by decide)).1,
    (monitoredPropertyChanged_promotes_uniqueness
      (exampleFilter .UniqueActivity .ProhibitNoneActive .SetNewActive [1, 2, 3] [1, 2])
      (exampleObserver [1, 2, 3]) 2 rfl rfl rfl (by decide) (by decide)).2.1 1 (by decide)
      (by decide)⟩

theorem inactiveSubjects_congr {s t : ActivityPolicyFilter} (obs : Observer)
    (h : ∀ x ∈ obs.subject_list, isActive s obs x = isActive t obs x) :
    inactiveSubjects s obs = inactiveSubjects t obs := by
  rw [inactiveSubjects_eq_filter, inactiveSubjects_eq_filter]
  exact List.filter_congr (fun x hx => by rw [h x hx])

/-- C13. `setActiveSubjects` is idempotent: for a list that passes validation, the stored
activity of every subject, and with it `activeSubjects()` and `inactiveSubjects()`, is
the same after calling `setActiveSubjects(list)` twice as after calling it once. -/
theorem setActiveSubjects_idempotent (s : ActivityPolicyFilter) (obs : Observer)
    (objects : List QObjectPtr) (hobs : s.observer = some obs)
    (hv : ∀ o ∈ objects, o ≠ 0 ∧ o ∈ obs.subject_list)
    (h1 : objects = [] → s.d_minimum_activity_policy ≠ .ProhibitNoneActive)
    (h2 : 1 < objects.length → s.d_activity_policy ≠ .UniqueActivity) :
    (∀ x, isActive (setActiveSubjects (setActiveSubjects s objects) objects) obs x
        = isActive (setActiveSubjects s objects) obs x)
      ∧ activeSubjects (setActiveSubjects (setActiveSubjects s objects) objects) obs
        = activeSubjects (setActiveSubjects s objects) obs
      ∧ inactiveSubjects (setActiveSubjects (setActiveSubjects s objects) objects) obs
        = inactiveSubjects (setActiveSubjects s objects) obs := by
  have hc := configuration_setActiveSubjects s objects
  have hobs1 : (setActiveSubjects s objects).observer = some obs :=
    (configuration_observer hc).trans hobs
  have h11 : objects = [] →
      (setActiveSubjects s objects).d_minimum_activity_policy ≠ .ProhibitNoneActive := by
    rw [configuration_minimum_activity_policy hc]
    exact h1
  have h21 : 1 < objects.length →
      (setActiveSubjects s objects).d_activity_policy ≠ .UniqueActivity := by
    rw [configuration_activity_policy hc]
    exact h2
  have key : ∀ x, isActive (setActiveSubjects (setActiveSubjects s objects) objects) obs x
      = isActive (setActiveSubjects s objects) obs x := by
    intro x
    rw [isActive_setActiveSubjects _ obs objects hobs1 hv h11 h21 x,
      isActive_setActiveSubjects s obs objects hobs hv h1 h2 x]
    by_cases hx : x ∈ objects
    · simp [hx]
    · by_cases hl : x ∈ obs.subject_list <;> simp [hx, hl]
  exact ⟨key, activeSubjects_congr obs (fun x _ => key x),
    inactiveSubjects_congr obs (fun x _ => key x)⟩

/-- Subjects `1, 2, 3` under `MultipleActivity`, `3` active: `setActiveSubjects([1, 2])`
once and twice both leave the active list `[1, 2]`. -/
theorem setActiveSubjects_idempotent_witness :
    (∀ o ∈ ([1, 2] : List QObjectPtr), o ≠ 0 ∧ o ∈ (exampleObserver [1, 2, 3]).subject_list)
    ∧ activeSubjects (setActiveSubjects
        (exampleFilter .MultipleActivity .ProhibitNoneActive .SetNewActive [1, 2, 3] [3]) [1, 2])
        (exampleObserver [1, 2, 3]) = [1, 2]
    ∧ activeSubjects (setActiveSubjects (setActiveSubjects
        (exampleFilter .MultipleActivity .ProhibitNoneActive .SetNewActive [1, 2, 3] [3]) [1, 2])
        [1, 2]) (exampleObserver [1, 2, 3]) = [1, 2] :=
  ⟨by decide, by decide,
    ((setActiveSubjects_idempotent
      (exampleFilter .MultipleActivity .ProhibitNoneActive .SetNewActive [1, 2, 3] [3])
      (exampleObserver [1, 2, 3]) [1, 2] rfl (by decide) (by decide) (by decide)).2.1).trans
      (by decide)⟩

/-- C17. The re-entrancy guard: when `monitoredPropertyChanged` is called while the guard
is held, it returns `true` at once, with the activity property of every object and the
effects emitted so far unchanged, and with the guard still held. -/
theorem monitoredPropertyChanged_while_guard_held (s : ActivityPolicyFilter)
    (obj : QObjectPtr) (hm : s.filter_mutex = true) :
    (monitoredPropertyChanged s obj).1 = true
      ∧ (monitoredPropertyChanged s obj).2.activity = s.activity
      ∧ (monitoredPropertyChanged s obj).2.effects = s.effects
      ∧ (monitoredPropertyChanged s obj).2.filter_mutex = true := by
  rw [monitoredPropertyChanged_of_locked s obj hm]
  exact ⟨rfl, rfl, rfl, hm⟩

/-- A call on a filter that is inside another call (guard held) returns `true` and
leaves subject `1` active and the effects empty. -/
theorem monitoredPropertyChanged_while_guard_held_witness :
    (lockFilter (exampleFilter .UniqueActivity .ProhibitNoneActive .SetNewActive [1, 2]
        [1])).filter_mutex = true
    ∧ (monitoredPropertyChanged (lockFilter
        (exampleFilter .UniqueActivity .ProhibitNoneActive .SetNewActive [1, 2] [1])) 2).1 = true
    ∧ (monitoredPropertyChanged (lockFilter
        (exampleFilter .UniqueActivity .ProhibitNoneActive .SetNewActive [1, 2] [1])) 2).2.effects
        = [] :=
  ⟨rfl,
    (monitoredPropertyChanged_while_guard_held
      (lockFilter (exampleFilter .UniqueActivity .ProhibitNoneActive .SetNewActive [1, 2] [1]))
      2 rfl).1,
    (monitoredPropertyChanged_while_guard_held
      (lockFilter (exampleFilter .UniqueActivity .ProhibitNoneActive .SetNewActive [1, 2] [1]))
      2 rfl).2.2.1⟩


/-! ### Export and import -/

theorem activityPolicy_ofInt_toInt (p : ActivityPolicy) (h : p.isDefined = true) :
    ActivityPolicy.ofInt p.toInt = p := by
  cases p with
  | UniqueActivity => rfl
  | MultipleActivity => rfl
  | outOfRange raw => simp [ActivityPolicy.isDefined] at h

theorem minimumActivityPolicy_ofInt_toInt (p : MinimumActivityPolicy)
    (h : p.isDefined = true) : MinimumActivityPolicy.ofInt p.toInt = p := by
  cases p with
  | AllowNoneActive => rfl
  | ProhibitNoneActive => rfl
  | outOfRange raw => simp [MinimumActivityPolicy.isDefined] at h

theorem newSubjectActivityPolicy_ofInt_toInt (p : NewSubjectActivityPolicy)
    (h : p.isDefined = true) : NewSubjectActivityPolicy.ofInt p.toInt = p := by
  cases p with
  | SetNewActive => rfl
  | SetNewInactive => rfl
  | outOfRange raw => simp [NewSubjectActivityPolicy.isDefined] at h

theorem activityPolicy_isDefined_ofInt (n : Nat) :
    (ActivityPolicy.ofInt n).isDefined = decide (n ≤ 1) := by
  match n with
  | 0 => rfl
  | 1 => rfl
  | k + 2 => simp [ActivityPolicy.ofInt, ActivityPolicy.isDefined]

theorem minimumActivityPolicy_isDefined_ofInt (n : Nat) :
    (MinimumActivityPolicy.ofInt n).isDefined = decide (n ≤ 1) := by
  match n with
  | 0 => rfl
  | 1 => rfl
  | k + 2 => simp [MinimumActivityPolicy.ofInt, MinimumActivityPolicy.isDefined]

theorem newSubjectActivityPolicy_isDefined_ofInt (n : Nat) :
    (NewSubjectActivityPolicy.ofInt n).isDefined = decide (n ≤ 1) := by
  match n with
  | 0 => rfl
  | 1 => rfl
  | k + 2 => simp [NewSubjectActivityPolicy.ofInt, NewSubjectActivityPolicy.isDefined]

/-- What `exportFilterSpecificBinary` writes to an empty stream. -/
theorem exportFilterSpecificBinary_empty (s : ActivityPolicyFilter) :
    exportFilterSpecificBinary s []
      = (true, [s.d_activity_policy.toInt % 2 ^ 32, s.d_minimum_activity_policy.toInt % 2 ^ 32,
          s.d_new_subject_activity_policy.toInt % 2 ^ 32]) := by
  simp [exportFilterSpecificBinary, QDataStream.write]

/-- What `importFilterSpecificBinary` reads from a stream that starts with three fields. -/
theorem importFilterSpecificBinary_three (s : ActivityPolicyFilter) (a b c : Nat)
    (rest : QDataStream) :
    importFilterSpecificBinary s (a :: b :: c :: rest)
      = (true,
          { s with
            d_activity_policy := ActivityPolicy.ofInt (a % 2 ^ 32)
            d_minimum_activity_policy := MinimumActivityPolicy.ofInt (b % 2 ^ 32)
            d_new_subject_activity_policy := NewSubjectActivityPolicy.ofInt (c % 2 ^ 32) },
          rest) := by
  simp [importFilterSpecificBinary, QDataStream.read]

/-- C12. The policy round trip. For every filter whose three policies hold defined
values (each of the 2 x 2 x 2 combinations), `exportFilterSpecificBinary` writes three
32-bit unsigned fields, in the order activity policy, minimum activity policy,
new-subject activity policy; `importFilterSpecificBinary` applied to that stream on
another filter succeeds, consumes the three fields and leaves that filter with the same
three policy values. -/
theorem policy_round_trip (s fresh : ActivityPolicyFilter)
    (h1 : s.d_activity_policy.isDefined = true)
    (h2 : s.d_minimum_activity_policy.isDefined = true)
    (h3 : s.d_new_subject_activity_policy.isDefined = true) :
    (exportFilterSpecificBinary s []).1 = true
      ∧ (exportFilterSpecificBinary s []).2
          = [s.d_activity_policy.toInt, s.d_minimum_activity_policy.toInt,
              s.d_new_subject_activity_policy.toInt]
      ∧ (∀ field ∈ (exportFilterSpecificBinary s []).2, field < 2 ^ 32)
      ∧ (importFilterSpecificBinary fresh (exportFilterSpecificBinary s []).2).1 = true
      ∧ policies (importFilterSpecificBinary fresh (exportFilterSpecificBinary s []).2).2.1
          = policies s
      ∧ (importFilterSpecificBinary fresh (exportFilterSpecificBinary s []).2).2.2 = [] := by
  have e1 : s.d_activity_policy.toInt % 2 ^ 32 = s.d_activity_policy.toInt := by
    cases hp : s.d_activity_policy with
    | UniqueActivity => rfl
    | MultipleActivity => rfl
    | outOfRange raw => rw [hp] at h1; simp [ActivityPolicy.isDefined] at h1
  have e2 : s.d_minimum_activity_policy.toInt % 2 ^ 32 = s.d_minimum_activity_policy.toInt := by
    cases hp : s.d_minimum_activity_policy with
    | AllowNoneActive => rfl
    | ProhibitNoneActive => rfl
    | outOfRange raw => rw [hp] at h2; simp [MinimumActivityPolicy.isDefined] at h2
  have e3 : s.d_new_subject_activity_policy.toInt % 2 ^ 32
      = s.d_new_subject_activity_policy.toInt := by
    cases hp : s.d_new_subject_activity_policy with
    | SetNewActive => rfl
    | SetNewInactive => rfl
    | outOfRange raw => rw [hp] at h3; simp [NewSubjectActivityPolicy.isDefined] at h3
  rw [exportFilterSpecificBinary_empty, importFilterSpecificBinary_three]
  refine ⟨rfl, by rw [e1, e2, e3], ?_, rfl, ?_, rfl⟩
  · intro field hf
    simp only [List.mem_cons, List.mem_singleton, List.not_mem_nil, or_false] at hf
    rcases hf with hf | hf | hf <;> rw [hf] <;> exact Nat.mod_lt _ (by decide)
  · simp only [policies, e1, e2, e3]
    rw [activityPolicy_ofInt_toInt _ h1, minimumActivityPolicy_ofInt_toInt _ h2,
      newSubjectActivityPolicy_ofInt_toInt _ h3]

/-- A filter with `MultipleActivity`, `ProhibitNoneActive` and `SetNewInactive` exports
the fields `1, 1, 1`; a freshly constructed filter that imports them holds the same
three policies. -/
theorem policy_round_trip_witness :
    (exportFilterSpecificBinary
        (exampleFilter .MultipleActivity .ProhibitNoneActive .SetNewInactive [1, 2] [1]) []).2
        = [1, 1, 1]
    ∧ policies (importFilterSpecificBinary (ActivityPolicyFilter.new noActivity)
        (exportFilterSpecificBinary
          (exampleFilter .MultipleActivity .ProhibitNoneActive .SetNewInactive [1, 2] [1]) []).2).2.1
        = (.MultipleActivity, .ProhibitNoneActive, .SetNewInactive) :=
  ⟨by decide,
    (policy_round_trip
      (exampleFilter .MultipleActivity .ProhibitNoneActive .SetNewInactive [1, 2] [1])
      (ActivityPolicyFilter.new noActivity) rfl rfl rfl).2.2.2.2.1⟩

/-- The operations of the filter other than the import leave the three policy fields of
a filter whose observer is set as they are. -/
theorem policies_kept_with_observer_set (s : ActivityPolicyFilter) (obs : Observer)
    (hobs : s.observer = some obs) :
    (∀ p, policies (setActivityPolicy s p) = policies s)
      ∧ (∀ p, policies (setMinimumActivityPolicy s p) = policies s)
      ∧ (∀ p, policies (setNewSubjectActivityPolicy s p) = policies s)
      ∧ (∀ objects, policies (setActiveSubjects s objects) = policies s)
      ∧ (∀ obj b, policies (finalizeAttachment s obj b) = policies s)
      ∧ (∀ obj ds sd, ∃ t, finalizeDetachment s obj ds sd = some t ∧ policies t = policies s)
      ∧ (∀ obj, policies (monitoredPropertyChanged s obj).2 = policies s) := by
  refine ⟨fun p => by simp [setActivityPolicy, hobs],
    fun p => by simp [setMinimumActivityPolicy, hobs],
    fun p => by simp [setNewSubjectActivityPolicy, hobs],
    fun objects => policies_of_configuration (configuration_setActiveSubjects s objects),
    fun obj b => policies_of_configuration (configuration_finalizeAttachment s obj b),
    fun obj ds sd => ?_, fun obj => ?_⟩
  · obtain ⟨t, ht, hc, _⟩ := finalizeDetachment_some s obs obj ds sd hobs
    exact ⟨t, ht, policies_of_configuration hc⟩
  · by_cases hm : s.filter_mutex = true
    · rw [monitoredPropertyChanged_of_locked s obj hm]
    · have hm2 : s.filter_mutex = false := by simpa using hm
      exact policies_of_configuration (monitoredPropertyChanged_of_free s obs obj hm2 hobs).2.2.1

/-- C14, the code at the failing input. A filter with `UniqueActivity`,
`ProhibitNoneActive`, `SetNewActive` whose observer is set, holding subjects `1, 2`,
imports the stream `1, 0, 1`: the call succeeds and the three policy fields now hold
`MultipleActivity`, `AllowNoneActive`, `SetNewInactive`. The setters leave the same
filter alone. -/
theorem importFilterSpecificBinary_changes_policies_with_observer_set :
    (exampleFilter .UniqueActivity .ProhibitNoneActive .SetNewActive [1, 2] [1]).observer
        = some (exampleObserver [1, 2])
    ∧ policies (setActivityPolicy
        (exampleFilter .UniqueActivity .ProhibitNoneActive .SetNewActive [1, 2] [1])
        .MultipleActivity) = (.UniqueActivity, .ProhibitNoneActive, .SetNewActive)
    ∧ (importFilterSpecificBinary
        (exampleFilter .UniqueActivity .ProhibitNoneActive .SetNewActive [1, 2] [1])
        [1, 0, 1]).1 = true
    ∧ policies (importFilterSpecificBinary
        (exampleFilter .UniqueActivity .ProhibitNoneActive .SetNewActive [1, 2] [1])
        [1, 0, 1]).2.1 = (.MultipleActivity, .AllowNoneActive, .SetNewInactive) := by
  refine ⟨rfl, ?_, ?_, ?_⟩ <;> decide

/-- C15, as the code has it. `importFilterSpecificBinary` does not check ranges: for
every stream that starts with three fields it returns `true`, and each policy field
holds the cast of its stream field, so a policy field holds a defined value afterwards
exactly when its stream field holds `0` or `1`. -/
theorem importFilterSpecificBinary_stores_unchecked (s : ActivityPolicyFilter)
    (a b c : Nat) (rest : QDataStream) :
    (importFilterSpecificBinary s (a :: b :: c :: rest)).1 = true
      ∧ (importFilterSpecificBinary s (a :: b :: c :: rest)).2.1.d_activity_policy
          = ActivityPolicy.ofInt (a % 2 ^ 32)
      ∧ (importFilterSpecificBinary s (a :: b :: c :: rest)).2.1.d_minimum_activity_policy
          = MinimumActivityPolicy.ofInt (b % 2 ^ 32)
      ∧ (importFilterSpecificBinary s (a :: b :: c :: rest)).2.1.d_new_subject_activity_policy
          = NewSubjectActivityPolicy.ofInt (c % 2 ^ 32)
      ∧ ((importFilterSpecificBinary s (a :: b :: c :: rest)).2.1.d_activity_policy.isDefined
          = true ↔ a % 2 ^ 32 ≤ 1)
      ∧ ((importFilterSpecificBinary s
            (a :: b :: c :: rest)).2.1.d_minimum_activity_policy.isDefined
          = true ↔ b % 2 ^ 32 ≤ 1)
      ∧ ((importFilterSpecificBinary s
            (a :: b :: c :: rest)).2.1.d_new_subject_activity_policy.isDefined
          = true ↔ c % 2 ^ 32 ≤ 1) := by
  rw [importFilterSpecificBinary_three]
  refine ⟨rfl, rfl, rfl, rfl, ?_, ?_, ?_⟩
  · simp [activityPolicy_isDefined_ofInt]
  · simp [minimumActivityPolicy_isDefined_ofInt]
  · simp [newSubjectActivityPolicy_isDefined_ofInt]

/-- C15 as stated fails: the stream `7, 0, 0` holds a value that is no activity policy;
the import reports success, not failure, and the activity policy field holds the
undefined value `7` afterwards. -/
theorem importFilterSpecificBinary_counterexample :
    (ActivityPolicy.ofInt 7).isDefined = false
    ∧ (importFilterSpecificBinary (ActivityPolicyFilter.new noActivity) [7, 0, 0]).1 = true
    ∧ (importFilterSpecificBinary (ActivityPolicyFilter.new noActivity)
        [7, 0, 0]).2.1.d_activity_policy = .outOfRange 7
    ∧ (importFilterSpecificBinary (ActivityPolicyFilter.new noActivity)
        [7, 0, 0]).2.1.d_activity_policy.isDefined = false := by
  refine ⟨?_, ?_, ?_, ?_⟩ <;> decide


/-- C16, as the code has it. `setActiveSubjects` called with a list that holds a null
pointer or a subject that is not attached leaves the stored activity of every subject
unchanged. `monitoredPropertyChanged` makes no such check: called for a subject that is
not attached it leaves the stored activity of every attached subject unchanged when
that subject is not stored as active in this context, or when the activity policy is
not `UniqueActivity`. -/
theorem unattached_subject_changes_nothing (s : ActivityPolicyFilter) (obs : Observer)
    (hobs : s.observer = some obs) :
    (∀ objects : List QObjectPtr, (∃ o ∈ objects, o = 0 ∨ o ∉ obs.subject_list) →
        ∀ x, isActive (setActiveSubjects s objects) obs x = isActive s obs x)
      ∧ (∀ obj, obj ∉ obs.subject_list →
          isActive s obs obj = false ∨ s.d_activity_policy ≠ .UniqueActivity →
          ∀ x ∈ obs.subject_list,
            isActive (monitoredPropertyChanged s obj).2 obs x = isActive s obs x) := by
  refine ⟨?_, ?_⟩
  · intro objects hbad x
    have hbad2 : (∃ o ∈ objects, o = 0 ∨ o ∉ subjects s)
        ∨ (objects = [] ∧ s.d_minimum_activity_policy = .ProhibitNoneActive)
        ∨ (1 < objects.length ∧ s.d_activity_policy = .UniqueActivity) := by
      left
      simpa only [subjects, hobs] using hbad
    exact isActive_congr (setActiveSubjects_of_invalid s objects hbad2).1 obs x
  · intro obj hobj hcond x hx
    have hxo : x ≠ obj := fun e => hobj (e ▸ hx)
    by_cases hm : s.filter_mutex = true
    · rw [monitoredPropertyChanged_of_locked s obj hm]
    · have hm2 : s.filter_mutex = false := by simpa using hm
      rw [(monitoredPropertyChanged_of_free s obs obj hm2 hobs).2.2.2 x]
      by_cases ha : isActive s obs obj = true
      · have hnu : s.d_activity_policy ≠ .UniqueActivity := by
          rcases hcond with h | h
          · rw [ha] at h
            exact absurd h (by decide)
          · exact h
        rw [if_pos ha, if_neg (fun hc => hnu hc.1)]
      · rw [if_neg ha, if_neg (fun hc => hxo hc.2.2)]

/-- Subjects `1, 2` with `1` active under `UniqueActivity` and `ProhibitNoneActive`:
`setActiveSubjects([0])` and `setActiveSubjects([5])`, and a change notification for the
subject `5`, which is not attached and not stored as active, all leave `1` active. -/
theorem unattached_subject_changes_nothing_witness :
    ((5 : QObjectPtr) ∉ (exampleObserver [1, 2]).subject_list
      ∧ isActive (exampleFilter .UniqueActivity .ProhibitNoneActive .SetNewActive [1, 2] [1])
          (exampleObserver [1, 2]) 5 = false)
    ∧ isActive (setActiveSubjects
        (exampleFilter .UniqueActivity .ProhibitNoneActive .SetNewActive [1, 2] [1]) [0])
        (exampleObserver [1, 2]) 1 = true
    ∧ isActive (setActiveSubjects
        (exampleFilter .UniqueActivity .ProhibitNoneActive .SetNewActive [1, 2] [1]) [5])
        (exampleObserver [1, 2]) 1 = true
    ∧ isActive (monitoredPropertyChanged
        (exampleFilter .UniqueActivity .ProhibitNoneActive .SetNewActive [1, 2] [1]) 5).2
        (exampleObserver [1, 2]) 1 = true :=
  ⟨by decide,
    ((unattached_subject_changes_nothing
      (exampleFilter .UniqueActivity .ProhibitNoneActive .SetNewActive [1, 2] [1])
      (exampleObserver [1, 2]) rfl).1 [0] ⟨0, by decide, Or.inl rfl⟩ 1).trans (by decide),
    ((unattached_subject_changes_nothing
      (exampleFilter .UniqueActivity .ProhibitNoneActive .SetNewActive [1, 2] [1])
      (exampleObserver [1, 2]) rfl).1 [5] ⟨5, by decide, Or.inr (by decide)⟩ 1).trans
      (by decide),
    ((unattached_subject_changes_nothing
      (exampleFilter .UniqueActivity .ProhibitNoneActive .SetNewActive [1, 2] [1])
      (exampleObserver [1, 2]) rfl).2 5 (by decide) (Or.inl (by decide)) 1 (by decide)).trans
      (by decide)⟩

/-- C16 as stated fails: under `UniqueActivity`, with subjects `1, 2` attached and `1`
active, a change notification for the subject `3`, which is not attached but is stored
as active in this context, makes the attached subject `1` inactive. -/
theorem monitoredPropertyChanged_unattached_counterexample :
    (3 : QObjectPtr) ∉ (exampleObserver [1, 2]).subject_list
    ∧ isActive (exampleFilter .UniqueActivity .AllowNoneActive .SetNewActive [1, 2] [1, 3])
        (exampleObserver [1, 2]) 1 = true
    ∧ isActive (monitoredPropertyChanged
        (exampleFilter .UniqueActivity .AllowNoneActive .SetNewActive [1, 2] [1, 3]) 3).2
        (exampleObserver [1, 2]) 1 = false := by
  refine ⟨?_, ?_, ?_⟩ <;> decide

/-- With a context set, each of the four calls that starts with the guard free returns
with the guard free; without a context, `setActiveSubjects` and `finalizeAttachment`
return before they take the guard. -/
theorem guard_released (s : ActivityPolicyFilter) (hm : s.filter_mutex = false) :
    (∀ objects, (setActiveSubjects s objects).filter_mutex = false)
      ∧ (∀ obj b, (finalizeAttachment s obj b).filter_mutex = false)
      ∧ (∀ obs, s.observer = some obs → ∀ obj ds sd,
          ∃ t, finalizeDetachment s obj ds sd = some t ∧ t.filter_mutex = false)
      ∧ (∀ obs, s.observer = some obs → ∀ obj,
          (monitoredPropertyChanged s obj).2.filter_mutex = false) := by
  refine ⟨fun objects => filter_mutex_setActiveSubjects s objects hm,
    fun obj b => filter_mutex_finalizeAttachment s obj b hm, ?_, ?_⟩
  · intro obs hobs obj ds sd
    obtain ⟨t, ht, _, hmx, _⟩ := finalizeDetachment_some s obs obj ds sd hobs
    refine ⟨t, ht, ?_⟩
    rcases hmx with h | h
    · exact h.trans hm
    · exact h
  · intro obs hobs obj
    exact (monitoredPropertyChanged_of_free s obs obj hm hobs).2.1

/-- C18, the code at the failing input. On a freshly constructed filter, whose observer
is not set and whose guard is free, `monitoredPropertyChanged` takes the guard, returns
`false` at the test of `observer`, and leaves the guard held; a second call then
returns `true` as a busy filter. `finalizeDetachment` on the same filter goes on to
dereference the null `observer`. -/
theorem monitoredPropertyChanged_without_observer_keeps_guard :
    (ActivityPolicyFilter.new noActivity).observer = none
    ∧ (ActivityPolicyFilter.new noActivity).filter_mutex = false
    ∧ (monitoredPropertyChanged (ActivityPolicyFilter.new noActivity) 1).1 = false
    ∧ (monitoredPropertyChanged (ActivityPolicyFilter.new noActivity) 1).2.filter_mutex = true
    ∧ (monitoredPropertyChanged
        (monitoredPropertyChanged (ActivityPolicyFilter.new noActivity) 1).2 1).1 = true
    ∧ (finalizeDetachment (ActivityPolicyFilter.new noActivity) 1 true false).isNone = true := by
  refine ⟨rfl, rfl, ?_, ?_, ?_, ?_⟩ <;> decide


/-! ### The effects of the calls -/

theorem effects_foldl_write (obs : Observer) (v : Bool) (l : List QObjectPtr)
    (s : ActivityPolicyFilter) :
    (l.foldl (fun st subj => setObserverPropertyValue st obs subj v) s).effects
      = s.effects ++ l.map Effect.propertyWritten := by
  induction l generalizing s with
  | nil => simp
  | cons a l ih =>
    simp only [List.foldl_cons, List.map_cons]
    rw [ih]
    simp [setObserverPropertyValue, setObserverProperty]

theorem effects_foldl_others (obs : Observer) (obj : QObjectPtr) (l : List QObjectPtr)
    (s : ActivityPolicyFilter) :
    (l.foldl
        (fun st subj => if subj ≠ obj then setObserverPropertyValue st obs subj false else st)
        s).effects
      = s.effects ++ (l.filter (fun x => decide (x ≠ obj))).map Effect.propertyWritten := by
  induction l generalizing s with
  | nil => simp
  | cons a l ih =>
    simp only [List.foldl_cons]
    rw [ih]
    by_cases h : a = obj
    · simp [h]
    · simp [h, setObserverPropertyValue, setObserverProperty]

theorem effects_foldl_post (obs : Observer) (l : List QObjectPtr) (s : ActivityPolicyFilter) :
    (l.foldl (fun st subj => emit st (Effect.postedPropertyChangeEvent subj obs.observer_id))
        s).effects
      = s.effects ++ l.map (fun subj => Effect.postedPropertyChangeEvent subj obs.observer_id) := by
  induction l generalizing s with
  | nil => simp
  | cons a l ih =>
    simp only [List.foldl_cons, List.map_cons]
    rw [ih]
    simp [emit]

theorem isWrite_of_mem_map {l : List QObjectPtr} {e : Effect}
    (h : e ∈ l.map Effect.propertyWritten) : e.isWrite = true := by
  obtain ⟨x, _, hx⟩ := List.mem_map.1 h
  rw [← hx]
  rfl

theorem countP_isAggregate_of_writes {writes : List Effect}
    (h : ∀ e ∈ writes, e.isWrite = true) : writes.countP Effect.isAggregate = 0 := by
  rw [List.countP_eq_zero]
  intro e he
  have := h e he
  cases e <;> simp_all [Effect.isWrite, Effect.isAggregate]

/-- The state in which a free `monitoredPropertyChanged` on a context returns: the
aggregate signal is emitted from, and the guard released in, the state that one of the
three branches of the function leaves. -/
theorem monitoredPropertyChanged_state (s : ActivityPolicyFilter) (obs : Observer)
    (obj : QObjectPtr) (hm : s.filter_mutex = false) (hobs : s.observer = some obs) :
    ∃ s2, (monitoredPropertyChanged s obj).2 = unlockFilter (announceActiveSubjects s2 obs)
      ∧ (s2 = setOthersInactive (lockFilter s) obs obj ∨ s2 = lockFilter s
          ∨ s2 = setObserverPropertyValue (lockFilter s) obs obj true) := by
  have hl : (lockFilter s).observer = some obs := hobs
  have hn : numActiveSubjects (lockFilter s) obs = numActiveSubjects s obs := rfl
  have hp1 : (lockFilter s).d_activity_policy = s.d_activity_policy := rfl
  have hp2 : (lockFilter s).d_minimum_activity_policy = s.d_minimum_activity_policy := rfl
  by_cases ha : isActive s obs obj = true
  · by_cases hu : s.d_activity_policy = .UniqueActivity
    · refine ⟨_, ?_, Or.inl rfl⟩
      simp [monitoredPropertyChanged, hm, hl, hp1, ha, hu]
    · refine ⟨_, ?_, Or.inr (Or.inl rfl)⟩
      simp [monitoredPropertyChanged, hm, hl, hp1, ha, hu]
  · by_cases hp : s.d_minimum_activity_policy = .ProhibitNoneActive ∧ numActiveSubjects s obs = 0
    · refine ⟨_, ?_, Or.inr (Or.inr rfl)⟩
      simp [monitoredPropertyChanged, hm, hl, hp2, hn, ha, hp.1, hp.2]
    · refine ⟨_, ?_, Or.inr (Or.inl rfl)⟩
      unfold monitoredPropertyChanged
      simp only [hm, hl, hp2, hn, isActive_lockFilter, ha, Bool.false_eq_true, if_false, hp]

/-- C19. The aggregate notification of `monitoredPropertyChanged`. For every call with
the guard free and the observer set (the accepted external changes among them), what
the call adds to the effects is a run of activity writes followed by one aggregate
`activeSubjectsChanged` signal, so the signal is emitted exactly once and after every
write of the call, and it carries `activeSubjects()` and `inactiveSubjects()` of the
state in which the call returns. -/
theorem monitoredPropertyChanged_single_notification (s : ActivityPolicyFilter)
    (obs : Observer) (obj : QObjectPtr) (hm : s.filter_mutex = false)
    (hobs : s.observer = some obs) :
    ∃ writes : List Effect, (∀ e ∈ writes, e.isWrite = true)
      ∧ (monitoredPropertyChanged s obj).2.effects
          = s.effects ++ writes
              ++ [Effect.activeSubjectsChanged
                    (activeSubjects (monitoredPropertyChanged s obj).2 obs)
                    (inactiveSubjects (monitoredPropertyChanged s obj).2 obs)]
      ∧ (writes ++ [Effect.activeSubjectsChanged
                    (activeSubjects (monitoredPropertyChanged s obj).2 obs)
                    (inactiveSubjects (monitoredPropertyChanged s obj).2 obs)]).countP
            Effect.isAggregate = 1 := by
  obtain ⟨s2, hs2, hcase⟩ := monitoredPropertyChanged_state s obs obj hm hobs
  have hfin : (monitoredPropertyChanged s obj).2.effects
      = s2.effects ++ [Effect.activeSubjectsChanged
          (activeSubjects (monitoredPropertyChanged s obj).2 obs)
          (inactiveSubjects (monitoredPropertyChanged s obj).2 obs)] := by
    rw [hs2]
    rfl
  have hw : ∃ writes : List Effect, (∀ e ∈ writes, e.isWrite = true)
      ∧ s2.effects = s.effects ++ writes := by
    rcases hcase with h | h | h
    · refine ⟨(obs.subject_list.filter (fun x => decide (x ≠ obj))).map Effect.propertyWritten,
        fun e he => isWrite_of_mem_map he, ?_⟩
      rw [h]
      exact effects_foldl_others obs obj obs.subject_list (lockFilter s)
    · refine ⟨[], fun e he => absurd he (List.not_mem_nil e), ?_⟩
      rw [h]
      simp [lockFilter]
    · refine ⟨[Effect.propertyWritten obj], fun e he => ?_, ?_⟩
      · rw [List.mem_singleton] at he
        rw [he]
        rfl
      · rw [h]
        rfl
  obtain ⟨writes, hwr, heff⟩ := hw
  refine ⟨writes, hwr, ?_, ?_⟩
  · rw [hfin, heff]
  · rw [List.countP_append, countP_isAggregate_of_writes hwr]
    rfl

/-- Subjects `1, 2, 3` under `UniqueActivity`, `1` active and `2` just written active:
the call writes the activity of `1` and `3` and then emits one aggregate signal, which
carries the active list `[2]` and the inactive list `[1, 3]` of the state it returns in. -/
theorem monitoredPropertyChanged_single_notification_witness :
    (exampleFilter .UniqueActivity .ProhibitNoneActive .SetNewActive [1, 2, 3]
        [1, 2]).filter_mutex = false
    ∧ (monitoredPropertyChanged
        (exampleFilter .UniqueActivity .ProhibitNoneActive .SetNewActive [1, 2, 3] [1, 2])
        2).2.effects
        = [Effect.propertyWritten 1, Effect.propertyWritten 3,
            Effect.activeSubjectsChanged [2] [1, 3]]
    ∧ ∃ writes : List Effect, (∀ e ∈ writes, e.isWrite = true)
      ∧ (monitoredPropertyChanged
          (exampleFilter .UniqueActivity .ProhibitNoneActive .SetNewActive [1, 2, 3] [1, 2])
          2).2.effects
          = (exampleFilter .UniqueActivity .ProhibitNoneActive .SetNewActive [1, 2, 3]
              [1, 2]).effects ++ writes
            ++ [Effect.activeSubjectsChanged
                  (activeSubjects (monitoredPropertyChanged
                    (exampleFilter .UniqueActivity .ProhibitNoneActive .SetNewActive [1, 2, 3]
                      [1, 2]) 2).2 (exampleObserver [1, 2, 3]))
                  (inactiveSubjects (monitoredPropertyChanged
                    (exampleFilter .UniqueActivity .ProhibitNoneActive .SetNewActive [1, 2, 3]
                      [1, 2]) 2).2 (exampleObserver [1, 2, 3]))] :=
  ⟨rfl, by decide,
    (monitoredPropertyChanged_single_notification
      (exampleFilter .UniqueActivity .ProhibitNoneActive .SetNewActive [1, 2, 3] [1, 2])
      (exampleObserver [1, 2, 3]) 2 rfl rfl).imp (fun _ h => ⟨h.1, h.2.1⟩)⟩


theorem effects_emit (s : ActivityPolicyFilter) (e : Effect) :
    (emit s e).effects = s.effects ++ [e] := rfl

theorem effects_unlockFilter (s : ActivityPolicyFilter) :
    (unlockFilter s).effects = s.effects := rfl

theorem effects_postChangeEvents (s : ActivityPolicyFilter) (obs : Observer) :
    (postChangeEvents s obs).effects
      = s.effects ++ obs.subject_list.map
          (fun subj => Effect.postedPropertyChangeEvent subj obs.observer_id) :=
  effects_foldl_post obs obs.subject_list s

theorem effects_setListActive (s : ActivityPolicyFilter) (obs : Observer)
    (objects : List QObjectPtr) :
    (setListActive s obs objects).effects = s.effects ++ objects.map Effect.propertyWritten :=
  effects_foldl_write obs true objects s

theorem effects_setAllInactive (s : ActivityPolicyFilter) (obs : Observer) :
    (setAllInactive s obs).effects = s.effects ++ obs.subject_list.map Effect.propertyWritten :=
  effects_foldl_write obs false obs.subject_list s

/-- What an accepted `setActiveSubjects` adds to the effects: the writes that make every
subject inactive, the writes that make the subjects of the list active, one posted event
for every subject, and then one aggregate signal. The signal carries the input list
itself as the active list, and `inactiveSubjects()` of the state in which the call
returns. -/
theorem effects_setActiveSubjects (s : ActivityPolicyFilter) (obs : Observer)
    (objects : List QObjectPtr) (hobs : s.observer = some obs)
    (hv : ∀ o ∈ objects, o ≠ 0 ∧ o ∈ obs.subject_list)
    (h1 : objects = [] → s.d_minimum_activity_policy ≠ .ProhibitNoneActive)
    (h2 : 1 < objects.length → s.d_activity_policy ≠ .UniqueActivity) :
    (setActiveSubjects s objects).effects
      = s.effects ++ obs.subject_list.map Effect.propertyWritten
          ++ objects.map Effect.propertyWritten
          ++ obs.subject_list.map
              (fun subj => Effect.postedPropertyChangeEvent subj obs.observer_id)
          ++ [Effect.activeSubjectsChanged objects
                (inactiveSubjects (setActiveSubjects s objects) obs)] := by
  have hin : inactiveSubjects (setActiveSubjects s objects) obs
      = inactiveSubjects (postChangeEvents (unlockFilter
          (setListActive (setAllInactive (lockFilter s) obs) obs objects)) obs) obs := by
    rw [setActiveSubjects_of_valid s obs objects hobs hv h1 h2]
    rfl
  rw [hin, setActiveSubjects_of_valid s obs objects hobs hv h1 h2, effects_emit,
    effects_postChangeEvents, effects_unlockFilter, effects_setListActive,
    effects_setAllInactive]
  rfl

/-- After an accepted `setActiveSubjects` an attached subject is active exactly when
it is in the list. -/
theorem setActiveSubjects_active_iff_helper (s : ActivityPolicyFilter) (obs : Observer)
    (objects : List QObjectPtr) (hobs : s.observer = some obs)
    (hv : ∀ o ∈ objects, o ≠ 0 ∧ o ∈ obs.subject_list)
    (h1 : objects = [] → s.d_minimum_activity_policy ≠ .ProhibitNoneActive)
    (h2 : 1 < objects.length → s.d_activity_policy ≠ .UniqueActivity)
    (x : QObjectPtr) (hx : x ∈ obs.subject_list) :
    isActive (setActiveSubjects s objects) obs x = true ↔ x ∈ objects := by
  rw [isActive_setActiveSubjects s obs objects hobs hv h1 h2 x]
  by_cases hm : x ∈ objects <;> simp [hm, hx]

/-- For an accepted list that names no subject twice, on a context that holds no subject
twice, the two lists of the aggregate signal of `setActiveSubjects` partition the
attached subjects: every attached subject occurs exactly once across them, in the active
list exactly when it is active after the call. -/
theorem setActiveSubjects_partition_of_nodup (s : ActivityPolicyFilter) (obs : Observer)
    (objects : List QObjectPtr) (hobs : s.observer = some obs)
    (hv : ∀ o ∈ objects, o ≠ 0 ∧ o ∈ obs.subject_list)
    (h1 : objects = [] → s.d_minimum_activity_policy ≠ .ProhibitNoneActive)
    (h2 : 1 < objects.length → s.d_activity_policy ≠ .UniqueActivity)
    (hnd : obs.subject_list.Nodup) (hndo : objects.Nodup) :
    ∀ x ∈ obs.subject_list,
      (objects ++ inactiveSubjects (setActiveSubjects s objects) obs).count x = 1
        ∧ (x ∈ objects ↔ isActive (setActiveSubjects s objects) obs x = true) := by
  intro x hx
  have hact := setActiveSubjects_active_iff_helper s obs objects hobs hv h1 h2 x hx
  refine ⟨?_, hact.symm⟩
  rw [List.count_append, inactiveSubjects_eq_filter]
  by_cases hm : x ∈ objects
  · have hxa : isActive (setActiveSubjects s objects) obs x = true := hact.2 hm
    rw [List.count_eq_one_of_mem hndo hm, List.count_eq_zero_of_not_mem]
    intro hc
    have := (List.mem_filter.1 hc).2
    simp [hxa] at this
  · have hxa : isActive (setActiveSubjects s objects) obs x = false := by
      cases hb : isActive (setActiveSubjects s objects) obs x with
      | false => rfl
      | true => exact absurd (hact.1 hb) hm
    rw [List.count_eq_zero_of_not_mem hm,
      List.count_eq_one_of_mem (hnd.filter _) (List.mem_filter.2 ⟨hx, by simp [hxa]⟩)]

/-- C20, the code at the failing input. Under `MultipleActivity` and `AllowNoneActive`,
with the subjects `1, 2` attached and inactive, the list `[1, 1]` passes the validation
of `setActiveSubjects`. The call makes `1` the one active subject, but the aggregate
signal it emits carries the input list `[1, 1]` as the active list: the attached subject
`1` occurs twice across the two lists of the signal, not exactly once. -/
theorem setActiveSubjects_notification_repeats_subject :
    (∀ o ∈ ([1, 1] : List QObjectPtr), o ≠ 0 ∧ o ∈ (exampleObserver [1, 2]).subject_list)
    ∧ (setActiveSubjects
        (exampleFilter .MultipleActivity .AllowNoneActive .SetNewInactive [1, 2] [])
        [1, 1]).effects.getLast? = some (Effect.activeSubjectsChanged [1, 1] [2])
    ∧ activeSubjects (setActiveSubjects
        (exampleFilter .MultipleActivity .AllowNoneActive .SetNewInactive [1, 2] []) [1, 1])
        (exampleObserver [1, 2]) = [1]
    ∧ (([1, 1] : List QObjectPtr) ++ [2]).count 1 = 2 := by
  refine ⟨?_, ?_, ?_, ?_⟩ <;> decide


/-! ### Claims C21 to C28 -/

theorem length_filter_add_length_filter_not (p : QObjectPtr → Bool) (l : List QObjectPtr) :
    (l.filter p).length + (l.filter (fun x => !p x)).length = l.length := by
  induction l with
  | nil => rfl
  | cons a l ih =>
    by_cases h : p a = true
    · simp [List.filter_cons, h]
      omega
    · simp [List.filter_cons, h]
      omega

/-- C25. The read-only queries are filtered scans: `activeSubjects()` is the subject
list of the context, in order, restricted to the subjects whose activity in this context
is true; `inactiveSubjects()` is the same list restricted to the remaining subjects;
`numActiveSubjects()` is the length of `activeSubjects()`; no subject is in both lists,
and the lengths of the two lists add up to the subject count. -/
theorem queries_are_filtered_scans (s : ActivityPolicyFilter) (obs : Observer) :
    activeSubjects s obs = obs.subject_list.filter (fun x => isActive s obs x)
      ∧ inactiveSubjects s obs = obs.subject_list.filter (fun x => !isActive s obs x)
      ∧ numActiveSubjects s obs = (activeSubjects s obs).length
      ∧ (∀ x, x ∈ activeSubjects s obs → x ∉ inactiveSubjects s obs)
      ∧ (activeSubjects s obs).length + (inactiveSubjects s obs).length
          = obs.subject_list.length := by
  refine ⟨activeSubjects_eq_filter s obs, inactiveSubjects_eq_filter s obs, ?_, ?_, ?_⟩
  · rw [numActiveSubjects_eq_countP, activeSubjects_eq_filter, List.countP_eq_length_filter]
  · intro x hx hc
    rw [activeSubjects_eq_filter, List.mem_filter] at hx
    rw [inactiveSubjects_eq_filter, List.mem_filter] at hc
    have h1 := hx.2
    have h2 := hc.2
    simp [h1] at h2
  · rw [activeSubjects_eq_filter, inactiveSubjects_eq_filter]
    exact length_filter_add_length_filter_not (isActive s obs) obs.subject_list

/-- C27. A failed attachment is a no-op: `finalizeAttachment` called with
`attachment_successful = false` leaves the activity property of every object, the
effects emitted so far, the guard, the policies and the observer as they were. -/
theorem finalizeAttachment_unsuccessful_is_noop (s : ActivityPolicyFilter)
    (obj : QObjectPtr) :
    (finalizeAttachment s obj false).activity = s.activity
      ∧ (finalizeAttachment s obj false).effects = s.effects
      ∧ (finalizeAttachment s obj false).filter_mutex = s.filter_mutex
      ∧ configuration (finalizeAttachment s obj false) = configuration s := by
  unfold finalizeAttachment
  by_cases h0 : obj = 0
  · rw [if_pos h0]
    exact ⟨rfl, rfl, rfl, rfl⟩
  · rw [if_neg h0]
    split
    · exact ⟨rfl, rfl, rfl, rfl⟩
    · exact ⟨rfl, rfl, rfl, rfl⟩

/-- The three ways `finalizeDetachment` returns on a filter whose observer is set. -/
theorem finalizeDetachment_cases (s : ActivityPolicyFilter) (obs : Observer)
    (obj : QObjectPtr) (ds sd : Bool) (hobs : s.observer = some obs) :
    ((obj = 0 ∨ (ds = false ∧ sd = false)) ∧ finalizeDetachment s obj ds sd = some s)
      ∨ (obj ≠ 0 ∧ (ds = true ∨ sd = true) ∧ obs.subject_list ≠ []
          ∧ finalizeDetachment s obj ds sd
            = some (unlockFilter (announceDetachment
                (restoreMinimumActivity (lockFilter s) obs obj) obs)))
      ∨ (obj ≠ 0 ∧ (ds = true ∨ sd = true) ∧ obs.subject_list = []
          ∧ finalizeDetachment s obj ds sd = some (unlockFilter (lockFilter s))) := by
  have hl : (lockFilter s).observer = some obs := hobs
  by_cases h0 : obj = 0
  · left
    exact ⟨Or.inl h0, by simp [finalizeDetachment, h0]⟩
  · by_cases hf : ds = false ∧ sd = false
    · left
      exact ⟨Or.inr hf, by simp [finalizeDetachment, hf.1, hf.2]⟩
    · have hf2 : ds = true ∨ sd = true := by
        cases ds <;> cases sd <;> simp_all
      have hf3 : ¬ ((!ds && !sd) = true) := by
        cases ds <;> cases sd <;> simp_all
      right
      by_cases hne : obs.subject_list = []
      · right
        refine ⟨h0, hf2, hne, ?_⟩
        unfold finalizeDetachment
        rw [if_neg h0, if_neg hf3]
        simp [hl, hne]
      · left
        refine ⟨h0, hf2, hne, ?_⟩
        have hlen : obs.subject_list.length ≥ 1 := by
          cases hs : obs.subject_list with
          | nil => exact absurd hs hne
          | cons a l => simp
        unfold finalizeDetachment
        rw [if_neg h0, if_neg hf3]
        simp only [hl, hlen, if_true]

/-- C28. `finalizeDetachment` only ever activates the first remaining subject: for every
state of a filter on a context, every policy combination and all flag values, the call
returns, the stored activity of every subject other than `subjectAt(0)` is what it was,
no subject that was active is inactive afterwards, and nothing at all changes when the
detachment was unsuccessful and the subject was not deleted. -/
theorem finalizeDetachment_changes_first_only (s : ActivityPolicyFilter) (obs : Observer)
    (obj : QObjectPtr) (detachment_successful subject_deleted : Bool)
    (hobs : s.observer = some obs) :
    ∃ t, finalizeDetachment s obj detachment_successful subject_deleted = some t
      ∧ (∀ x, x ≠ obs.subject_list.headD 0 → isActive t obs x = isActive s obs x)
      ∧ (∀ x, isActive s obs x = true → isActive t obs x = true)
      ∧ (detachment_successful = false → subject_deleted = false → t = s) := by
  obtain ⟨t, ht, _, _, hact⟩ :=
    finalizeDetachment_some s obs obj detachment_successful subject_deleted hobs
  refine ⟨t, ht, ?_, ?_, ?_⟩
  · intro x hx
    rw [hact x]
    split_ifs
    · rw [isActive_restoreMinimumActivity, if_neg (fun hc => hx hc.2.2.2)]
    · rfl
  · intro x hx
    rw [hact x]
    split_ifs
    · rw [isActive_restoreMinimumActivity]
      split_ifs
      · rfl
      · exact hx
    · exact hx
  · intro h1 h2
    rcases finalizeDetachment_cases s obs obj detachment_successful subject_deleted hobs with
      h | h | h
    · exact Option.some.inj (ht.symm.trans h.2)
    · rcases h.2.1 with h3 | h3
      · rw [h1] at h3; exact absurd h3 (by decide)
      · rw [h2] at h3; exact absurd h3 (by decide)
    · rcases h.2.1 with h3 | h3
      · rw [h1] at h3; exact absurd h3 (by decide)
      · rw [h2] at h3; exact absurd h3 (by decide)

/-- Subject `1` was active and has been removed, `2, 3` remain, `3` is active: the call
leaves `2` inactive and `3` active; with both flags false the state is unchanged. -/
theorem finalizeDetachment_changes_first_only_witness :
    (exampleFilter .MultipleActivity .ProhibitNoneActive .SetNewActive [2, 3] [1, 3]).observer
        = some (exampleObserver [2, 3])
    ∧ ∃ t, finalizeDetachment
        (exampleFilter .MultipleActivity .ProhibitNoneActive .SetNewActive [2, 3] [1, 3]) 1
        true false = some t
      ∧ (∀ x, x ≠ (exampleObserver [2, 3]).subject_list.headD 0 →
          isActive t (exampleObserver [2, 3]) x
            = isActive (exampleFilter .MultipleActivity .ProhibitNoneActive .SetNewActive
                [2, 3] [1, 3]) (exampleObserver [2, 3]) x) :=
  ⟨rfl,
    (finalizeDetachment_changes_first_only
      (exampleFilter .MultipleActivity .ProhibitNoneActive .SetNewActive [2, 3] [1, 3])
      (exampleObserver [2, 3]) 1 true false rfl).imp (fun _ h => ⟨h.1, h.2.1⟩)⟩


/-! ### Other contexts -/

theorem activity_setOthersInactive_self (s : ActivityPolicyFilter) (obs : Observer)
    (obj : QObjectPtr) : (setOthersInactive s obs obj).activity obj = s.activity obj := by
  unfold setOthersInactive
  refine foldl_config _ (fun st => st.activity obj = s.activity obj) ?_ _ s rfl
  intro st b h
  by_cases hb : b = obj
  · simpa [hb] using h
  · have hob : ¬ obj = b := fun e => hb e.symm
    simpa [hb, hob, setObserverPropertyValue, setObserverProperty] using h

theorem activity_determineNewActivity_self (s : ActivityPolicyFilter) (obs : Observer)
    (obj : QObjectPtr) : (determineNewActivity s obs obj).2.activity obj = s.activity obj := by
  unfold determineNewActivity
  split_ifs <;> first | rfl | exact activity_setOthersInactive_self s obs obj

/-- C22. `finalizeAttachment` keeps the activity a subject has in other contexts: after a
successful call the activity property of the subject has an entry for this context that
holds the decided activity; when the subject already carried an activity property, the
entry of every other context holds the value it held before; when the subject carried
no activity property, the property created holds no entry but that of this context. -/
theorem finalizeAttachment_keeps_other_entries (s : ActivityPolicyFilter) (obs : Observer)
    (obj : QObjectPtr) (hobs : s.observer = some obs) (hobj : obj ≠ 0) :
    ∃ p, (finalizeAttachment s obj true).activity obj = some p
      ∧ p.context_map obs.observer_id = some (determineNewActivity s obs obj).1
      ∧ (∀ q, s.activity obj = some q →
          ∀ c, c ≠ obs.observer_id → p.context_map c = q.context_map c)
      ∧ (s.activity obj = none → ∀ c, c ≠ obs.observer_id → p.context_map c = none) := by
  rw [finalizeAttachment_of_success s obs obj hobs hobj]
  have hself : (determineNewActivity (lockFilter s) obs obj).2.activity obj = s.activity obj :=
    activity_determineNewActivity_self (lockFilter s) obs obj
  have hval : (determineNewActivity (lockFilter s) obs obj).1
      = (determineNewActivity s obs obj).1 := by
    rw [determineNewActivity_fst, determineNewActivity_fst]
    rfl
  have hst : ∀ (st : ActivityPolicyFilter) (v : Bool),
      (unlockFilter (announceNewActivity (storeNewActivity st obs obj v) obs obj v)).activity
        = (storeNewActivity st obs obj v).activity := by
    intro st v
    unfold announceNewActivity
    split <;> rfl
  rw [hst, hval]
  unfold storeNewActivity getObserverProperty
  rw [hself]
  cases hq : s.activity obj with
  | none =>
    refine ⟨(ObserverProperty.fresh.setIsExportable false).addContext
      (determineNewActivity s obs obj).1 obs.observer_id, by simp [setObserverProperty],
      ?_, ?_, ?_⟩
    · simp [ObserverProperty.addContext]
    · intro q hq2
      exact absurd hq2 (by simp)
    · intro _ c hc
      simp [ObserverProperty.addContext, ObserverProperty.setIsExportable,
        ObserverProperty.fresh, hc]
  | some q0 =>
    refine ⟨q0.addContext (determineNewActivity s obs obj).1 obs.observer_id,
      by simp [setObserverProperty], ?_, ?_, ?_⟩
    · simp [ObserverProperty.addContext]
    · intro q hq2 c hc
      have : q0 = q := Option.some.inj hq2
      rw [← this]
      simp [ObserverProperty.addContext, hc]
    · intro hq2
      exact absurd hq2 (by simp)

/-- Subject `3` is active in context `9` and joins context `7` under `SetNewInactive`:
afterwards it is inactive in context `7` and still active in context `9`. -/
theorem finalizeAttachment_keeps_other_entries_witness :
    getObserverPropertyValue
        (exampleSharedFilter .UniqueActivity .AllowNoneActive .SetNewInactive [1, 3] [1])
        (otherObserver [3]) 3 = some true
    ∧ ∃ p, (finalizeAttachment
        (exampleSharedFilter .UniqueActivity .AllowNoneActive .SetNewInactive [1, 3] [1])
        3 true).activity 3 = some p
      ∧ p.context_map 7 = some false
      ∧ p.context_map 9 = some true := by
  refine ⟨by decide, ?_⟩
  obtain ⟨p, hp, h7, hother, _⟩ := finalizeAttachment_keeps_other_entries
    (exampleSharedFilter .UniqueActivity .AllowNoneActive .SetNewInactive [1, 3] [1])
    (exampleObserver [1, 3]) 3 rfl (by decide)
  exact ⟨p, hp, h7.trans (by decide), (hother _ rfl 9 (by decide)).trans (by decide)⟩


theorem KeepsOtherContexts.refl (observer_id : Nat) (s : ActivityPolicyFilter) :
    KeepsOtherContexts observer_id s s := fun _ _ _ => rfl

theorem KeepsOtherContexts.trans {observer_id : Nat} {s t u : ActivityPolicyFilter}
    (h1 : KeepsOtherContexts observer_id s t) (h2 : KeepsOtherContexts observer_id t u) :
    KeepsOtherContexts observer_id s u :=
  fun other x hne => (h2 other x hne).trans (h1 other x hne)

theorem keepsOtherContexts_of_activity {observer_id : Nat} {s t : ActivityPolicyFilter}
    (h : t.activity = s.activity) : KeepsOtherContexts observer_id s t := by
  intro other x _
  simp [getObserverPropertyValue, h]

theorem keepsOtherContexts_setObserverPropertyValue (s : ActivityPolicyFilter) (obs : Observer)
    (o : QObjectPtr) (v : Bool) :
    KeepsOtherContexts obs.observer_id s (setObserverPropertyValue s obs o v) := by
  intro other x hne
  by_cases hx : x = o
  · rw [hx]
    cases hq : s.activity o <;>
      simp [getObserverPropertyValue, setObserverPropertyValue, setObserverProperty,
        ObserverProperty.setValue, ObserverProperty.fresh, hq, hne]
  · simp [getObserverPropertyValue, setObserverPropertyValue, setObserverProperty, hx]

theorem keepsOtherContexts_storeNewActivity (s : ActivityPolicyFilter) (obs : Observer)
    (o : QObjectPtr) (v : Bool) :
    KeepsOtherContexts obs.observer_id s (storeNewActivity s obs o v) := by
  intro other x hne
  by_cases hx : x = o
  · rw [hx]
    cases hq : s.activity o <;>
      simp [getObserverPropertyValue, storeNewActivity, getObserverProperty,
        setObserverProperty, ObserverProperty.addContext, ObserverProperty.setIsExportable,
        ObserverProperty.fresh, hq, hne]
  · unfold storeNewActivity
    split <;> simp [getObserverPropertyValue, setObserverProperty, hx]

theorem keepsOtherContexts_foldl {β : Type} (observer_id : Nat)
    (f : ActivityPolicyFilter → β → ActivityPolicyFilter)
    (hf : ∀ st b, KeepsOtherContexts observer_id st (f st b)) (l : List β)
    (s : ActivityPolicyFilter) : KeepsOtherContexts observer_id s (l.foldl f s) :=
  foldl_config f (fun st => KeepsOtherContexts observer_id s st)
    (fun st b h => h.trans (hf st b)) l s (KeepsOtherContexts.refl observer_id s)

theorem keepsOtherContexts_setAllInactive (s : ActivityPolicyFilter) (obs : Observer) :
    KeepsOtherContexts obs.observer_id s (setAllInactive s obs) :=
  keepsOtherContexts_foldl _ _
    (fun st b => keepsOtherContexts_setObserverPropertyValue st obs b false) _ s

theorem keepsOtherContexts_setListActive (s : ActivityPolicyFilter) (obs : Observer)
    (objects : List QObjectPtr) :
    KeepsOtherContexts obs.observer_id s (setListActive s obs objects) :=
  keepsOtherContexts_foldl _ _
    (fun st b => keepsOtherContexts_setObserverPropertyValue st obs b true) _ s

theorem keepsOtherContexts_setOthersInactive (s : ActivityPolicyFilter) (obs : Observer)
    (obj : QObjectPtr) : KeepsOtherContexts obs.observer_id s (setOthersInactive s obs obj) := by
  refine keepsOtherContexts_foldl _ _ (fun st b => ?_) _ s
  by_cases hb : b = obj
  · simpa [hb] using KeepsOtherContexts.refl obs.observer_id st
  · simpa [hb] using keepsOtherContexts_setObserverPropertyValue st obs b false

theorem keepsOtherContexts_setActiveSubjects (s : ActivityPolicyFilter) (obs : Observer)
    (hobs : s.observer = some obs) (objects : List QObjectPtr) :
    KeepsOtherContexts obs.observer_id s (setActiveSubjects s objects) := by
  by_cases hbad : (∃ o ∈ objects, o = 0 ∨ o ∉ subjects s)
      ∨ (objects = [] ∧ s.d_minimum_activity_policy = .ProhibitNoneActive)
      ∨ (1 < objects.length ∧ s.d_activity_policy = .UniqueActivity)
  · exact keepsOtherContexts_of_activity (setActiveSubjects_of_invalid s objects hbad).1
  · have hv : ∀ o ∈ objects, o ≠ 0 ∧ o ∈ obs.subject_list := by
      intro o ho
      by_contra hc
      apply hbad
      left
      refine ⟨o, ho, ?_⟩
      simp only [subjects, hobs]
      by_cases h0 : o = 0
      · exact Or.inl h0
      · exact Or.inr (fun hm => hc ⟨h0, hm⟩)
    have h1 : objects = [] → s.d_minimum_activity_policy ≠ .ProhibitNoneActive :=
      fun he hp => hbad (Or.inr (Or.inl ⟨he, hp⟩))
    have h2 : 1 < objects.length → s.d_activity_policy ≠ .UniqueActivity :=
      fun hl hp => hbad (Or.inr (Or.inr ⟨hl, hp⟩))
    rw [setActiveSubjects_of_valid s obs objects hobs hv h1 h2]
    have hA : KeepsOtherContexts obs.observer_id s
        (setListActive (setAllInactive (lockFilter s) obs) obs objects) :=
      ((keepsOtherContexts_of_activity (s := s) (t := lockFilter s) rfl).trans
        (keepsOtherContexts_setAllInactive (lockFilter s) obs)).trans
        (keepsOtherContexts_setListActive _ obs objects)
    refine hA.trans (keepsOtherContexts_of_activity ?_)
    exact activity_postChangeEvents _ obs

theorem keepsOtherContexts_finalizeAttachment (s : ActivityPolicyFilter) (obs : Observer)
    (hobs : s.observer = some obs) (obj : QObjectPtr) (b : Bool) :
    KeepsOtherContexts obs.observer_id s (finalizeAttachment s obj b) := by
  by_cases hgo : obj ≠ 0 ∧ b = true
  · obtain ⟨hobj, hb⟩ := hgo
    subst hb
    rw [finalizeAttachment_of_success s obs obj hobs hobj]
    have hd : KeepsOtherContexts obs.observer_id s (determineNewActivity (lockFilter s) obs obj).2 := by
      unfold determineNewActivity
      split_ifs <;>
        first
        | exact keepsOtherContexts_of_activity rfl
        | exact (keepsOtherContexts_of_activity (s := s) (t := lockFilter s) rfl).trans
            (keepsOtherContexts_setOthersInactive (lockFilter s) obs obj)
    refine (hd.trans (keepsOtherContexts_storeNewActivity _ obs obj
      (determineNewActivity (lockFilter s) obs obj).1)).trans
      (keepsOtherContexts_of_activity ?_)
    unfold announceNewActivity
    split <;> rfl
  · have hskip : obj = 0 ∨ b = false := by
      by_cases h0 : obj = 0
      · exact Or.inl h0
      · right
        cases b
        · rfl
        · exact absurd ⟨h0, rfl⟩ hgo
    have : finalizeAttachment s obj b = s := by
      rcases hskip with h | h
      · simp [finalizeAttachment, h]
      · simp [finalizeAttachment, h, hobs]
    rw [this]
    exact KeepsOtherContexts.refl _ s

theorem keepsOtherContexts_restoreMinimumActivity (s : ActivityPolicyFilter) (obs : Observer)
    (obj : QObjectPtr) :
    KeepsOtherContexts obs.observer_id s (restoreMinimumActivity s obs obj) := by
  unfold restoreMinimumActivity
  split_ifs
  · exact keepsOtherContexts_setObserverPropertyValue s obs _ true
  · exact KeepsOtherContexts.refl _ s
  · exact KeepsOtherContexts.refl _ s

/-- C23. Context isolation. For a filter on context A and every context B with another
identifier, no call to `setActiveSubjects`, `finalizeAttachment`, `finalizeDetachment`
or `monitoredPropertyChanged` on the filter of A, with any arguments, changes the
activity value that any object has in B; each call returns. -/
theorem context_isolation (s : ActivityPolicyFilter) (obs other : Observer)
    (hobs : s.observer = some obs) (hne : other.observer_id ≠ obs.observer_id)
    (x : QObjectPtr) :
    (∀ objects, getObserverPropertyValue (setActiveSubjects s objects) other x
        = getObserverPropertyValue s other x)
      ∧ (∀ obj attachment_successful,
          getObserverPropertyValue (finalizeAttachment s obj attachment_successful) other x
            = getObserverPropertyValue s other x)
      ∧ (∀ obj detachment_successful subject_deleted,
          ∃ t, finalizeDetachment s obj detachment_successful subject_deleted = some t
            ∧ getObserverPropertyValue t other x = getObserverPropertyValue s other x)
      ∧ (∀ obj, getObserverPropertyValue (monitoredPropertyChanged s obj).2 other x
          = getObserverPropertyValue s other x) := by
  refine ⟨fun objects => keepsOtherContexts_setActiveSubjects s obs hobs objects other x hne,
    fun obj b => keepsOtherContexts_finalizeAttachment s obs hobs obj b other x hne, ?_, ?_⟩
  · intro obj ds sd
    rcases finalizeDetachment_cases s obs obj ds sd hobs with h | h | h
    · exact ⟨s, h.2, rfl⟩
    · refine ⟨_, h.2.2.2, ?_⟩
      exact ((keepsOtherContexts_of_activity (s := s) (t := lockFilter s) rfl).trans
        (keepsOtherContexts_restoreMinimumActivity (lockFilter s) obs obj)) other x hne
    · exact ⟨_, h.2.2.2, rfl⟩
  · intro obj
    by_cases hm : s.filter_mutex = true
    · rw [monitoredPropertyChanged_of_locked s obj hm]
    · have hm2 : s.filter_mutex = false := by simpa using hm
      obtain ⟨s2, hs2, hcase⟩ := monitoredPropertyChanged_state s obs obj hm2 hobs
      rw [hs2]
      have hk : KeepsOtherContexts obs.observer_id s s2 := by
        rcases hcase with h | h | h
        · rw [h]
          exact (keepsOtherContexts_of_activity (s := s) (t := lockFilter s) rfl).trans
            (keepsOtherContexts_setOthersInactive (lockFilter s) obs obj)
        · rw [h]
          exact keepsOtherContexts_of_activity rfl
        · rw [h]
          exact (keepsOtherContexts_of_activity (s := s) (t := lockFilter s) rfl).trans
            (keepsOtherContexts_setObserverPropertyValue (lockFilter s) obs obj true)
      exact hk other x hne

/-- Subjects `1, 2, 3` are attached to context `7` and are all active in context `9`:
after `setActiveSubjects([2])` and after a change notification for `2` under
`UniqueActivity`, subject `1` is inactive in context `7` and still active in context `9`. -/
theorem context_isolation_witness :
    ((otherObserver [1, 2, 3]).observer_id ≠ (exampleObserver [1, 2, 3]).observer_id
      ∧ getObserverPropertyValue
          (exampleSharedFilter .UniqueActivity .ProhibitNoneActive .SetNewActive [1, 2, 3]
            [1, 2]) (otherObserver [1, 2, 3]) 1 = some true)
    ∧ isActive (setActiveSubjects
        (exampleSharedFilter .UniqueActivity .ProhibitNoneActive .SetNewActive [1, 2, 3] [1, 2])
        [2]) (exampleObserver [1, 2, 3]) 1 = false
    ∧ getObserverPropertyValue (setActiveSubjects
        (exampleSharedFilter .UniqueActivity .ProhibitNoneActive .SetNewActive [1, 2, 3] [1, 2])
        [2]) (otherObserver [1, 2, 3]) 1 = some true
    ∧ getObserverPropertyValue (monitoredPropertyChanged
        (exampleSharedFilter .UniqueActivity .ProhibitNoneActive .SetNewActive [1, 2, 3] [1, 2])
        2).2 (otherObserver [1, 2, 3]) 1 = some true :=
  ⟨by decide, by decide,
    ((context_isolation
      (exampleSharedFilter .UniqueActivity .ProhibitNoneActive .SetNewActive [1, 2, 3] [1, 2])
      (exampleObserver [1, 2, 3]) (otherObserver [1, 2, 3]) rfl (by decide) 1).1 [2]).trans
      (by decide),
    ((context_isolation
      (exampleSharedFilter .UniqueActivity .ProhibitNoneActive .SetNewActive [1, 2, 3] [1, 2])
      (exampleObserver [1, 2, 3]) (otherObserver [1, 2, 3]) rfl (by decide) 1).2.2.2 2).trans
      (by decide)⟩


/-! ### The signals of the finalize hooks -/

theorem effects_setOthersInactive (s : ActivityPolicyFilter) (obs : Observer)
    (obj : QObjectPtr) :
    (setOthersInactive s obs obj).effects
      = s.effects
        ++ (obs.subject_list.filter (fun x => decide (x ≠ obj))).map Effect.propertyWritten :=
  effects_foldl_others obs obj obs.subject_list s

theorem effects_determineNewActivity (s : ActivityPolicyFilter) (obs : Observer)
    (obj : QObjectPtr) :
    ∃ writes : List Effect, (∀ e ∈ writes, e.isWrite = true)
      ∧ (determineNewActivity s obs obj).2.effects = s.effects ++ writes := by
  unfold determineNewActivity
  split_ifs
  · exact ⟨[], fun e he => absurd he (List.not_mem_nil e), by simp⟩
  · exact ⟨[], fun e he => absurd he (List.not_mem_nil e), by simp⟩
  · exact ⟨_, fun e he => isWrite_of_mem_map he, effects_setOthersInactive s obs obj⟩
  · exact ⟨[], fun e he => absurd he (List.not_mem_nil e), by simp⟩
  · exact ⟨[], fun e he => absurd he (List.not_mem_nil e), by simp⟩

theorem effects_storeNewActivity (s : ActivityPolicyFilter) (obs : Observer)
    (obj : QObjectPtr) (v : Bool) :
    (storeNewActivity s obs obj v).effects = s.effects ++ [Effect.propertyWritten obj] := by
  unfold storeNewActivity
  split <;> rfl

/-- What a successful `finalizeAttachment` adds to the effects: activity writes, and
after them the aggregate signal exactly when the new subject becomes active. The active
list of the signal is `activeSubjects()` of the state in which the call returns with the
new subject appended. -/
theorem effects_finalizeAttachment (s : ActivityPolicyFilter) (obs : Observer)
    (obj : QObjectPtr) (hobs : s.observer = some obs) (hobj : obj ≠ 0) :
    ∃ writes : List Effect, (∀ e ∈ writes, e.isWrite = true)
      ∧ (finalizeAttachment s obj true).effects
          = s.effects ++ writes
            ++ (if isActive (finalizeAttachment s obj true) obs obj = true then
                  [Effect.activeSubjectsChanged
                    (activeSubjects (finalizeAttachment s obj true) obs ++ [obj])
                    (inactiveSubjects (finalizeAttachment s obj true) obs)]
                else []) := by
  have hnew : isActive (finalizeAttachment s obj true) obs obj
      = (determineNewActivity (lockFilter s) obs obj).1 := by
    rw [isActive_finalizeAttachment s obs obj hobs hobj obj, if_pos rfl,
      determineNewActivity_fst, determineNewActivity_fst]
    rfl
  obtain ⟨writes, hw, he⟩ := effects_determineNewActivity (lockFilter s) obs obj
  refine ⟨writes ++ [Effect.propertyWritten obj], ?_, ?_⟩
  · intro e hmem
    rcases List.mem_append.1 hmem with h | h
    · exact hw e h
    · rw [List.mem_singleton] at h
      rw [h]
      rfl
  · rw [hnew, finalizeAttachment_of_success s obs obj hobs hobj]
    cases hv : (determineNewActivity (lockFilter s) obs obj).1 with
    | false =>
      simp only [announceNewActivity, Bool.false_eq_true, if_false, effects_unlockFilter,
        effects_storeNewActivity, he, List.append_nil, List.append_assoc]
      rfl
    | true =>
      simp only [announceNewActivity, if_true, effects_unlockFilter, effects_emit,
        effects_storeNewActivity, he, List.append_assoc]
      rfl

/-- Whenever the signal of `finalizeAttachment` is emitted for a subject that is in the
subject list of a context that holds no subject twice, the active list of the signal
holds the new subject twice. -/
theorem finalizeAttachment_active_list_count (s : ActivityPolicyFilter) (obs : Observer)
    (obj : QObjectPtr) (hmem : obj ∈ obs.subject_list) (hnd : obs.subject_list.Nodup)
    (hact : isActive (finalizeAttachment s obj true) obs obj = true) :
    (activeSubjects (finalizeAttachment s obj true) obs ++ [obj]).count obj = 2 := by
  rw [List.count_append, activeSubjects_eq_filter,
    List.count_eq_one_of_mem (hnd.filter _) (List.mem_filter.2 ⟨hmem, hact⟩)]
  simp

/-- C21, the code at the failing input. A context with `UniqueActivity`,
`ProhibitNoneActive`, `SetNewActive` holds subject `1`, active, and subject `2` has just
been appended to its subject list. `finalizeAttachment(2, true)` makes `2` the one active
subject and emits the aggregate signal with the active list `[2, 2]` and the inactive
list `[1]`: the new subject occurs twice in the active list. The same happens for the
first subject of an empty context. -/
theorem finalizeAttachment_signal_repeats_new_subject :
    (finalizeAttachment
        (exampleFilter .UniqueActivity .ProhibitNoneActive .SetNewActive [1, 2] [1]) 2
        true).effects
        = [Effect.propertyWritten 1, Effect.propertyWritten 2,
            Effect.activeSubjectsChanged [2, 2] [1]]
    ∧ activeSubjects (finalizeAttachment
        (exampleFilter .UniqueActivity .ProhibitNoneActive .SetNewActive [1, 2] [1]) 2 true)
        (exampleObserver [1, 2]) = [2]
    ∧ (attachSubject
        (emptyContext .UniqueActivity .ProhibitNoneActive .SetNewActive 7 noActivity) 1).effects
        = [Effect.propertyWritten 1, Effect.activeSubjectsChanged [1, 1] []] := by
  refine ⟨?_, ?_, ?_⟩ <;> decide

/-- The property that `finalizeAttachment` creates on a subject without an activity
property carries the exportable flag `false`. -/
theorem finalizeAttachment_created_property_flag (s : ActivityPolicyFilter) (obs : Observer)
    (obj : QObjectPtr) (hobs : s.observer = some obs) (hobj : obj ≠ 0)
    (hnone : s.activity obj = none) :
    ∃ p, (finalizeAttachment s obj true).activity obj = some p ∧ p.is_exportable = false := by
  rw [finalizeAttachment_of_success s obs obj hobs hobj]
  have hself : (determineNewActivity (lockFilter s) obs obj).2.activity obj = none :=
    (activity_determineNewActivity_self (lockFilter s) obs obj).trans hnone
  have hst : ∀ (st : ActivityPolicyFilter) (v : Bool),
      (unlockFilter (announceNewActivity (storeNewActivity st obs obj v) obs obj v)).activity
        = (storeNewActivity st obs obj v).activity := by
    intro st v
    unfold announceNewActivity
    split <;> rfl
  rw [hst]
  unfold storeNewActivity getObserverProperty
  rw [hself]
  exact ⟨(ObserverProperty.fresh.setIsExportable false).addContext
    (determineNewActivity (lockFilter s) obs obj).1 obs.observer_id,
    by simp [setObserverProperty], rfl⟩

/-- C26, the code at the failing input. Subject `1` carries no activity property and is
attached to an empty context: the `OBJECT_ACTIVITY` property that `finalizeAttachment`
creates on it has its exportable flag set to `false`. -/
theorem created_activity_property_not_exportable :
    noActivity 1 = none
    ∧ ((attachSubject
        (emptyContext .UniqueActivity .ProhibitNoneActive .SetNewActive 7 noActivity)
        1).activity 1).map (fun p => p.is_exportable) = some false
    ∧ ((attachSubject
        (emptyContext .UniqueActivity .ProhibitNoneActive .SetNewActive 7 noActivity)
        1).activity 1).map (fun p => p.context_map 7) = some (some true) := by
  refine ⟨rfl, ?_, ?_⟩ <;> decide


theorem effects_restoreMinimumActivity (s : ActivityPolicyFilter) (obs : Observer)
    (obj : QObjectPtr) :
    ∃ writes : List Effect, (∀ e ∈ writes, e.isWrite = true)
      ∧ (restoreMinimumActivity s obs obj).effects = s.effects ++ writes := by
  unfold restoreMinimumActivity
  split_ifs
  · refine ⟨[Effect.propertyWritten (obs.subject_list.headD 0)], fun e he => ?_, rfl⟩
    rw [List.mem_singleton] at he
    rw [he]
    rfl
  · exact ⟨[], fun e he => absurd he (List.not_mem_nil e), by simp⟩
  · exact ⟨[], fun e he => absurd he (List.not_mem_nil e), by simp⟩

theorem countP_isDirtyNotification_of_writes {writes : List Effect}
    (h : ∀ e ∈ writes, e.isWrite = true) : writes.countP Effect.isDirtyNotification = 0 := by
  rw [List.countP_eq_zero]
  intro e he
  have := h e he
  cases e <;> simp_all [Effect.isWrite, Effect.isDirtyNotification]

/-- C24, as the code has it. `finalizeDetachment` on a filter whose observer is set
returns. When it goes ahead (the subject is not null, and the detachment was successful or
the subject was deleted) and at least one subject remains, what it adds to the effects
is: at most a re-activation write, then one `notifyDirtyProperty` signal, then one
aggregate signal that carries `activeSubjects()` and `inactiveSubjects()` of the state
in which the call returns. When it goes ahead and no subject remains, and when it does
not go ahead, it adds nothing. -/
theorem finalizeDetachment_notifications (s : ActivityPolicyFilter) (obs : Observer)
    (obj : QObjectPtr) (detachment_successful subject_deleted : Bool)
    (hobs : s.observer = some obs) :
    ∃ t, finalizeDetachment s obj detachment_successful subject_deleted = some t
      ∧ (obj ≠ 0 → (detachment_successful = true ∨ subject_deleted = true) →
          obs.subject_list ≠ [] →
          ∃ writes : List Effect, (∀ e ∈ writes, e.isWrite = true)
            ∧ t.effects = s.effects ++ writes
                ++ [Effect.notifyDirtyProperty,
                    Effect.activeSubjectsChanged (activeSubjects t obs) (inactiveSubjects t obs)]
            ∧ (writes ++ [Effect.notifyDirtyProperty,
                    Effect.activeSubjectsChanged (activeSubjects t obs)
                      (inactiveSubjects t obs)]).countP Effect.isDirtyNotification = 1
            ∧ (writes ++ [Effect.notifyDirtyProperty,
                    Effect.activeSubjectsChanged (activeSubjects t obs)
                      (inactiveSubjects t obs)]).countP Effect.isAggregate = 1)
      ∧ (obj ≠ 0 → (detachment_successful = true ∨ subject_deleted = true) →
          obs.subject_list = [] → t.effects = s.effects)
      ∧ (obj = 0 ∨ (detachment_successful = false ∧ subject_deleted = false) →
          t.effects = s.effects) := by
  rcases finalizeDetachment_cases s obs obj detachment_successful subject_deleted hobs with
    h | h | h
  · refine ⟨s, h.2, ?_, fun _ _ _ => rfl, fun _ => rfl⟩
    intro h0 hf _
    rcases h.1 with h1 | h1
    · exact absurd h1 h0
    · rcases hf with h2 | h2
      · rw [h1.1] at h2; exact absurd h2 (by decide)
      · rw [h1.2] at h2; exact absurd h2 (by decide)
  · obtain ⟨h0, hf, hne, heq⟩ := h
    refine ⟨_, heq, ?_, fun _ _ he => absurd he hne, ?_⟩
    · intro _ _ _
      obtain ⟨writes, hw, he⟩ := effects_restoreMinimumActivity (lockFilter s) obs obj
      refine ⟨writes, hw, ?_, ?_, ?_⟩
      · have : (unlockFilter (announceDetachment
            (restoreMinimumActivity (lockFilter s) obs obj) obs)).effects
            = (restoreMinimumActivity (lockFilter s) obs obj).effects
              ++ [Effect.notifyDirtyProperty,
                  Effect.activeSubjectsChanged
                    (activeSubjects (unlockFilter (announceDetachment
                      (restoreMinimumActivity (lockFilter s) obs obj) obs)) obs)
                    (inactiveSubjects (unlockFilter (announceDetachment
                      (restoreMinimumActivity (lockFilter s) obs obj) obs)) obs)] := by
          simp only [unlockFilter, announceDetachment, emit, List.append_assoc,
            List.singleton_append]
          rfl
        rw [this, he]
        rfl
      · rw [List.countP_append, countP_isDirtyNotification_of_writes hw]
        rfl
      · rw [List.countP_append, countP_isAggregate_of_writes hw]
        rfl
    · intro hc
      rcases hc with h1 | h1
      · exact absurd h1 h0
      · rcases hf with h2 | h2
        · rw [h1.1] at h2; exact absurd h2 (by decide)
        · rw [h1.2] at h2; exact absurd h2 (by decide)
  · obtain ⟨h0, hf, hne, heq⟩ := h
    exact ⟨_, heq, fun _ _ hc => absurd hne hc, fun _ _ _ => rfl, fun _ => rfl⟩

/-- Scenario 4 with its signals: subject `1` was active and has been removed, `2, 3`
remain; the call writes the activity of `2`, then emits `notifyDirtyProperty`, then the
aggregate signal with the active list `[2]` and the inactive list `[3]`. -/
theorem finalizeDetachment_notifications_witness :
    ((exampleFilter .UniqueActivity .ProhibitNoneActive .SetNewActive [2, 3] [1]).observer
        = some (exampleObserver [2, 3])
      ∧ (exampleObserver [2, 3]).subject_list ≠ [])
    ∧ (finalizeDetachment
        (exampleFilter .UniqueActivity .ProhibitNoneActive .SetNewActive [2, 3] [1]) 1 true
        false).map (fun t => t.effects)
        = some [Effect.propertyWritten 2, Effect.notifyDirtyProperty,
            Effect.activeSubjectsChanged [2] [3]]
    ∧ ∃ t, finalizeDetachment
        (exampleFilter .UniqueActivity .ProhibitNoneActive .SetNewActive [2, 3] [1]) 1 true
        false = some t
      ∧ ∃ writes : List Effect, (∀ e ∈ writes, e.isWrite = true)
        ∧ t.effects
          = (exampleFilter .UniqueActivity .ProhibitNoneActive .SetNewActive [2, 3]
              [1]).effects ++ writes
            ++ [Effect.notifyDirtyProperty,
                Effect.activeSubjectsChanged (activeSubjects t (exampleObserver [2, 3]))
                  (inactiveSubjects t (exampleObserver [2, 3]))] :=
  ⟨⟨rfl, by decide⟩, by decide,
    (finalizeDetachment_notifications
      (exampleFilter .UniqueActivity .ProhibitNoneActive .SetNewActive [2, 3] [1])
      (exampleObserver [2, 3]) 1 true false rfl).imp
      (fun _ h => ⟨h.1, (h.2.1 (by decide) (Or.inl rfl) (by decide)).imp
        (fun _ k => ⟨k.1, k.2.1⟩)⟩)⟩

/-- C24 as stated fails: with the subjects `2, 3` remaining in the context, a call of
`finalizeDetachment` for subject `1` with the detachment unsuccessful and the subject not
deleted returns without emitting a `notifyDirtyProperty` or an aggregate signal. -/
theorem finalizeDetachment_notifications_counterexample :
    (exampleObserver [2, 3]).subject_list ≠ []
    ∧ (finalizeDetachment
        (exampleFilter .UniqueActivity .ProhibitNoneActive .SetNewActive [2, 3] [2]) 1 false
        false).map (fun t => t.effects) = some [] := by
  refine ⟨?_, ?_⟩ <;> decide

end Qtilities.Core

namespace Qtilities.CoreGui

/-! ### Claim C29 -/

/-- What `filterAcceptsRow` returns for a row of a categorized observer whose name
matches and whose object exists: with the category filter enabled, whether the category
left by the statement `if (!category.isEmpty()) category = tr("Uncategorized");` is
among the displayed categories, negated under the inversed display; with the category
filter disabled, `true`. -/
theorem filterAcceptsRow_of_categorized (r : SourceRow) (h1 : r.name_matches = true)
    (h2 : r.table_model = true) (h3 : r.observer = true)
    (h4 : r.categorized_hierarchy = true) (h5 : r.object_at_index = true) :
    filterAcceptsRow r
      = if r.category_filter_enabled = true then
          (if r.has_inversed_category_display = true then
            !r.displayed_categories.contains (filteredCategory r.category)
          else r.displayed_categories.contains (filteredCategory r.category))
        else true := by
  unfold filterAcceptsRow
  simp only [h1, h2, h3, h4, h5, Bool.not_true, Bool.false_eq_true, if_false, if_true]
  cases r.category_filter_enabled <;> cases r.has_inversed_category_display <;>
    cases r.displayed_categories.contains (filteredCategory r.category) <;> rfl

/-- C29, the code at the failing input. A categorized observer with the category filter
enabled, not inversed, displays the category `Category 1`. A row whose name matches and
whose object carries the category `Category 1` is rejected, because the code replaces
every non-empty category by `Uncategorized`; a row whose object carries an empty
category is rejected when `Uncategorized` is displayed, because the code leaves the
empty category as it is. With the filter disabled both rows are accepted. -/
theorem filterAcceptsRow_swaps_category_test :
    documentedCategory "Category 1" = "Category 1"
    ∧ filteredCategory "Category 1" = "Uncategorized"
    ∧ filterAcceptsRow (exampleRow "Category 1" true false ["Category 1"]) = false
    ∧ filterAcceptsRow (exampleRow "Category 1" true true ["Category 1"]) = true
    ∧ documentedCategory "" = "Uncategorized"
    ∧ filteredCategory "" = ""
    ∧ filterAcceptsRow (exampleRow "" true false ["Uncategorized"]) = false
    ∧ filterAcceptsRow (exampleRow "Category 1" false false []) = true
    ∧ filterAcceptsRow (exampleRow "" false false []) = true := by
  refine ⟨?_, ?_, ?_, ?_, ?_, ?_, ?_, ?_, ?_⟩ <;> decide

end Qtilities.CoreGui

namespace Qtilities.Logging

/-! ### Claim C30 -/

/-- C30. The gating of `AbstractLoggerEngine::newMessages`. For every engine, engine
name, message type and message list: when the addressed engine name is `All` or the
object name of this engine, the engine is active, a formatting engine is installed and
the enabled message types have a bit in common with the message type, the call hands
exactly one message to `logMessage`, the message formatted by the formatting engine;
otherwise the engine is left as it was. After `enableAllMessageTypes()` the last
condition holds for each of `Info`, `Warning`, `Error`, `Fatal`, `Debug` and `Trace`. -/
theorem newMessages_gating (e : AbstractLoggerEngine) (engine_name : String)
    (message_type : Nat) (messages : List String) :
    (passesGate e engine_name message_type →
        ∃ formatting_engine, e.formatting_engine = some formatting_engine
          ∧ (newMessages e engine_name message_type messages).logged
              = e.logged ++ [formatting_engine.formatMessage message_type messages]
          ∧ newMessages e engine_name message_type messages
              = logMessage e (formatting_engine.formatMessage message_type messages))
      ∧ (¬ passesGate e engine_name message_type →
          newMessages e engine_name message_type messages = e)
      ∧ (∀ t ∈ [Logger.Info, Logger.Warning, Logger.Error, Logger.Fatal, Logger.Debug,
            Logger.Trace],
          (enableAllMessageTypes e).enabled_message_types &&& t ≠ 0) := by
  refine ⟨?_, ?_, ?_⟩
  · rintro ⟨hname, hen, hfmt, hbit⟩
    cases hf : e.formatting_engine with
    | none => rw [hf] at hfmt; exact absurd hfmt (by decide)
    | some f =>
      have hn : ¬ (engine_name ≠ "All" ∧ engine_name ≠ e.objectName) := by
        rintro ⟨ha, hb⟩
        rcases hname with h | h
        · exact ha h
        · exact hb h
      have heq : newMessages e engine_name message_type messages
          = logMessage e (f.formatMessage message_type messages) := by
        unfold newMessages
        rw [if_neg hn, if_pos hen]
        simp only [hf]
        rw [if_pos hbit]
      exact ⟨f, rfl, by rw [heq]; rfl, heq⟩
  · intro hgate
    unfold newMessages
    by_cases hn : engine_name ≠ "All" ∧ engine_name ≠ e.objectName
    · rw [if_pos hn]
    · rw [if_neg hn]
      have hname : engine_name = "All" ∨ engine_name = e.objectName := by
        by_contra hc
        exact hn ⟨fun h => hc (Or.inl h), fun h => hc (Or.inr h)⟩
      by_cases hen : e.is_enabled = true
      · rw [if_pos hen]
        cases hf : e.formatting_engine with
        | none => rfl
        | some f =>
          simp only
          by_cases hbit : e.enabled_message_types &&& message_type ≠ 0
          · exact absurd ⟨hname, hen, by rw [hf]; rfl, hbit⟩ hgate
          · rw [if_neg hbit]
      · rw [if_neg hen]
  · intro t ht
    have hall : (enableAllMessageTypes e).enabled_message_types = 63 := by
      simp only [enableAllMessageTypes]
      decide
    rw [hall]
    simp only [List.mem_cons, List.mem_singleton, List.not_mem_nil, or_false] at ht
    rcases ht with h | h | h | h | h | h <;> rw [h] <;> decide

end Qtilities.Logging

namespace Qtilities.Core

/-! ### Claim C7 -/

/-- In a context that had an active subject, when no subject is active once `obj` has
been removed from the subject list, `obj` itself is stored as active. -/
theorem removed_subject_was_active (s : ActivityPolicyFilter) (obs : Observer)
    (obj : QObjectPtr) (hinv : 1 ≤ numActiveSubjects s obs)
    (hnone : numActiveSubjects (removeSubject s obs obj)
        { obs with subject_list := obs.subject_list.erase obj } = 0) :
    isActive s obs obj = true := by
  obtain ⟨y, hy, hya⟩ := exists_active_of_numActiveSubjects_pos s obs hinv
  by_cases hyo : y = obj
  · rw [← hyo]
    exact hya
  · exfalso
    have hmem : y ∈ obs.subject_list.erase obj := (List.mem_erase_of_ne hyo).2 hy
    have hpos : 1 ≤ numActiveSubjects (removeSubject s obs obj)
        { obs with subject_list := obs.subject_list.erase obj } :=
      numActiveSubjects_pos _ _ y hmem hya
    omega

/-- C7. `finalizeDetachment` re-establishes the minimum activity. For every context with
`ProhibitNoneActive` that had an active subject (the non-emptiness invariant of the
context before the detachment): if after a subject has been removed from the subject
list at least one subject remains and `numActiveSubjects()` is zero, then
`finalizeDetachment` with the detachment successful returns and the first remaining
subject, `subjectAt(0)`, is active afterwards. In particular this holds in every state
reached from an empty context by attaching and detaching subjects, setting the active
subjects and writing the activity of attached subjects. -/
theorem finalizeDetachment_restores_minimum_activity (s : ActivityPolicyFilter)
    (obs : Observer) (obj : QObjectPtr) (subject_deleted : Bool)
    (hobs : s.observer = some obs) (hobj : obj ≠ 0)
    (hp : s.d_minimum_activity_policy = .ProhibitNoneActive)
    (hinv : 1 ≤ numActiveSubjects s obs)
    (hne : obs.subject_list.erase obj ≠ [])
    (hnone : numActiveSubjects (removeSubject s obs obj)
        { obs with subject_list := obs.subject_list.erase obj } = 0) :
    (∃ t, finalizeDetachment (removeSubject s obs obj) obj true subject_deleted = some t
        ∧ isActive t { obs with subject_list := obs.subject_list.erase obj }
            ((obs.subject_list.erase obj).headD 0) = true)
      ∧ (∀ ap np observer_id activity ops s0 obs0 removed deleted,
          run (emptyContext ap .ProhibitNoneActive np observer_id activity) ops = some s0 →
          s0.observer = some obs0 → removed ∈ obs0.subject_list → removed ≠ 0 →
          obs0.subject_list.erase removed ≠ [] →
          numActiveSubjects (removeSubject s0 obs0 removed)
            { obs0 with subject_list := obs0.subject_list.erase removed } = 0 →
          ∃ t, finalizeDetachment (removeSubject s0 obs0 removed) removed true deleted = some t
            ∧ isActive t { obs0 with subject_list := obs0.subject_list.erase removed }
                ((obs0.subject_list.erase removed).headD 0) = true) := by
  have step : ∀ (s1 : ActivityPolicyFilter) (obs1 : Observer) (o : QObjectPtr) (sd : Bool),
      s1.observer = some obs1 → o ≠ 0 →
      s1.d_minimum_activity_policy = .ProhibitNoneActive →
      1 ≤ numActiveSubjects s1 obs1 → obs1.subject_list.erase o ≠ [] →
      numActiveSubjects (removeSubject s1 obs1 o)
        { obs1 with subject_list := obs1.subject_list.erase o } = 0 →
      ∃ t, finalizeDetachment (removeSubject s1 obs1 o) o true sd = some t
        ∧ isActive t { obs1 with subject_list := obs1.subject_list.erase o }
            ((obs1.subject_list.erase o).headD 0) = true := by
    intro s1 obs1 o sd _ ho hp1 hinv1 hne1 hnone1
    have hwas : isActive s1 obs1 o = true := removed_subject_was_active s1 obs1 o hinv1 hnone1
    exact finalizeDetachment_activates_head (removeSubject s1 obs1 o)
      { obs1 with subject_list := obs1.subject_list.erase o } o sd rfl ho hp1 hne1 hnone1 hwas
  refine ⟨step s obs obj subject_deleted hobs hobj hp hinv hne hnone, ?_⟩
  intro ap np observer_id activity ops s0 obs0 removed deleted hrun hobs0 hmem h0 hne0 hnone0
  obtain ⟨h1, h2⟩ := emptyContext_invariant ap .ProhibitNoneActive np observer_id activity
  obtain ⟨t, obs2, ht, hst, hit, hpol⟩ := run_invariant ops _ _ h1 h2
  have hs : t = s0 := Option.some.inj (ht.symm.trans hrun)
  subst hs
  have ho : obs2 = obs0 := Option.some.inj (hst.1.symm.trans hobs0)
  subst ho
  have hpt : t.d_minimum_activity_policy = .ProhibitNoneActive :=
    (policies_minimum_activity_policy hpol).trans rfl
  exact step t obs2 removed deleted hobs0 h0 hpt
    (hit.2 hpt (List.ne_nil_of_mem hmem)) hne0 hnone0

/-- Scenario 4: `UniqueActivity`, `ProhibitNoneActive`, subjects `[1 (active), 2, 3]`;
`1` is removed from the list, no remaining subject is active, and `finalizeDetachment`
makes `2`, the first remaining subject, active. -/
theorem finalizeDetachment_restores_minimum_activity_witness :
    (1 ≤ numActiveSubjects
        (exampleFilter .UniqueActivity .ProhibitNoneActive .SetNewActive [1, 2, 3] [1])
        (exampleObserver [1, 2, 3])
      ∧ (exampleObserver [1, 2, 3]).subject_list.erase 1 = [2, 3]
      ∧ numActiveSubjects (removeSubject
          (exampleFilter .UniqueActivity .ProhibitNoneActive .SetNewActive [1, 2, 3] [1])
          (exampleObserver [1, 2, 3]) 1) (exampleObserver [2, 3]) = 0)
    ∧ (∃ t, finalizeDetachment (removeSubject
          (exampleFilter .UniqueActivity .ProhibitNoneActive .SetNewActive [1, 2, 3] [1])
          (exampleObserver [1, 2, 3]) 1) 1 true false = some t
        ∧ isActive t (exampleObserver [2, 3]) 2 = true) :=
  ⟨by decide,
    (finalizeDetachment_restores_minimum_activity
      (exampleFilter .UniqueActivity .ProhibitNoneActive .SetNewActive [1, 2, 3] [1])
      (exampleObserver [1, 2, 3]) 1 false rfl (by decide) rfl (by decide) (by decide)
      (by decide)).1⟩

end Qtilities.Core
